import Mathlib

/-!
# App-store deployment orchestration (devtron): a shallow embedding

Source: `pkg/appStore/deployment/AppStoreDeploymentService.go`.

The service orchestrates calls to collaborators that are not part of the file
(repositories, the two deployment engines, the environment and cluster
services, the database connection).  The embedding keeps the service code as
it is written and takes the collaborators as fields of
`AppStoreDeploymentServiceImpl`, exactly as the Go struct does:

* every collaborator call is a function giving the outcome of that call
  (reads receive the committed database they are run against);
* the committed database is an explicit value `DB`; a transaction is the list
  of writes issued on it (`Tx`), applied to the committed database by a
  successful `Commit` and dropped by `Rollback`;
* the calls made to the deployment engines and to the environment resolver and its
  collaborators are recorded in `State.calls`.
-/

namespace AppStoreDeployment

/-! ## Values -/

/-- Go `error` values the service distinguishes: `pg.ErrNoRows`, `*util.ApiError`
(with its three fields) and every other error. -/
inductive Error where
  | pgErrNoRows
  | apiError (Code : String) (InternalMessage : String) (UserMessage : String)
  | other (msg : String)
  deriving DecidableEq, Repr

/-- Modelled from the spec: the status enumeration `appStoreBean.AppstoreDeploymentStatus`
(its declaration is outside the file).  The service names `DEPLOY_INIT` and
`DEPLOY_SUCCESS`; the remaining members are kept as `other n`. -/
inductive AppstoreDeploymentStatus where
  | DEPLOY_INIT
  | DEPLOY_SUCCESS
  | other (n : Nat)
  deriving DecidableEq, Repr

/-- Embedded `sql.AuditLog`. -/
structure AuditLog where
  CreatedOn : Nat := 0
  CreatedBy : Int := 0
  UpdatedOn : Nat := 0
  UpdatedBy : Int := 0
  deriving DecidableEq, Repr

/-- Row of the `app` table (`app.App`), the fields the service touches. -/
structure App extends AuditLog where
  Id : Int := 0
  AppName : String := ""
  Active : Bool := false
  TeamId : Int := 0
  AppStore : Bool := false
  AppOfferingMode : String := ""
  deriving DecidableEq, Repr

/-- Row of the `installed_apps` table (`appStoreRepository.InstalledApps`). -/
structure InstalledApps extends AuditLog where
  Id : Int := 0
  AppId : Int := 0
  EnvironmentId : Int := 0
  Active : Bool := false
  Status : AppstoreDeploymentStatus := AppstoreDeploymentStatus.other 0
  deriving DecidableEq, Repr

/-- Row of the `installed_app_versions` table (`appStoreRepository.InstalledAppVersions`). -/
structure InstalledAppVersions extends AuditLog where
  Id : Int := 0
  InstalledAppId : Int := 0
  AppStoreApplicationVersionId : Int := 0
  ValuesYaml : String := ""
  Active : Bool := false
  ReferenceValueId : Int := 0
  ReferenceValueKind : String := ""
  deriving DecidableEq, Repr

/-- Row of the `cluster_installed_apps` table (`appStoreRepository.ClusterInstalledApps`). -/
structure ClusterInstalledApps extends AuditLog where
  Id : Int := 0
  ClusterId : Int := 0
  InstalledAppId : Int := 0
  deriving DecidableEq, Repr

/-- Row of the `environment` table (`clusterRepository.Environment`). -/
structure Environment where
  Id : Int := 0
  Name : String := ""
  ClusterId : Int := 0
  Namespace : String := ""
  Default : Bool := false
  Active : Bool := false
  deriving DecidableEq, Repr

/-- The bean `cluster.EnvironmentBean` handed to `environmentService.Create`. -/
structure EnvironmentBean where
  Id : Int := 0
  Environment : String := ""
  ClusterId : Int := 0
  Namespace : String := ""
  Default : Bool := false
  Active : Bool := false
  deriving DecidableEq, Repr

/-- The bean `cluster.ClusterBean` returned by `clusterService.FindById`. -/
structure ClusterBean where
  Id : Int := 0
  ClusterName : String := ""
  deriving DecidableEq, Repr

/-- Row returned by `appStoreApplicationVersionRepository.FindById`. -/
structure AppStoreApplicationVersion where
  Id : Int := 0
  deriving DecidableEq, Repr

/-- The request `appStoreBean.InstallAppVersionDTO`, the fields the service reads or writes. -/
structure InstallAppVersionDTO where
  Id : Int := 0
  AppId : Int := 0
  AppName : String := ""
  TeamId : Int := 0
  EnvironmentId : Int := 0
  InstalledAppId : Int := 0
  InstalledAppVersionId : Int := 0
  AppStoreVersion : Int := 0
  ValuesOverrideYaml : String := ""
  ReferenceValueId : Int := 0
  ReferenceValueKind : String := ""
  DefaultClusterComponent : Bool := false
  ClusterId : Int := 0
  Namespace : String := ""
  AppOfferingMode : String := ""
  EnvironmentName : String := ""
  UserId : Int := 0
  deriving DecidableEq, Repr

/-- The request `bean.CreateAppDTO`. -/
structure CreateAppDTO where
  Id : Int := 0
  AppName : String := ""
  TeamId : Int := 0
  UserId : Int := 0
  deriving DecidableEq, Repr

/-- Element of the listing returned by `GetAllIntalledAppsByAppStoreId`
(`appStoreRepository.InstalledAppsWithChartDetails`). -/
structure InstalledAppsWithChartDetails where
  EnvironmentName : String := ""
  AppName : String := ""
  UpdatedOn : Nat := 0
  EmailId : String := ""
  AppStoreApplicationVersionId : Int := 0
  InstalledAppVersionId : Int := 0
  InstalledAppId : Int := 0
  EnvironmentId : Int := 0
  AppOfferingMode : String := ""
  deriving DecidableEq, Repr

/-- Response entry `appStoreBean.InstalledAppsResponse`. -/
structure InstalledAppsResponse where
  EnvironmentName : String := ""
  AppName : String := ""
  DeployedAt : Nat := 0
  DeployedBy : String := ""
  Status : String := ""
  AppStoreApplicationVersionId : Int := 0
  InstalledAppVersionId : Int := 0
  InstalledAppsId : Int := 0
  EnvironmentId : Int := 0
  AppOfferingMode : String := ""
  ClusterId : Int := 0
  Namespace : String := ""
  deriving DecidableEq, Repr

/-! ## The committed database and transactions -/

/-- Committed content of the five tables the service works on. -/
structure DB where
  app : List App := []
  installedApps : List InstalledApps := []
  installedAppVersions : List InstalledAppVersions := []
  clusterInstalledApps : List ClusterInstalledApps := []
  environment : List Environment := []
  deriving DecidableEq, Repr

/-- A write issued on a transaction handle (`tx.Insert` / `tx.Update` of one row). -/
inductive Write where
  | insertApp (row : App)
  | updateApp (row : App)
  | insertInstalledApp (row : InstalledApps)
  | updateInstalledApp (row : InstalledApps)
  | insertInstalledAppVersion (row : InstalledAppVersions)
  | updateInstalledAppVersion (row : InstalledAppVersions)
  | insertClusterInstalledApps (row : ClusterInstalledApps)
  deriving DecidableEq, Repr

/-- An open transaction: the writes issued on it so far, oldest first. -/
abbrev Tx := List Write

/-- Modelled from the spec: the typed insert and update of the Persistence Gateway
(the repository implementations are outside the file).  An insert adds the row;
an update replaces the row that has the same primary key. -/
def DB.applyWrite (db : DB) : Write → DB
  | Write.insertApp row => { db with app := db.app ++ [row] }
  | Write.updateApp row =>
      { db with app := db.app.map (fun r => if r.Id = row.Id then row else r) }
  | Write.insertInstalledApp row => { db with installedApps := db.installedApps ++ [row] }
  | Write.updateInstalledApp row =>
      { db with installedApps := db.installedApps.map (fun r => if r.Id = row.Id then row else r) }
  | Write.insertInstalledAppVersion row =>
      { db with installedAppVersions := db.installedAppVersions ++ [row] }
  | Write.updateInstalledAppVersion row =>
      { db with installedAppVersions :=
          db.installedAppVersions.map (fun r => if r.Id = row.Id then row else r) }
  | Write.insertClusterInstalledApps row =>
      { db with clusterInstalledApps := db.clusterInstalledApps ++ [row] }

/-- Modelled from the spec: a successful `tx.Commit()` applies the writes of the
transaction, in order, to the committed database (the unit of work of the
glossary: all writes succeed together). -/
def DB.commit (db : DB) (tx : Tx) : DB :=
  tx.foldl DB.applyWrite db

/-- Exact-match fetch of an `installed_apps` row by primary key from the committed database. -/
def DB.findInstalledApp (db : DB) (id : Int) : Option InstalledApps :=
  db.installedApps.find? (fun r => r.Id = id)

/-- Exact-match fetch of an `app` row by primary key from the committed database. -/
def DB.findApp (db : DB) (id : Int) : Option App :=
  db.app.find? (fun r => r.Id = id)

/-! ## Collaborators -/

/-- The three places where the service opens a transaction (`dbConnection.Begin()`):
in `InstallApp`, in `AppStoreDeployOperationStatusUpdate` and in `DeleteInstalledApp`. -/
inductive TxSite where
  | install
  | statusUpdate
  | delete
  deriving DecidableEq, Repr

/-- The connection `*pg.DB`: outcome (`nil` or an error) of `Begin()` and of the
`Commit()` of the transaction opened at each site. -/
structure PgDB where
  Begin : TxSite → Option Error
  Commit : TxSite → Option Error

/-- Interface `appStoreDiscoverRepository.AppStoreApplicationVersionRepository`. -/
structure AppStoreApplicationVersionRepository where
  FindById : Int → Except Error AppStoreApplicationVersion

/-- Interface `clusterRepository.EnvironmentRepository`. -/
structure EnvironmentRepository where
  FindById : DB → Int → Except Error Environment
  FindOneByNamespaceAndClusterId : DB → String → Int → Except Error Environment

/-- Interface `appStoreRepository.ClusterInstalledAppsRepository`. -/
structure ClusterInstalledAppsRepository where
  Save : ClusterInstalledApps → Option Error

/-- Interface `app.AppRepository`.  `FindActiveByName` returns the Go pair
`(app, err)`; an insert returns the primary key given to the row. -/
structure AppRepository where
  FindActiveByName : DB → String → Option App × Option Error
  FindActiveListByName : DB → String → Except Error (List App)
  FindById : DB → Int → Except Error App
  SaveWithTxn : App → Except Error Int
  UpdateWithTxn : App → Option Error

/-- Interface `appStoreRepository.InstalledAppRepository`. -/
structure InstalledAppRepository where
  GetConnection : PgDB
  GetInstalledApp : DB → Int → Except Error InstalledApps
  GetInstalledAppVersionByInstalledAppId : DB → Int → Except Error (List InstalledAppVersions)
  GetAllIntalledAppsByAppStoreId : DB → Int → List InstalledAppsWithChartDetails × Option Error
  CreateInstalledApp : InstalledApps → Except Error Int
  UpdateInstalledApp : InstalledApps → Option Error
  CreateInstalledAppVersion : InstalledAppVersions → Except Error Int
  UpdateInstalledAppVersion : InstalledAppVersions → Option Error

/-- Common contract of `AppStoreDeploymentHelmService` and `AppStoreDeploymentArgoCdService`.
`GetAppStatus` returns the Go pair `(status, err)`. -/
structure DeploymentTool where
  InstallApp : InstallAppVersionDTO → Option Error
  DeleteInstalledApp : String → String → InstallAppVersionDTO → InstalledApps → Option Error
  GetAppStatus : InstalledAppsWithChartDetails → String × Option Error

/-- Interface `cluster.EnvironmentService`. -/
structure EnvironmentService where
  Create : EnvironmentBean → Int → Except Error EnvironmentBean

/-- Interface `cluster.ClusterService`. -/
structure ClusterService where
  FindById : Int → Except Error ClusterBean

/-- The service struct with its collaborators, together with what the file
imports from other packages: the global `util2.GetDevtronVersion().ServerMode`,
the constants `util2.SERVER_MODE_HYPERION`, `constants.AppAlreadyExists.Code` and
`constants.AppDetailResourceTreeNotFound`, the function
`cluster2.BuildEnvironmentIdentifer` and the clock `time.Now()`. -/
structure AppStoreDeploymentServiceImpl where
  installedAppRepository : InstalledAppRepository
  appStoreApplicationVersionRepository : AppStoreApplicationVersionRepository
  environmentRepository : EnvironmentRepository
  clusterInstalledAppsRepository : ClusterInstalledAppsRepository
  appRepository : AppRepository
  appStoreDeploymentHelmService : DeploymentTool
  appStoreDeploymentArgoCdService : DeploymentTool
  environmentService : EnvironmentService
  clusterService : ClusterService
  ServerMode : String
  SERVER_MODE_HYPERION : String
  AppAlreadyExistsCode : String
  AppDetailResourceTreeNotFound : String
  BuildEnvironmentIdentifer : String → String → String
  Now : Nat

/-- The two deployment engines. -/
inductive Engine where
  | helm
  | argoCd
  deriving DecidableEq, Repr

/-- Calls to collaborators that the embedding records. -/
inductive Call where
  | InstallApp (engine : Engine) (request : InstallAppVersionDTO)
  | DeleteInstalledApp (engine : Engine) (appName : String) (environmentName : String)
      (request : InstallAppVersionDTO) (model : InstalledApps)
  | GetAppStatus (engine : Engine) (a : InstalledAppsWithChartDetails)
  | FindOneByNamespaceAndClusterId (ns : String) (clusterId : Int)
  | ClusterFindById (clusterId : Int)
  | EnvironmentCreate (bean : EnvironmentBean) (userId : Int)
  deriving DecidableEq, Repr

/-- What a call of the service works on: the committed database and the record
of collaborator calls made so far (oldest first). -/
structure State where
  db : DB := {}
  calls : List Call := []
  deriving DecidableEq, Repr

/-- Append one call to the record. -/
def State.record (s : State) (c : Call) : State :=
  { s with calls := s.calls ++ [c] }

/-- The engine a recorded call went to, if it is an engine call. -/
def Call.engine? : Call → Option Engine
  | Call.InstallApp e _ => some e
  | Call.DeleteInstalledApp e _ _ _ _ => some e
  | Call.GetAppStatus e _ => some e
  | _ => none

/-- The engines invoked, in order, in a record of calls. -/
def engineCalls (calls : List Call) : List Engine :=
  calls.filterMap Call.engine?

/-! ## The service -/

/-- Modelled from the spec: `util.IsErrNoRows` (declared outside the file), the
test for the not-found error of the Persistence Gateway. -/
def IsErrNoRows (err : Error) : Bool :=
  decide (err = Error.pgErrNoRows)

/-- The `*util.ApiError` built twice in `createAppForAppStore`. -/
def appAlreadyExistsError (impl : AppStoreDeploymentServiceImpl) (appName : String) : Error :=
  Error.apiError impl.AppAlreadyExistsCode "app already exists"
    ("app already exists with name " ++ appName)

/-- Modelled from the spec: the effect of a successful `environmentService.Create`
(the service is outside the file and is called without the transaction handle):
it "creates a new Environment", here the row with the fields of the bean and the
key the service returned, stored in the committed database. -/
def DB.createEnvironment (db : DB) (bean : EnvironmentBean) (id : Int) : DB :=
  { db with
    environment := db.environment ++
      [{ Id := id
         Name := bean.Environment
         ClusterId := bean.ClusterId
         Namespace := bean.Namespace
         Default := bean.Default
         Active := bean.Active }] }

/-- Embedding of `createEnvironmentIfNotExists`; returns the Go pair `(id, err)`. -/
def createEnvironmentIfNotExists (impl : AppStoreDeploymentServiceImpl)
    (installAppVersionRequest : InstallAppVersionDTO) (s : State) : (Int × Option Error) × State :=
  let clusterId := installAppVersionRequest.ClusterId
  let ns := installAppVersionRequest.Namespace
  let s := s.record (Call.FindOneByNamespaceAndClusterId ns clusterId)
  match impl.environmentRepository.FindOneByNamespaceAndClusterId s.db ns clusterId with
  | Except.ok env => ((env.Id, none), s)
  | Except.error err =>
    if err ≠ Error.pgErrNoRows then ((0, some err), s)
    else
      -- create env
      let s := s.record (Call.ClusterFindById clusterId)
      match impl.clusterService.FindById clusterId with
      | Except.error err => ((0, some err), s)
      | Except.ok cluster =>
        let environmentBean : EnvironmentBean :=
          { Environment := impl.BuildEnvironmentIdentifer cluster.ClusterName ns
            ClusterId := clusterId
            Namespace := ns
            Default := false
            Active := true }
        let s := s.record (Call.EnvironmentCreate environmentBean installAppVersionRequest.UserId)
        match impl.environmentService.Create environmentBean installAppVersionRequest.UserId with
        | Except.error err => ((0, some err), s)
        | Except.ok envCreateRes =>
          ((envCreateRes.Id, none), { s with db := s.db.createEnvironment environmentBean envCreateRes.Id })

/-- Embedding of `createAppForAppStore`: the result and the transaction after it.
`apps[0]` under `appLen > 1` is the head of a list with at least two elements. -/
def createAppForAppStore (impl : AppStoreDeploymentServiceImpl) (createRequest : CreateAppDTO)
    (tx : Tx) (db : DB) : Except Error CreateAppDTO × Tx :=
  match impl.appRepository.FindActiveByName db createRequest.AppName with
  | (app1, err) =>
    if h : err.isSome = true ∧ err ≠ some Error.pgErrNoRows then (Except.error (err.get h.1), tx)
    else if (match app1 with
             | some a => decide (a.Id > 0)
             | none => false) = true then
      (Except.error (appAlreadyExistsError impl createRequest.AppName), tx)
    else
      let pg : App :=
        { Active := true
          AppName := createRequest.AppName
          TeamId := createRequest.TeamId
          AppStore := true
          AppOfferingMode := impl.ServerMode
          UpdatedBy := createRequest.UserId
          CreatedBy := createRequest.UserId
          UpdatedOn := impl.Now
          CreatedOn := impl.Now }
      match impl.appRepository.SaveWithTxn pg with
      | Except.error err => (Except.error err, tx)
      | Except.ok id =>
        let pg : App := { pg with Id := id }
        let tx := tx ++ [Write.insertApp pg]
        -- if found more than 1 application, soft delete all except first item
        match impl.appRepository.FindActiveListByName db createRequest.AppName with
        | Except.error err => (Except.error err, tx)
        | Except.ok apps =>
          match apps with
          | firstElement :: _ :: _ =>
            if firstElement.Id ≠ pg.Id then
              let pg : App := { pg with Active := false }
              match impl.appRepository.UpdateWithTxn pg with
              | some err => (Except.error err, tx)
              | none =>
                (Except.error (appAlreadyExistsError impl createRequest.AppName),
                  tx ++ [Write.updateApp pg])
            else (Except.ok { createRequest with Id := pg.Id }, tx)
          | _ => (Except.ok { createRequest with Id := pg.Id }, tx)

/-- Embedding of `AppStoreDeployOperationDB`: the result, the transaction after
it and the state after it. -/
def AppStoreDeployOperationDB (impl : AppStoreDeploymentServiceImpl)
    (installAppVersionRequest : InstallAppVersionDTO) (tx : Tx) (s : State) :
    Except Error InstallAppVersionDTO × Tx × State :=
  match impl.appStoreApplicationVersionRepository.FindById installAppVersionRequest.AppStoreVersion with
  | Except.error err => (Except.error err, tx, s)
  | Except.ok appStoreAppVersion =>
    -- create env if env not exists for clusterId and namespace for hyperion mode
    let r : Option Error × InstallAppVersionDTO × State :=
      if impl.ServerMode = impl.SERVER_MODE_HYPERION then
        match createEnvironmentIfNotExists impl installAppVersionRequest s with
        | ((_, some err), s1) => (some err, installAppVersionRequest, s1)
        | ((envId, none), s1) => (none, { installAppVersionRequest with EnvironmentId := envId }, s1)
      else (none, installAppVersionRequest, s)
    match r with
    | (some err, _, s) => (Except.error err, tx, s)
    | (none, installAppVersionRequest, s) =>
      match impl.environmentRepository.FindById s.db installAppVersionRequest.EnvironmentId with
      | Except.error err => (Except.error err, tx, s)
      | Except.ok environment =>
        let appCreateRequest : CreateAppDTO :=
          { Id := installAppVersionRequest.AppId
            AppName := installAppVersionRequest.AppName
            TeamId := installAppVersionRequest.TeamId
            UserId := installAppVersionRequest.UserId }
        match createAppForAppStore impl appCreateRequest tx s.db with
        | (Except.error err, tx) => (Except.error err, tx, s)
        | (Except.ok appCreateRequest, tx) =>
          let installAppVersionRequest := { installAppVersionRequest with AppId := appCreateRequest.Id }
          let installedAppModel : InstalledApps :=
            { AppId := appCreateRequest.Id
              EnvironmentId := environment.Id
              Status := AppstoreDeploymentStatus.DEPLOY_INIT
              CreatedBy := installAppVersionRequest.UserId
              UpdatedBy := installAppVersionRequest.UserId
              CreatedOn := impl.Now
              UpdatedOn := impl.Now
              Active := true }
          match impl.installedAppRepository.CreateInstalledApp installedAppModel with
          | Except.error err => (Except.error err, tx, s)
          | Except.ok id =>
            let installedApp : InstalledApps := { installedAppModel with Id := id }
            let tx := tx ++ [Write.insertInstalledApp installedApp]
            let installAppVersionRequest :=
              { installAppVersionRequest with InstalledAppId := installedApp.Id }
            let installedAppVersions : InstalledAppVersions :=
              { InstalledAppId := installAppVersionRequest.InstalledAppId
                AppStoreApplicationVersionId := appStoreAppVersion.Id
                ValuesYaml := installAppVersionRequest.ValuesOverrideYaml
                CreatedBy := installAppVersionRequest.UserId
                UpdatedBy := installAppVersionRequest.UserId
                CreatedOn := impl.Now
                UpdatedOn := impl.Now
                Active := true
                ReferenceValueId := installAppVersionRequest.ReferenceValueId
                ReferenceValueKind := installAppVersionRequest.ReferenceValueKind }
            match impl.installedAppRepository.CreateInstalledAppVersion installedAppVersions with
            | Except.error err => (Except.error err, tx, s)
            | Except.ok vid =>
              let installedAppVersions : InstalledAppVersions := { installedAppVersions with Id := vid }
              let tx := tx ++ [Write.insertInstalledAppVersion installedAppVersions]
              let installAppVersionRequest :=
                { installAppVersionRequest with InstalledAppVersionId := installedAppVersions.Id }
              if installAppVersionRequest.DefaultClusterComponent = true then
                let clusterInstalledAppsModel : ClusterInstalledApps :=
                  { ClusterId := environment.ClusterId
                    InstalledAppId := installAppVersionRequest.InstalledAppId
                    CreatedBy := installAppVersionRequest.UserId
                    UpdatedBy := installAppVersionRequest.UserId
                    CreatedOn := impl.Now
                    UpdatedOn := impl.Now }
                match impl.clusterInstalledAppsRepository.Save clusterInstalledAppsModel with
                | some err => (Except.error err, tx, s)
                | none =>
                  (Except.ok installAppVersionRequest,
                    tx ++ [Write.insertClusterInstalledApps clusterInstalledAppsModel], s)
              else (Except.ok installAppVersionRequest, tx, s)

/-- Embedding of `AppStoreDeployOperationStatusUpdate`; returns the Go pair
`(ok, err)`.  The deferred `tx.Rollback()` drops the writes of the transaction
on every path that returns before a successful `Commit`, and does nothing after it. -/
def AppStoreDeployOperationStatusUpdate (impl : AppStoreDeploymentServiceImpl) (installAppId : Int)
    (status : AppstoreDeploymentStatus) (s : State) : (Bool × Option Error) × State :=
  match impl.installedAppRepository.GetConnection.Begin TxSite.statusUpdate with
  | some err => ((false, some err), s)
  | none =>
    let tx : Tx := []
    match impl.installedAppRepository.GetInstalledApp s.db installAppId with
    | Except.error err => ((false, some err), s)
    | Except.ok installedApp =>
      let installedApp : InstalledApps := { installedApp with Status := status }
      match impl.installedAppRepository.UpdateInstalledApp installedApp with
      | some err => ((false, some err), s)
      | none =>
        let tx := tx ++ [Write.updateInstalledApp installedApp]
        match impl.installedAppRepository.GetConnection.Commit TxSite.statusUpdate with
        | some err => ((false, some err), s)
        | none => ((true, none), { s with db := s.db.commit tx })

/-- Embedding of `InstallApp`.  The engine receives the request and returns an
error or `nil`; the transaction is committed after the engine call, and the
deferred `tx.Rollback()` drops it on every earlier return. -/
def InstallApp (impl : AppStoreDeploymentServiceImpl) (installAppVersionRequest : InstallAppVersionDTO)
    (s : State) : Except Error InstallAppVersionDTO × State :=
  match impl.installedAppRepository.GetConnection.Begin TxSite.install with
  | some err => (Except.error err, s)
  | none =>
    --step 1 db operation initiated
    match AppStoreDeployOperationDB impl installAppVersionRequest [] s with
    | (Except.error err, _, s) => (Except.error err, s)
    | (Except.ok installAppVersionRequest, tx, s) =>
      let r : Option Error × State :=
        if impl.ServerMode = impl.SERVER_MODE_HYPERION then
          (impl.appStoreDeploymentHelmService.InstallApp installAppVersionRequest,
            s.record (Call.InstallApp Engine.helm installAppVersionRequest))
        else
          (impl.appStoreDeploymentArgoCdService.InstallApp installAppVersionRequest,
            s.record (Call.InstallApp Engine.argoCd installAppVersionRequest))
      match r with
      | (some err, s) => (Except.error err, s)
      | (none, s) =>
        -- tx commit here because next operation will be process after this commit.
        match impl.installedAppRepository.GetConnection.Commit TxSite.install with
        | some err => (Except.error err, s)
        | none =>
          let s : State := { s with db := s.db.commit tx }
          --step 4 db operation status update to deploy success
          match AppStoreDeployOperationStatusUpdate impl installAppVersionRequest.InstalledAppId
              AppstoreDeploymentStatus.DEPLOY_SUCCESS s with
          | ((_, some err), s) => (Except.error err, s)
          | ((_, none), s) => (Except.ok installAppVersionRequest, s)

/-- Body of the loop of `GetAllInstalledAppsByAppStoreId` for one element `a`:
an early `return nil, err` is `Except.error err`, otherwise the entry appended
to the response. -/
def GetAllInstalledAppsByAppStoreId.forApp (impl : AppStoreDeploymentServiceImpl)
    (a : InstalledAppsWithChartDetails) (s : State) : Except Error InstalledAppsResponse × State :=
  let r : (String × Option Error) × State :=
    if impl.ServerMode = impl.SERVER_MODE_HYPERION ∨ a.AppOfferingMode = impl.SERVER_MODE_HYPERION then
      (impl.appStoreDeploymentHelmService.GetAppStatus a, s.record (Call.GetAppStatus Engine.helm a))
    else
      (impl.appStoreDeploymentArgoCdService.GetAppStatus a, s.record (Call.GetAppStatus Engine.argoCd a))
  match r with
  | ((status, err), s) =>
    let checked : Except Error String :=
      match err with
      | some (Error.apiError code _ _) =>
        if code = impl.AppDetailResourceTreeNotFound then Except.ok "Not Found" else Except.ok status
      | some err => Except.error err
      | none => Except.ok status
    match checked with
    | Except.error err => (Except.error err, s)
    | Except.ok status =>
      let installedAppRes : InstalledAppsResponse :=
        { EnvironmentName := a.EnvironmentName
          AppName := a.AppName
          DeployedAt := a.UpdatedOn
          DeployedBy := a.EmailId
          Status := status
          AppStoreApplicationVersionId := a.AppStoreApplicationVersionId
          InstalledAppVersionId := a.InstalledAppVersionId
          InstalledAppsId := a.InstalledAppId
          EnvironmentId := a.EnvironmentId
          AppOfferingMode := a.AppOfferingMode }
      -- if hyperion mode app, then fill clusterId and namespace
      if a.AppOfferingMode = impl.SERVER_MODE_HYPERION then
        match impl.environmentRepository.FindById s.db a.EnvironmentId with
        | Except.error err => (Except.error err, s)
        | Except.ok environment =>
          (Except.ok { installedAppRes with
              ClusterId := environment.ClusterId
              Namespace := environment.Namespace }, s)
      else (Except.ok installedAppRes, s)

/-- The loop of `GetAllInstalledAppsByAppStoreId` over the remaining elements,
with the response built so far. -/
def GetAllInstalledAppsByAppStoreId.loop (impl : AppStoreDeploymentServiceImpl) :
    List InstalledAppsWithChartDetails → List InstalledAppsResponse → State →
      Except Error (List InstalledAppsResponse) × State
  | [], installedAppsEnvResponse, s => (Except.ok installedAppsEnvResponse, s)
  | a :: rest, installedAppsEnvResponse, s =>
    match GetAllInstalledAppsByAppStoreId.forApp impl a s with
    | (Except.error err, s) => (Except.error err, s)
    | (Except.ok installedAppRes, s) =>
      GetAllInstalledAppsByAppStoreId.loop impl rest (installedAppsEnvResponse ++ [installedAppRes]) s

/-- Embedding of `GetAllInstalledAppsByAppStoreId` (the HTTP writer, request and
token are only handed on to the engine and are left out). -/
def GetAllInstalledAppsByAppStoreId (impl : AppStoreDeploymentServiceImpl) (appStoreId : Int)
    (s : State) : Except Error (List InstalledAppsResponse) × State :=
  match impl.installedAppRepository.GetAllIntalledAppsByAppStoreId s.db appStoreId with
  | (installedApps, some err) =>
    if IsErrNoRows err = false then (Except.error err, s)
    else GetAllInstalledAppsByAppStoreId.loop impl installedApps [] s
  | (installedApps, none) => GetAllInstalledAppsByAppStoreId.loop impl installedApps [] s

/-- The loop of `DeleteInstalledApp` over the version rows: deactivate each one
on the transaction, stopping at the first failing update. -/
def DeleteInstalledApp.forItems (impl : AppStoreDeploymentServiceImpl) (userId : Int) :
    List InstalledAppVersions → Tx → Option Error × Tx
  | [], tx => (none, tx)
  | item :: rest, tx =>
    let item : InstalledAppVersions :=
      { item with Active := false, UpdatedBy := userId, UpdatedOn := impl.Now }
    match impl.installedAppRepository.UpdateInstalledAppVersion item with
    | some err => (some err, tx)
    | none => DeleteInstalledApp.forItems impl userId rest (tx ++ [Write.updateInstalledAppVersion item])

/-- Embedding of `DeleteInstalledApp`.  The engine is called with the open
transaction; the tables of this model receive no write from it.  The deferred
`tx.Rollback()` drops the transaction on every return before a successful `Commit`. -/
def DeleteInstalledApp (impl : AppStoreDeploymentServiceImpl)
    (installAppVersionRequest : InstallAppVersionDTO) (s : State) :
    Except Error InstallAppVersionDTO × State :=
  match impl.environmentRepository.FindById s.db installAppVersionRequest.EnvironmentId with
  | Except.error err => (Except.error err, s)
  | Except.ok environment =>
    match impl.installedAppRepository.GetConnection.Begin TxSite.delete with
    | some err => (Except.error err, s)
    | none =>
      let tx : Tx := []
      match impl.appRepository.FindById s.db installAppVersionRequest.AppId with
      | Except.error err => (Except.error err, s)
      | Except.ok app =>
        let app : App :=
          { app with Active := false, UpdatedBy := installAppVersionRequest.UserId, UpdatedOn := impl.Now }
        match impl.appRepository.UpdateWithTxn app with
        | some err => (Except.error err, s)
        | none =>
          let tx := tx ++ [Write.updateApp app]
          match impl.installedAppRepository.GetInstalledApp s.db installAppVersionRequest.InstalledAppId with
          | Except.error err => (Except.error err, s)
          | Except.ok model =>
            let model : InstalledApps :=
              { model with
                  Active := false, UpdatedBy := installAppVersionRequest.UserId, UpdatedOn := impl.Now }
            match impl.installedAppRepository.UpdateInstalledApp model with
            | some err => (Except.error err, s)
            | none =>
              let tx := tx ++ [Write.updateInstalledApp model]
              match impl.installedAppRepository.GetInstalledAppVersionByInstalledAppId s.db
                  installAppVersionRequest.InstalledAppId with
              | Except.error err => (Except.error err, s)
              | Except.ok models =>
                match DeleteInstalledApp.forItems impl installAppVersionRequest.UserId models tx with
                | (some err, _) => (Except.error err, s)
                | (none, tx) =>
                  let r : Option Error × State :=
                    if impl.ServerMode = impl.SERVER_MODE_HYPERION
                        ∨ app.AppOfferingMode = impl.SERVER_MODE_HYPERION then
                      (impl.appStoreDeploymentHelmService.DeleteInstalledApp app.AppName environment.Name
                          installAppVersionRequest model,
                        s.record (Call.DeleteInstalledApp Engine.helm app.AppName environment.Name
                          installAppVersionRequest model))
                    else
                      (impl.appStoreDeploymentArgoCdService.DeleteInstalledApp app.AppName environment.Name
                          installAppVersionRequest model,
                        s.record (Call.DeleteInstalledApp Engine.argoCd app.AppName environment.Name
                          installAppVersionRequest model))
                  match r with
                  | (some err, s) => (Except.error err, s)
                  | (none, s) =>
                    match impl.installedAppRepository.GetConnection.Commit TxSite.delete with
                    | some err => (Except.error err, s)
                    | none => (Except.ok installAppVersionRequest, { s with db := s.db.commit tx })

/-- Modelled from the spec: the selector rule of section 4.6, "if either the
global mode or the record-s stored mode indicates the lightweight/no-GitOps
mode, select the direct-apply engine; otherwise select the GitOps engine". -/
def specSelectEngine (hyperion globalMode recordMode : String) : Engine :=
  if globalMode = hyperion ∨ recordMode = hyperion then Engine.helm else Engine.argoCd

/-! ## A concrete deployment used to evaluate the service -/

/-- A repository over the committed database whose calls all succeed: reads are
exact-match lookups, inserts hand out the keys 1 (app), 10 (installed app) and
100 (installed-app version). -/
def demoInstalledAppRepository : InstalledAppRepository where
  GetConnection := { Begin := fun _ => none, Commit := fun _ => none }
  GetInstalledApp := fun db id =>
    match db.findInstalledApp id with
    | some r => Except.ok r
    | none => Except.error Error.pgErrNoRows
  GetInstalledAppVersionByInstalledAppId := fun db id =>
    Except.ok (db.installedAppVersions.filter (fun v => decide (v.InstalledAppId = id)))
  GetAllIntalledAppsByAppStoreId := fun _ _ => ([], none)
  CreateInstalledApp := fun _ => Except.ok 10
  UpdateInstalledApp := fun _ => none
  CreateInstalledAppVersion := fun _ => Except.ok 100
  UpdateInstalledAppVersion := fun _ => none

/-- An app repository over the committed database whose calls all succeed. -/
def demoAppRepository : AppRepository where
  FindActiveByName := fun db name =>
    match db.app.find? (fun a => decide (a.AppName = name) && a.Active) with
    | some a => (some a, none)
    | none => (none, some Error.pgErrNoRows)
  FindActiveListByName := fun db name =>
    Except.ok (db.app.filter (fun a => decide (a.AppName = name) && a.Active))
  FindById := fun db id =>
    match db.findApp id with
    | some a => Except.ok a
    | none => Except.error Error.pgErrNoRows
  SaveWithTxn := fun _ => Except.ok 1
  UpdateWithTxn := fun _ => none

/-- An engine whose calls all succeed and that reports the status "Healthy". -/
def demoEngine : DeploymentTool where
  InstallApp := fun _ => none
  DeleteInstalledApp := fun _ _ _ _ => none
  GetAppStatus := fun _ => ("Healthy", none)

/-- An engine whose install and delete calls fail. -/
def downEngine : DeploymentTool where
  InstallApp := fun _ => some (Error.other "engine down")
  DeleteInstalledApp := fun _ _ _ _ => some (Error.other "engine down")
  GetAppStatus := fun _ => ("", some (Error.other "engine down"))

/-- A service in the full (GitOps) operating mode in which every collaborator succeeds. -/
def demoImpl : AppStoreDeploymentServiceImpl where
  installedAppRepository := demoInstalledAppRepository
  appStoreApplicationVersionRepository := { FindById := fun id => Except.ok { Id := id } }
  environmentRepository :=
    { FindById := fun db id =>
        match db.environment.find? (fun e => decide (e.Id = id)) with
        | some e => Except.ok e
        | none => Except.error Error.pgErrNoRows
      FindOneByNamespaceAndClusterId := fun db ns clusterId =>
        match db.environment.find? (fun e => decide (e.Namespace = ns) && decide (e.ClusterId = clusterId)) with
        | some e => Except.ok e
        | none => Except.error Error.pgErrNoRows }
  clusterInstalledAppsRepository := { Save := fun _ => none }
  appRepository := demoAppRepository
  appStoreDeploymentHelmService := demoEngine
  appStoreDeploymentArgoCdService := demoEngine
  environmentService := { Create := fun bean _ => Except.ok { bean with Id := 2 } }
  clusterService := { FindById := fun id => Except.ok { Id := id, ClusterName := "clusterA" } }
  ServerMode := "FULL"
  SERVER_MODE_HYPERION := "EA_ONLY"
  AppAlreadyExistsCode := "conflict"
  AppDetailResourceTreeNotFound := "resource-tree-not-found"
  BuildEnvironmentIdentifer := fun clusterName ns => clusterName ++ "__" ++ ns
  Now := 5

/-- The same service with a GitOps engine that is down. -/
def engineDownImpl : AppStoreDeploymentServiceImpl :=
  { demoImpl with appStoreDeploymentArgoCdService := downEngine }

/-- A committed database holding one environment and no app. -/
def demoState : State :=
  { db := { environment := [{ Id := 1, Name := "clusterA__ns1", ClusterId := 1, Namespace := "ns1", Active := true }] } }

/-- An install request for the app "demo" into environment 1. -/
def demoRequest : InstallAppVersionDTO :=
  { AppName := "demo", TeamId := 3, EnvironmentId := 1, AppStoreVersion := 40,
    ValuesOverrideYaml := "key: v", ClusterId := 1, Namespace := "ns1", UserId := 9 }

/-! ## Predicates used in the statements -/

/-- The committed App, InstalledApp, InstalledAppVersion and ClusterInstalledApps
rows of two databases are the same. -/
def DB.sameBookkeeping (db1 db2 : DB) : Prop :=
  db1.app = db2.app ∧ db1.installedApps = db2.installedApps ∧
    db1.installedAppVersions = db2.installedAppVersions ∧
    db1.clusterInstalledApps = db2.clusterInstalledApps

/-- The App row as `DeleteInstalledApp` writes it back: inactive, stamped with the requesting user. -/
def deactivatedApp (impl : AppStoreDeploymentServiceImpl) (req : InstallAppVersionDTO) (app : App) : App :=
  { app with Active := false, UpdatedBy := req.UserId, UpdatedOn := impl.Now }

/-- The InstalledApp row as `DeleteInstalledApp` writes it back. -/
def deactivatedInstalledApp (impl : AppStoreDeploymentServiceImpl) (req : InstallAppVersionDTO)
    (model : InstalledApps) : InstalledApps :=
  { model with Active := false, UpdatedBy := req.UserId, UpdatedOn := impl.Now }

/-- An InstalledAppVersion row as `DeleteInstalledApp` writes it back. -/
def deactivatedVersion (impl : AppStoreDeploymentServiceImpl) (userId : Int)
    (item : InstalledAppVersions) : InstalledAppVersions :=
  { item with Active := false, UpdatedBy := userId, UpdatedOn := impl.Now }

/-- The engine-s delete call that `DeleteInstalledApp` makes for the App row `app`:
the direct-apply engine when the global mode or the row-s mode is the hyperion
mode, the GitOps engine otherwise. -/
def engineDeleteOutcome (impl : AppStoreDeploymentServiceImpl) (req : InstallAppVersionDTO)
    (environment : Environment) (app : App) (model : InstalledApps) : Option Error :=
  if impl.ServerMode = impl.SERVER_MODE_HYPERION ∨ app.AppOfferingMode = impl.SERVER_MODE_HYPERION then
    impl.appStoreDeploymentHelmService.DeleteInstalledApp app.AppName environment.Name req model
  else
    impl.appStoreDeploymentArgoCdService.DeleteInstalledApp app.AppName environment.Name req model

/-- A step of `DeleteInstalledApp` is reached (every step before it succeeded)
and fails with the error `e`.  One constructor per step, in the order of the code. -/
inductive DeleteFailure (impl : AppStoreDeploymentServiceImpl) (req : InstallAppVersionDTO)
    (s : State) (e : Error) : Prop where
  | environmentLookup
      (h1 : impl.environmentRepository.FindById s.db req.EnvironmentId = Except.error e)
  | begin (environment : Environment)
      (h1 : impl.environmentRepository.FindById s.db req.EnvironmentId = Except.ok environment)
      (h2 : impl.installedAppRepository.GetConnection.Begin TxSite.delete = some e)
  | appLoad (environment : Environment)
      (h1 : impl.environmentRepository.FindById s.db req.EnvironmentId = Except.ok environment)
      (h2 : impl.installedAppRepository.GetConnection.Begin TxSite.delete = none)
      (h3 : impl.appRepository.FindById s.db req.AppId = Except.error e)
  | appUpdate (environment : Environment) (app : App)
      (h1 : impl.environmentRepository.FindById s.db req.EnvironmentId = Except.ok environment)
      (h2 : impl.installedAppRepository.GetConnection.Begin TxSite.delete = none)
      (h3 : impl.appRepository.FindById s.db req.AppId = Except.ok app)
      (h4 : impl.appRepository.UpdateWithTxn (deactivatedApp impl req app) = some e)
  | installedAppLoad (environment : Environment) (app : App)
      (h1 : impl.environmentRepository.FindById s.db req.EnvironmentId = Except.ok environment)
      (h2 : impl.installedAppRepository.GetConnection.Begin TxSite.delete = none)
      (h3 : impl.appRepository.FindById s.db req.AppId = Except.ok app)
      (h4 : impl.appRepository.UpdateWithTxn (deactivatedApp impl req app) = none)
      (h5 : impl.installedAppRepository.GetInstalledApp s.db req.InstalledAppId = Except.error e)
  | installedAppUpdate (environment : Environment) (app : App) (model : InstalledApps)
      (h1 : impl.environmentRepository.FindById s.db req.EnvironmentId = Except.ok environment)
      (h2 : impl.installedAppRepository.GetConnection.Begin TxSite.delete = none)
      (h3 : impl.appRepository.FindById s.db req.AppId = Except.ok app)
      (h4 : impl.appRepository.UpdateWithTxn (deactivatedApp impl req app) = none)
      (h5 : impl.installedAppRepository.GetInstalledApp s.db req.InstalledAppId = Except.ok model)
      (h6 : impl.installedAppRepository.UpdateInstalledApp (deactivatedInstalledApp impl req model) = some e)
  | versionsLoad (environment : Environment) (app : App) (model : InstalledApps)
      (h1 : impl.environmentRepository.FindById s.db req.EnvironmentId = Except.ok environment)
      (h2 : impl.installedAppRepository.GetConnection.Begin TxSite.delete = none)
      (h3 : impl.appRepository.FindById s.db req.AppId = Except.ok app)
      (h4 : impl.appRepository.UpdateWithTxn (deactivatedApp impl req app) = none)
      (h5 : impl.installedAppRepository.GetInstalledApp s.db req.InstalledAppId = Except.ok model)
      (h6 : impl.installedAppRepository.UpdateInstalledApp (deactivatedInstalledApp impl req model) = none)
      (h7 : impl.installedAppRepository.GetInstalledAppVersionByInstalledAppId s.db req.InstalledAppId
        = Except.error e)
  | versionUpdate (environment : Environment) (app : App) (model : InstalledApps)
      (before : List InstalledAppVersions) (item : InstalledAppVersions) (after : List InstalledAppVersions)
      (h1 : impl.environmentRepository.FindById s.db req.EnvironmentId = Except.ok environment)
      (h2 : impl.installedAppRepository.GetConnection.Begin TxSite.delete = none)
      (h3 : impl.appRepository.FindById s.db req.AppId = Except.ok app)
      (h4 : impl.appRepository.UpdateWithTxn (deactivatedApp impl req app) = none)
      (h5 : impl.installedAppRepository.GetInstalledApp s.db req.InstalledAppId = Except.ok model)
      (h6 : impl.installedAppRepository.UpdateInstalledApp (deactivatedInstalledApp impl req model) = none)
      (h7 : impl.installedAppRepository.GetInstalledAppVersionByInstalledAppId s.db req.InstalledAppId
        = Except.ok (before ++ item :: after))
      (h8 : ∀ x ∈ before,
        impl.installedAppRepository.UpdateInstalledAppVersion (deactivatedVersion impl req.UserId x) = none)
      (h9 : impl.installedAppRepository.UpdateInstalledAppVersion (deactivatedVersion impl req.UserId item)
        = some e)
  | engineDelete (environment : Environment) (app : App) (model : InstalledApps)
      (models : List InstalledAppVersions)
      (h1 : impl.environmentRepository.FindById s.db req.EnvironmentId = Except.ok environment)
      (h2 : impl.installedAppRepository.GetConnection.Begin TxSite.delete = none)
      (h3 : impl.appRepository.FindById s.db req.AppId = Except.ok app)
      (h4 : impl.appRepository.UpdateWithTxn (deactivatedApp impl req app) = none)
      (h5 : impl.installedAppRepository.GetInstalledApp s.db req.InstalledAppId = Except.ok model)
      (h6 : impl.installedAppRepository.UpdateInstalledApp (deactivatedInstalledApp impl req model) = none)
      (h7 : impl.installedAppRepository.GetInstalledAppVersionByInstalledAppId s.db req.InstalledAppId
        = Except.ok models)
      (h8 : ∀ x ∈ models,
        impl.installedAppRepository.UpdateInstalledAppVersion (deactivatedVersion impl req.UserId x) = none)
      (h9 : engineDeleteOutcome impl req environment (deactivatedApp impl req app)
        (deactivatedInstalledApp impl req model) = some e)
  | commit (environment : Environment) (app : App) (model : InstalledApps)
      (models : List InstalledAppVersions)
      (h1 : impl.environmentRepository.FindById s.db req.EnvironmentId = Except.ok environment)
      (h2 : impl.installedAppRepository.GetConnection.Begin TxSite.delete = none)
      (h3 : impl.appRepository.FindById s.db req.AppId = Except.ok app)
      (h4 : impl.appRepository.UpdateWithTxn (deactivatedApp impl req app) = none)
      (h5 : impl.installedAppRepository.GetInstalledApp s.db req.InstalledAppId = Except.ok model)
      (h6 : impl.installedAppRepository.UpdateInstalledApp (deactivatedInstalledApp impl req model) = none)
      (h7 : impl.installedAppRepository.GetInstalledAppVersionByInstalledAppId s.db req.InstalledAppId
        = Except.ok models)
      (h8 : ∀ x ∈ models,
        impl.installedAppRepository.UpdateInstalledAppVersion (deactivatedVersion impl req.UserId x) = none)
      (h9 : engineDeleteOutcome impl req environment (deactivatedApp impl req app)
        (deactivatedInstalledApp impl req model) = none)
      (h10 : impl.installedAppRepository.GetConnection.Commit TxSite.delete = some e)

/-- A committed database in which the app "demo" is installed in environment 1. -/
def installedState : State :=
  { db :=
      { app := [{ Id := 1, AppName := "demo", Active := true, TeamId := 3, AppStore := true,
                  AppOfferingMode := "FULL", CreatedOn := 5, CreatedBy := 9, UpdatedOn := 5, UpdatedBy := 9 }]
        installedApps := [{ Id := 10, AppId := 1, EnvironmentId := 1, Active := true,
                            Status := AppstoreDeploymentStatus.DEPLOY_SUCCESS,
                            CreatedOn := 5, CreatedBy := 9, UpdatedOn := 5, UpdatedBy := 9 }]
        installedAppVersions := [{ Id := 100, InstalledAppId := 10, AppStoreApplicationVersionId := 40,
                                   ValuesYaml := "key: v", Active := true,
                                   CreatedOn := 5, CreatedBy := 9, UpdatedOn := 5, UpdatedBy := 9 }]
        environment := [{ Id := 1, Name := "clusterA__ns1", ClusterId := 1, Namespace := "ns1",
                          Active := true }] } }

/-- A delete request, by user 8, for the installation held by `installedState`. -/
def demoDeleteRequest : InstallAppVersionDTO :=
  { AppId := 1, InstalledAppId := 10, EnvironmentId := 1, AppName := "demo", UserId := 8 }

/-- The engine that `GetAllInstalledAppsByAppStoreId` and `DeleteInstalledApp` select, as
the condition is written at both places: `ServerMode == SERVER_MODE_HYPERION ||
AppOfferingMode == SERVER_MODE_HYPERION` picks the helm service, the `else` branch
the ArgoCd service. -/
def selectedEngine (impl : AppStoreDeploymentServiceImpl) (appOfferingMode : String) : Engine :=
  if impl.ServerMode = impl.SERVER_MODE_HYPERION ∨ appOfferingMode = impl.SERVER_MODE_HYPERION then
    Engine.helm
  else Engine.argoCd

/-- The collaborator behind an engine tag. -/
def AppStoreDeploymentServiceImpl.tool (impl : AppStoreDeploymentServiceImpl) : Engine → DeploymentTool
  | Engine.helm => impl.appStoreDeploymentHelmService
  | Engine.argoCd => impl.appStoreDeploymentArgoCdService


/-- An installed app of the listing, deployed in the full (GitOps) mode. -/
def demoListedApp : InstalledAppsWithChartDetails :=
  { EnvironmentName := "clusterA__ns1", AppName := "demo", UpdatedOn := 5, EmailId := "admin",
    AppStoreApplicationVersionId := 40, InstalledAppVersionId := 100, InstalledAppId := 10,
    EnvironmentId := 1, AppOfferingMode := "FULL" }

/-- A service whose listing holds `demoListedApp` and whose GitOps engine answers
`GetAppStatus` with the given status and error. -/
def listingImpl (status : String) (err : Option Error) : AppStoreDeploymentServiceImpl :=
  { demoImpl with
    installedAppRepository :=
      { demoInstalledAppRepository with
        GetAllIntalledAppsByAppStoreId := fun _ _ => ([demoListedApp], none) }
    appStoreDeploymentArgoCdService := { demoEngine with GetAppStatus := fun _ => (status, err) } }

/-- The App row that `createAppForAppStore` builds for a request, with primary key `id`
(`pg` in the source, after `SaveWithTxn` when `id` is the key it was given). -/
def newAppRow (impl : AppStoreDeploymentServiceImpl) (createRequest : CreateAppDTO) (id : Int) : App :=
  { Id := id
    Active := true
    AppName := createRequest.AppName
    TeamId := createRequest.TeamId
    AppStore := true
    AppOfferingMode := impl.ServerMode
    UpdatedBy := createRequest.UserId
    CreatedBy := createRequest.UserId
    UpdatedOn := impl.Now
    CreatedOn := impl.Now }

/-- The request `AppStoreDeployOperationDB` hands to `createAppForAppStore`. -/
def appCreateRequestOf (req : InstallAppVersionDTO) : CreateAppDTO :=
  { Id := req.AppId, AppName := req.AppName, TeamId := req.TeamId, UserId := req.UserId }

/-- The InstalledApp row that `AppStoreDeployOperationDB` builds (`installedAppModel`),
with primary key `id`. -/
def newInstalledAppRow (impl : AppStoreDeploymentServiceImpl) (req : InstallAppVersionDTO)
    (appId environmentId id : Int) : InstalledApps :=
  { Id := id
    AppId := appId
    EnvironmentId := environmentId
    Status := AppstoreDeploymentStatus.DEPLOY_INIT
    CreatedBy := req.UserId
    UpdatedBy := req.UserId
    CreatedOn := impl.Now
    UpdatedOn := impl.Now
    Active := true }

/-- The InstalledAppVersion row that `AppStoreDeployOperationDB` builds
(`installedAppVersions`), with primary key `id`. -/
def newVersionRow (impl : AppStoreDeploymentServiceImpl) (req : InstallAppVersionDTO)
    (installedAppId appStoreApplicationVersionId id : Int) : InstalledAppVersions :=
  { Id := id
    InstalledAppId := installedAppId
    AppStoreApplicationVersionId := appStoreApplicationVersionId
    ValuesYaml := req.ValuesOverrideYaml
    CreatedBy := req.UserId
    UpdatedBy := req.UserId
    CreatedOn := impl.Now
    UpdatedOn := impl.Now
    Active := true
    ReferenceValueId := req.ReferenceValueId
    ReferenceValueKind := req.ReferenceValueKind }

/-- The ClusterInstalledApps row that `AppStoreDeployOperationDB` builds
(`clusterInstalledAppsModel`). -/
def newClusterRow (impl : AppStoreDeploymentServiceImpl) (req : InstallAppVersionDTO)
    (clusterId installedAppId : Int) : ClusterInstalledApps :=
  { ClusterId := clusterId
    InstalledAppId := installedAppId
    CreatedBy := req.UserId
    UpdatedBy := req.UserId
    CreatedOn := impl.Now
    UpdatedOn := impl.Now }

/-- A service in which a racing transaction has committed a second App row named
like the new one: the re-query `FindActiveListByName` returns `apps`. -/
def racingImpl (apps : List App) : AppStoreDeploymentServiceImpl :=
  { demoImpl with
    appRepository := { demoAppRepository with FindActiveListByName := fun _ _ => Except.ok apps } }

/-- The load `GetInstalledApp` returns the row stored under the key in the committed
database it is run against (the exact-match lookup of the Persistence Gateway). -/
def ExactGetInstalledApp (impl : AppStoreDeploymentServiceImpl) : Prop :=
  ∀ (db : DB) (id : Int) (r : InstalledApps),
    impl.installedAppRepository.GetInstalledApp db id = Except.ok r → db.findInstalledApp id = some r


/-- The part of `InstallApp` after the engine call, given the engine-s answer
`err`: the `if err != nil` test, the commit of the bookkeeping transaction `tx`
and the status update. -/
def InstallApp.afterEngine (impl : AppStoreDeploymentServiceImpl)
    (installAppVersionRequest : InstallAppVersionDTO) (tx : Tx) (err : Option Error) (s : State) :
    Except Error InstallAppVersionDTO × State :=
  match err with
  | some err => (Except.error err, s)
  | none =>
    match impl.installedAppRepository.GetConnection.Commit TxSite.install with
    | some err => (Except.error err, s)
    | none =>
      match AppStoreDeployOperationStatusUpdate impl installAppVersionRequest.InstalledAppId
          AppstoreDeploymentStatus.DEPLOY_SUCCESS { s with db := s.db.commit tx } with
      | ((_, some err), s) => (Except.error err, s)
      | ((_, none), s) => (Except.ok installAppVersionRequest, s)


/-- The InstalledApp row a write inserts, if it is such an insert. -/
def Write.insertedInstalledApp? : Write → Option InstalledApps
  | Write.insertInstalledApp row => some row
  | _ => none

/-- The InstalledAppVersion row a write inserts, if it is such an insert. -/
def Write.insertedInstalledAppVersion? : Write → Option InstalledAppVersions
  | Write.insertInstalledAppVersion row => some row
  | _ => none

/-- The ClusterInstalledApps row a write inserts, if it is such an insert. -/
def Write.insertedClusterInstalledApps? : Write → Option ClusterInstalledApps
  | Write.insertClusterInstalledApps row => some row
  | _ => none

/-- The App row a write inserts, if it is such an insert. -/
def Write.insertedApp? : Write → Option App
  | Write.insertApp row => some row
  | _ => none

/-- The App row a write updates, if it is such an update. -/
def Write.updatedApp? : Write → Option App
  | Write.updateApp row => some row
  | _ => none

/-- An install request for the app "demo" that is flagged as a default cluster component. -/
def demoClusterRequest : InstallAppVersionDTO :=
  { demoRequest with DefaultClusterComponent := true, ReferenceValueId := 6, ReferenceValueKind := "DEFAULT" }

/-- The writes a successful `AppStoreDeployOperationDB` adds to the transaction,
for the keys the three inserts were given, the environment row and the chart
version row it looked up. -/
def bookkeepingWrites (impl : AppStoreDeploymentServiceImpl) (req : InstallAppVersionDTO)
    (appId installedAppId versionId : Int) (environment : Environment)
    (version : AppStoreApplicationVersion) : Tx :=
  [Write.insertApp (newAppRow impl (appCreateRequestOf req) appId),
    Write.insertInstalledApp (newInstalledAppRow impl req appId environment.Id installedAppId),
    Write.insertInstalledAppVersion (newVersionRow impl req installedAppId version.Id versionId)] ++
  (if req.DefaultClusterComponent = true then
    [Write.insertClusterInstalledApps (newClusterRow impl req environment.ClusterId installedAppId)]
   else [])


/-- The bean `createEnvironmentIfNotExists` hands to `environmentService.Create`
for the cluster it looked up. -/
def environmentBeanOf (impl : AppStoreDeploymentServiceImpl) (req : InstallAppVersionDTO)
    (cluster : ClusterBean) : EnvironmentBean :=
  { Environment := impl.BuildEnvironmentIdentifer cluster.ClusterName req.Namespace
    ClusterId := req.ClusterId
    Namespace := req.Namespace
    Default := false
    Active := true }

/-- A service in the hyperion mode in which every collaborator succeeds. -/
def hyperionImpl : AppStoreDeploymentServiceImpl :=
  { demoImpl with ServerMode := "EA_ONLY" }

/-- An install request for the app "demo" into the namespace "ns2" of cluster 1,
for which `demoState` holds no environment. -/
def newNamespaceRequest : InstallAppVersionDTO :=
  { demoRequest with Namespace := "ns2", EnvironmentId := 0 }

/-- A service whose environment lookup by namespace and cluster fails with an
error other than the no-rows error. -/
def lookupDownImpl : AppStoreDeploymentServiceImpl :=
  { hyperionImpl with
    environmentRepository :=
      { hyperionImpl.environmentRepository with
        FindOneByNamespaceAndClusterId := fun _ _ _ => Except.error (Error.other "connection refused") } }


/-- The lookup `FindActiveByName` finds a committed active App row of the name
whenever there is one, without an error. -/
def ExactFindActiveByName (impl : AppStoreDeploymentServiceImpl) : Prop :=
  ∀ (db : DB) (name : String) (a : App), a ∈ db.app → a.Active = true → a.AppName = name →
    ∃ a1, impl.appRepository.FindActiveByName db name = (some a1, none) ∧
      a1 ∈ db.app ∧ a1.Active = true ∧ a1.AppName = name

/-- The committed App rows that are active and carry the name. -/
def DB.activeAppsNamed (db : DB) (name : String) : List App :=
  db.app.filter (fun a => a.Active && decide (a.AppName = name))

/-- The record of calls `after` extends `before` by the calls of a run of
`createEnvironmentIfNotExists`, which begins with the lookup by namespace and cluster. -/
def resolverInvoked (before after : List Call) : Prop :=
  ∃ ns clusterId rest, after = before ++ Call.FindOneByNamespaceAndClusterId ns clusterId :: rest


/-- The writes of a `DeleteInstalledApp` that reaches the engine call, for the
App row, the InstalledApp row and the version rows it loaded. -/
def deleteWrites (impl : AppStoreDeploymentServiceImpl) (req : InstallAppVersionDTO)
    (app : App) (model : InstalledApps) (models : List InstalledAppVersions) : Tx :=
  [Write.updateApp (deactivatedApp impl req app),
    Write.updateInstalledApp (deactivatedInstalledApp impl req model)] ++
  models.map (fun x => Write.updateInstalledAppVersion (deactivatedVersion impl req.UserId x))

/-- Row by row, the second database holds the App, InstalledApp and
InstalledAppVersion rows of the first one, in the same places and under the
same keys, and no row that is inactive in the first one is active in the second. -/
def DB.noReactivation (before after : DB) : Prop :=
  List.Forall₂ (fun x y : App => y.Id = x.Id ∧ (x.Active = false → y.Active = false))
      before.app after.app ∧
    List.Forall₂ (fun x y : InstalledApps => y.Id = x.Id ∧ (x.Active = false → y.Active = false))
      before.installedApps after.installedApps ∧
    List.Forall₂ (fun x y : InstalledAppVersions => y.Id = x.Id ∧ (x.Active = false → y.Active = false))
      before.installedAppVersions after.installedAppVersions

/-- A write that replaces a row by an inactive row. -/
def Write.deactivates : Write → Prop
  | Write.updateApp row => row.Active = false
  | Write.updateInstalledApp row => row.Active = false
  | Write.updateInstalledAppVersion row => row.Active = false
  | _ => False

/-- The loads of `DeleteInstalledApp` return committed rows: the App row and the
InstalledApp row stored under the key, and InstalledAppVersion rows that are
stored for the InstalledApp id.  Nothing is assumed about which of the stored
version rows the lookup returns: an exact-match lookup returns all of them, a
soft-deleted-filtered lookup the active ones only. -/
def SoundDeleteReads (impl : AppStoreDeploymentServiceImpl) : Prop :=
  (∀ (db : DB) (id : Int) (a : App),
      impl.appRepository.FindById db id = Except.ok a → db.findApp id = some a) ∧
    ExactGetInstalledApp impl ∧
    ∀ (db : DB) (id : Int) (l : List InstalledAppVersions),
      impl.installedAppRepository.GetInstalledAppVersionByInstalledAppId db id = Except.ok l →
        ∀ v ∈ l, v ∈ db.installedAppVersions ∧ v.InstalledAppId = id

/-- The primary keys of the App, InstalledApp and InstalledAppVersion tables are unique. -/
def DB.uniqueKeys (db : DB) : Prop :=
  (db.app.map (fun r => r.Id)).Nodup ∧
    (db.installedApps.map (fun r => r.Id)).Nodup ∧
    (db.installedAppVersions.map (fun r => r.Id)).Nodup


/-- A service in which every collaborator succeeds except the commit of the
status-update transaction. -/
def statusCommitDownImpl : AppStoreDeploymentServiceImpl :=
  { demoImpl with
    installedAppRepository :=
      { demoInstalledAppRepository with
        GetConnection :=
          { Begin := fun _ => none
            Commit := fun site =>
              match site with
              | TxSite.statusUpdate => some (Error.other "commit failed")
              | _ => none } } }



/-- Every step of `DeleteInstalledApp` that precedes the engine call succeeds:
the environment lookup, `Begin`, the load and the update of the App row, the
load and the update of the InstalledApp row, the load of the version rows and
the update of each of them. -/
def DeleteReachesEngine (impl : AppStoreDeploymentServiceImpl) (req : InstallAppVersionDTO)
    (s : State) (environment : Environment) (app : App) (model : InstalledApps)
    (models : List InstalledAppVersions) : Prop :=
  impl.environmentRepository.FindById s.db req.EnvironmentId = Except.ok environment ∧
    impl.installedAppRepository.GetConnection.Begin TxSite.delete = none ∧
    impl.appRepository.FindById s.db req.AppId = Except.ok app ∧
    impl.appRepository.UpdateWithTxn (deactivatedApp impl req app) = none ∧
    impl.installedAppRepository.GetInstalledApp s.db req.InstalledAppId = Except.ok model ∧
    impl.installedAppRepository.UpdateInstalledApp (deactivatedInstalledApp impl req model) = none ∧
    impl.installedAppRepository.GetInstalledAppVersionByInstalledAppId s.db req.InstalledAppId =
      Except.ok models ∧
    ∀ x ∈ models,
      impl.installedAppRepository.UpdateInstalledAppVersion (deactivatedVersion impl req.UserId x) = none

/-- The environment step of `AppStoreDeployOperationDB` (the `if` on the global
mode that follows the chart-version lookup): in the hyperion mode the resolver
is run and the id it returns is written into the request; in every other mode
the request and the state are left as they are.  The result is the error of the
step (if any), the request and the state after it. -/
def AppStoreDeployOperationDB.environmentStep (impl : AppStoreDeploymentServiceImpl)
    (installAppVersionRequest : InstallAppVersionDTO) (s : State) :
    Option Error × InstallAppVersionDTO × State :=
  if impl.ServerMode = impl.SERVER_MODE_HYPERION then
    match createEnvironmentIfNotExists impl installAppVersionRequest s with
    | ((_, some err), s1) => (some err, installAppVersionRequest, s1)
    | ((envId, none), s1) => (none, { installAppVersionRequest with EnvironmentId := envId }, s1)
  else (none, installAppVersionRequest, s)

/-- Every step of `InstallApp` that precedes the call of `createAppForAppStore`
succeeds: `Begin`, the chart-version lookup, the environment step (which leaves
the request `req1` and the state `s1`) and the lookup of the environment row. -/
def InstallReachesCreateApp (impl : AppStoreDeploymentServiceImpl) (req : InstallAppVersionDTO)
    (s : State) (req1 : InstallAppVersionDTO) (s1 : State) (environment : Environment) : Prop :=
  impl.installedAppRepository.GetConnection.Begin TxSite.install = none ∧
    (∃ version, impl.appStoreApplicationVersionRepository.FindById req.AppStoreVersion =
      Except.ok version) ∧
    AppStoreDeployOperationDB.environmentStep impl req s = (none, req1, s1) ∧
    impl.environmentRepository.FindById s1.db req1.EnvironmentId = Except.ok environment

/-- A service that knows the chart version 40 alone: the lookup of every other
chart version fails. -/
def chartMissingImpl : AppStoreDeploymentServiceImpl :=
  { demoImpl with
    appStoreApplicationVersionRepository :=
      { FindById := fun id =>
          if id = 40 then Except.ok { Id := id } else Except.error (Error.other "no chart version") } }

/-- The same service in the hyperion mode. -/
def hyperionChartMissingImpl : AppStoreDeploymentServiceImpl :=
  { chartMissingImpl with ServerMode := "EA_ONLY" }

/-- An install request for "demo" that names the chart version 41. -/
def otherVersionRequest : InstallAppVersionDTO :=
  { demoRequest with AppStoreVersion := 41 }

/-- A service whose version lookup is soft-deleted-filtered: it returns the
active InstalledAppVersion rows of the InstalledApp id. -/
def activeVersionsImpl : AppStoreDeploymentServiceImpl :=
  { demoImpl with
    installedAppRepository :=
      { demoInstalledAppRepository with
        GetInstalledAppVersionByInstalledAppId := fun db id =>
          Except.ok (db.installedAppVersions.filter (fun v => decide (v.InstalledAppId = id) && v.Active)) } }

/-- The database of `installedState` with a history row: an older version of
the installation 10, inactive since a re-deploy, last updated by user 9. -/
def historyState : State :=
  { db :=
      { installedState.db with
        installedAppVersions :=
          [{ Id := 99, InstalledAppId := 10, AppStoreApplicationVersionId := 39,
             ValuesYaml := "key: old", Active := false,
             CreatedOn := 4, CreatedBy := 9, UpdatedOn := 5, UpdatedBy := 9 },
           { Id := 100, InstalledAppId := 10, AppStoreApplicationVersionId := 40,
             ValuesYaml := "key: v", Active := true,
             CreatedOn := 5, CreatedBy := 9, UpdatedOn := 5, UpdatedBy := 9 }] } }

/-- Two older active App rows named "demo" (keys 2 and 3), committed by racing
transactions. -/
def racingRows : List App :=
  [{ Id := 2, AppName := "demo", Active := true }, { Id := 3, AppName := "demo", Active := true }]


/-! ## General facts about the embedding -/

theorem engineCalls_record_none (s : State) (c : Call) (h : c.engine? = none) :
    engineCalls (s.record c).calls = engineCalls s.calls := by
  simp [engineCalls, State.record, List.filterMap_append, h]

theorem engineCalls_record_some (s : State) (c : Call) (e : Engine) (h : c.engine? = some e) :
    engineCalls (s.record c).calls = engineCalls s.calls ++ [e] := by
  simp [engineCalls, State.record, List.filterMap_append, h]

theorem createEnvironmentIfNotExists_frame (impl : AppStoreDeploymentServiceImpl)
    (req : InstallAppVersionDTO) (s : State) :
    (createEnvironmentIfNotExists impl req s).2.db.sameBookkeeping s.db ∧
      engineCalls (createEnvironmentIfNotExists impl req s).2.calls = engineCalls s.calls := by
  unfold createEnvironmentIfNotExists
  simp only [DB.sameBookkeeping]
  repeat' split
  all_goals simp [State.record, engineCalls, List.filterMap_append, Call.engine?, DB.createEnvironment]

theorem AppStoreDeployOperationDB_state (impl : AppStoreDeploymentServiceImpl)
    (req : InstallAppVersionDTO) (tx : Tx) (s : State) :
    (AppStoreDeployOperationDB impl req tx s).2.2 = s ∨
      (AppStoreDeployOperationDB impl req tx s).2.2 = (createEnvironmentIfNotExists impl req s).2 := by
  unfold AppStoreDeployOperationDB
  repeat' (first | split | simp only [])
  all_goals simp_all

theorem AppStoreDeployOperationDB_frame (impl : AppStoreDeploymentServiceImpl)
    (req : InstallAppVersionDTO) (tx : Tx) (s : State) :
    (AppStoreDeployOperationDB impl req tx s).2.2.db.sameBookkeeping s.db ∧
      engineCalls (AppStoreDeployOperationDB impl req tx s).2.2.calls = engineCalls s.calls := by
  rcases AppStoreDeployOperationDB_state impl req tx s with h | h
  · rw [h]; simp [DB.sameBookkeeping]
  · rw [h]; exact createEnvironmentIfNotExists_frame impl req s

/-! ## C1: an engine failure during install -/

/-- C1, as stated, fails: in the deployment `engineDownImpl` the bookkeeping of
the request `demoRequest` succeeds and the GitOps engine-s install call fails;
`InstallApp` returns the engine-s error, and the committed database afterwards
holds no App row and no InstalledApp row at all. -/
theorem C1_counterexample :
    (AppStoreDeployOperationDB engineDownImpl demoRequest [] demoState).1 =
        Except.ok { demoRequest with AppId := 1, InstalledAppId := 10, InstalledAppVersionId := 100 } ∧
      engineDownImpl.appStoreDeploymentArgoCdService.InstallApp
        { demoRequest with AppId := 1, InstalledAppId := 10, InstalledAppVersionId := 100 } =
          some (Error.other "engine down") ∧
      (InstallApp engineDownImpl demoRequest demoState).1 = Except.error (Error.other "engine down") ∧
      (InstallApp engineDownImpl demoRequest demoState).2.db.app = [] ∧
      (InstallApp engineDownImpl demoRequest demoState).2.db.installedApps = [] := by
  refine ⟨by rfl, by rfl, by rfl, by rfl, by rfl⟩

/-- C1 (amended): for every install request whose bookkeeping
(`AppStoreDeployOperationDB`) succeeds and whose deployment-engine install call
fails, `InstallApp` returns the engine-s error and the bookkeeping is rolled
back: the committed database is the one the bookkeeping left, whose App,
InstalledApp, InstalledAppVersion and ClusterInstalledApps rows are those from
before the call. -/
theorem C1_install_engine_failure_rolls_back (impl : AppStoreDeploymentServiceImpl)
    (req out : InstallAppVersionDTO) (s s1 : State) (tx : Tx) (e : Error)
    (hbegin : impl.installedAppRepository.GetConnection.Begin TxSite.install = none)
    (hdb : AppStoreDeployOperationDB impl req [] s = (Except.ok out, tx, s1))
    (hengine : (if impl.ServerMode = impl.SERVER_MODE_HYPERION
        then impl.appStoreDeploymentHelmService.InstallApp out
        else impl.appStoreDeploymentArgoCdService.InstallApp out) = some e) :
    (InstallApp impl req s).1 = Except.error e ∧
      (InstallApp impl req s).2.db = s1.db ∧
      (InstallApp impl req s).2.db.sameBookkeeping s.db := by
  have hf := (AppStoreDeployOperationDB_frame impl req [] s).1
  rw [hdb] at hf
  unfold InstallApp
  simp only [hbegin, hdb]
  split at hengine <;> simp_all [State.record]

/-- Witness for C1 (amended): the deployment `engineDownImpl` on `demoRequest`. -/
theorem C1_install_engine_failure_rolls_back_witness :
    (InstallApp engineDownImpl demoRequest demoState).1 = Except.error (Error.other "engine down") ∧
      (InstallApp engineDownImpl demoRequest demoState).2.db = demoState.db ∧
      (InstallApp engineDownImpl demoRequest demoState).2.db.sameBookkeeping demoState.db :=
  C1_install_engine_failure_rolls_back engineDownImpl demoRequest
    { demoRequest with AppId := 1, InstalledAppId := 10, InstalledAppVersionId := 100 }
    demoState demoState
    [Write.insertApp
        { Id := 1, AppName := "demo", Active := true, TeamId := 3, AppStore := true,
          AppOfferingMode := "FULL", CreatedOn := 5, CreatedBy := 9, UpdatedOn := 5, UpdatedBy := 9 },
      Write.insertInstalledApp
        { Id := 10, AppId := 1, EnvironmentId := 1, Active := true,
          Status := AppstoreDeploymentStatus.DEPLOY_INIT,
          CreatedOn := 5, CreatedBy := 9, UpdatedOn := 5, UpdatedBy := 9 },
      Write.insertInstalledAppVersion
        { Id := 100, InstalledAppId := 10, AppStoreApplicationVersionId := 40, ValuesYaml := "key: v",
          Active := true, CreatedOn := 5, CreatedBy := 9, UpdatedOn := 5, UpdatedBy := 9 }]
    (Error.other "engine down") (by rfl) (by rfl) (by rfl)

theorem forItems_ok (impl : AppStoreDeploymentServiceImpl) (userId : Int)
    (models : List InstalledAppVersions) (tx : Tx)
    (h : ∀ x ∈ models,
      impl.installedAppRepository.UpdateInstalledAppVersion (deactivatedVersion impl userId x) = none) :
    DeleteInstalledApp.forItems impl userId models tx =
      (none, tx ++ models.map (fun x => Write.updateInstalledAppVersion (deactivatedVersion impl userId x))) := by
  induction models generalizing tx with
  | nil => simp [DeleteInstalledApp.forItems]
  | cons item rest ih =>
    have h1 := h item (by simp)
    simp only [deactivatedVersion] at h1
    simp only [DeleteInstalledApp.forItems, h1]
    rw [ih _ (fun x hx => h x (by simp [hx]))]
    simp [deactivatedVersion]

theorem forItems_error (impl : AppStoreDeploymentServiceImpl) (userId : Int)
    (before : List InstalledAppVersions) (item : InstalledAppVersions) (after : List InstalledAppVersions)
    (tx : Tx) (e : Error)
    (h : ∀ x ∈ before,
      impl.installedAppRepository.UpdateInstalledAppVersion (deactivatedVersion impl userId x) = none)
    (hitem : impl.installedAppRepository.UpdateInstalledAppVersion (deactivatedVersion impl userId item) = some e) :
    (DeleteInstalledApp.forItems impl userId (before ++ item :: after) tx).1 = some e := by
  induction before generalizing tx with
  | nil =>
    simp only [deactivatedVersion] at hitem
    simp [DeleteInstalledApp.forItems, hitem]
  | cons x rest ih =>
    have h1 := h x (by simp)
    simp only [deactivatedVersion] at h1
    simp only [List.cons_append, DeleteInstalledApp.forItems, h1]
    exact ih _ (fun y hy => h y (by simp [hy]))

theorem DeleteInstalledApp_db (impl : AppStoreDeploymentServiceImpl)
    (req : InstallAppVersionDTO) (s : State) :
    (DeleteInstalledApp impl req s).2.db = s.db ∨ ∃ out, (DeleteInstalledApp impl req s).1 = Except.ok out := by
  unfold DeleteInstalledApp
  repeat' (first | split | simp only [])
  all_goals simp_all [State.record]
  all_goals
    rename_i h
    split at h <;> simp at h <;> simp [← h.2]

theorem DeleteInstalledApp_error_db (impl : AppStoreDeploymentServiceImpl)
    (req : InstallAppVersionDTO) (s : State) (e : Error)
    (h : (DeleteInstalledApp impl req s).1 = Except.error e) :
    (DeleteInstalledApp impl req s).2.db = s.db := by
  rcases DeleteInstalledApp_db impl req s with h1 | ⟨out, h1⟩
  · exact h1
  · rw [h1] at h; cases h

theorem forItems_cases (impl : AppStoreDeploymentServiceImpl) (userId : Int)
    (models : List InstalledAppVersions) (tx : Tx) :
    ((DeleteInstalledApp.forItems impl userId models tx).1 = none ∧
        ∀ x ∈ models,
          impl.installedAppRepository.UpdateInstalledAppVersion (deactivatedVersion impl userId x) = none) ∨
      ∃ e before item after, (DeleteInstalledApp.forItems impl userId models tx).1 = some e ∧
        models = before ++ item :: after ∧
        (∀ x ∈ before,
          impl.installedAppRepository.UpdateInstalledAppVersion (deactivatedVersion impl userId x) = none) ∧
        impl.installedAppRepository.UpdateInstalledAppVersion (deactivatedVersion impl userId item) = some e := by
  induction models generalizing tx with
  | nil => left; simp [DeleteInstalledApp.forItems]
  | cons item rest ih =>
    cases hu : impl.installedAppRepository.UpdateInstalledAppVersion (deactivatedVersion impl userId item) with
    | some e =>
      right
      refine ⟨e, [], item, rest, ?_, rfl, by simp, hu⟩
      simp only [deactivatedVersion] at hu
      simp [DeleteInstalledApp.forItems, hu]
    | none =>
      have hu1 := hu
      simp only [deactivatedVersion] at hu1
      simp only [DeleteInstalledApp.forItems, hu1]
      rcases ih (tx ++ [Write.updateInstalledAppVersion
        { item with Active := false, UpdatedBy := userId, UpdatedOn := impl.Now }]) with ⟨h1, h2⟩ | ⟨e, before, it, after, h1, h2, h3, h4⟩
      · left
        refine ⟨h1, ?_⟩
        intro x hx
        rcases List.mem_cons.mp hx with rfl | hx
        · exact hu
        · exact h2 x hx
      · right
        refine ⟨e, item :: before, it, after, h1, by simp [h2], ?_, h4⟩
        intro x hx
        rcases List.mem_cons.mp hx with rfl | hx
        · exact hu
        · exact h3 x hx

/-- Every error `DeleteInstalledApp` returns is the error of a failing step: the
constructors of `DeleteFailure` leave out no return path. -/
theorem DeleteInstalledApp_error_cases (impl : AppStoreDeploymentServiceImpl)
    (req : InstallAppVersionDTO) (s : State) (e : Error)
    (h : (DeleteInstalledApp impl req s).1 = Except.error e) : DeleteFailure impl req s e := by
  unfold DeleteInstalledApp at h
  cases h1 : impl.environmentRepository.FindById s.db req.EnvironmentId with
  | error e1 => simp [h1] at h; subst h; exact DeleteFailure.environmentLookup h1
  | ok environment =>
  cases h2 : impl.installedAppRepository.GetConnection.Begin TxSite.delete with
  | some e1 => simp [h1, h2] at h; subst h; exact DeleteFailure.begin environment h1 h2
  | none =>
  cases h3 : impl.appRepository.FindById s.db req.AppId with
  | error e1 => simp [h1, h2, h3] at h; subst h; exact DeleteFailure.appLoad environment h1 h2 h3
  | ok app =>
  cases h4 : impl.appRepository.UpdateWithTxn (deactivatedApp impl req app) with
  | some e1 =>
    have h4a := h4
    simp only [deactivatedApp] at h4a
    simp [h1, h2, h3, h4a] at h; subst h; exact DeleteFailure.appUpdate environment app h1 h2 h3 h4
  | none =>
  have h4a := h4
  simp only [deactivatedApp] at h4a
  cases h5 : impl.installedAppRepository.GetInstalledApp s.db req.InstalledAppId with
  | error e1 =>
    simp [h1, h2, h3, h4a, h5] at h; subst h
    exact DeleteFailure.installedAppLoad environment app h1 h2 h3 h4 h5
  | ok model =>
  cases h6 : impl.installedAppRepository.UpdateInstalledApp (deactivatedInstalledApp impl req model) with
  | some e1 =>
    have h6a := h6
    simp only [deactivatedInstalledApp] at h6a
    simp [h1, h2, h3, h4a, h5, h6a] at h; subst h
    exact DeleteFailure.installedAppUpdate environment app model h1 h2 h3 h4 h5 h6
  | none =>
  have h6a := h6
  simp only [deactivatedInstalledApp] at h6a
  cases h7 : impl.installedAppRepository.GetInstalledAppVersionByInstalledAppId s.db req.InstalledAppId with
  | error e1 =>
    simp [h1, h2, h3, h4a, h5, h6a, h7] at h; subst h
    exact DeleteFailure.versionsLoad environment app model h1 h2 h3 h4 h5 h6 h7
  | ok models =>
  simp only [h1, h2, h3, h4a, h5, h6a, h7, List.nil_append, List.cons_append] at h
  rcases forItems_cases impl req.UserId models
    [Write.updateApp (deactivatedApp impl req app),
      Write.updateInstalledApp (deactivatedInstalledApp impl req model)] with
    ⟨hf, h8⟩ | ⟨e1, before, item, after, hf, hm, h8, h9⟩
  · rcases hfi : DeleteInstalledApp.forItems impl req.UserId models
      [Write.updateApp (deactivatedApp impl req app),
        Write.updateInstalledApp (deactivatedInstalledApp impl req model)] with ⟨r, tx1⟩
    rw [hfi] at hf
    simp only at hf
    subst hf
    simp only [deactivatedApp, deactivatedInstalledApp] at hfi
    simp only [hfi] at h
    cases h9 : engineDeleteOutcome impl req environment (deactivatedApp impl req app)
      (deactivatedInstalledApp impl req model) with
    | some e1 =>
      have h9a := h9
      simp only [engineDeleteOutcome, deactivatedApp, deactivatedInstalledApp] at h9a
      split at h9a <;> rename_i hc <;> simp [hc, h9a] at h <;> subst h <;>
        exact DeleteFailure.engineDelete environment app model models h1 h2 h3 h4 h5 h6 h7 h8 h9
    | none =>
      have h9a := h9
      simp only [engineDeleteOutcome, deactivatedApp, deactivatedInstalledApp] at h9a
      cases h10 : impl.installedAppRepository.GetConnection.Commit TxSite.delete with
      | none => split at h9a <;> rename_i hc <;> simp [hc, h9a, h10] at h
      | some e2 =>
        split at h9a <;> rename_i hc <;> simp [hc, h9a, h10] at h <;> subst h <;>
          exact DeleteFailure.commit environment app model models h1 h2 h3 h4 h5 h6 h7 h8 h9 h10
  · rcases hfi : DeleteInstalledApp.forItems impl req.UserId models
      [Write.updateApp (deactivatedApp impl req app),
        Write.updateInstalledApp (deactivatedInstalledApp impl req model)] with ⟨r, tx1⟩
    rw [hfi] at hf
    simp only at hf
    subst hf
    simp only [deactivatedApp, deactivatedInstalledApp] at hfi
    simp only [hfi] at h
    simp at h
    subst h
    subst hm
    exact DeleteFailure.versionUpdate environment app model before item after h1 h2 h3 h4 h5 h6 h7 h8 h9

/-! ## C2: a failing step of the delete -/

/-- C2: for every delete request and every step of `DeleteInstalledApp` that is
reached and fails with an error `e` (environment lookup, begin, a row load or
update, the deployment-engine delete call, or commit), `DeleteInstalledApp`
returns exactly `e`, and the committed database is the one from before the call
(no row has become inactive). -/
theorem C2_delete_failure_rolls_back (impl : AppStoreDeploymentServiceImpl)
    (req : InstallAppVersionDTO) (s : State) (e : Error) (h : DeleteFailure impl req s e) :
    (DeleteInstalledApp impl req s).1 = Except.error e ∧
      (DeleteInstalledApp impl req s).2.db = s.db := by
  have key : (DeleteInstalledApp impl req s).1 = Except.error e := by
    cases h with
    | environmentLookup h1 => simp [DeleteInstalledApp, h1]
    | begin environment h1 h2 => simp [DeleteInstalledApp, h1, h2]
    | appLoad environment h1 h2 h3 => simp [DeleteInstalledApp, h1, h2, h3]
    | appUpdate environment app h1 h2 h3 h4 =>
      simp only [deactivatedApp] at h4
      simp [DeleteInstalledApp, h1, h2, h3, h4]
    | installedAppLoad environment app h1 h2 h3 h4 h5 =>
      simp only [deactivatedApp] at h4
      simp [DeleteInstalledApp, h1, h2, h3, h4, h5]
    | installedAppUpdate environment app model h1 h2 h3 h4 h5 h6 =>
      simp only [deactivatedApp, deactivatedInstalledApp] at h4 h6
      simp [DeleteInstalledApp, h1, h2, h3, h4, h5, h6]
    | versionsLoad environment app model h1 h2 h3 h4 h5 h6 h7 =>
      simp only [deactivatedApp, deactivatedInstalledApp] at h4 h6
      simp [DeleteInstalledApp, h1, h2, h3, h4, h5, h6, h7]
    | versionUpdate environment app model before item after h1 h2 h3 h4 h5 h6 h7 h8 h9 =>
      have hl := forItems_error impl req.UserId before item after
        [Write.updateApp (deactivatedApp impl req app),
          Write.updateInstalledApp (deactivatedInstalledApp impl req model)] e h8 h9
      simp only [deactivatedApp, deactivatedInstalledApp] at h4 h6 hl
      simp only [DeleteInstalledApp, h1, h2, h3, h4, h5, h6, h7, List.nil_append, List.cons_append]
      split <;> simp_all
    | engineDelete environment app model models h1 h2 h3 h4 h5 h6 h7 h8 h9 =>
      have hl := forItems_ok impl req.UserId models
        [Write.updateApp (deactivatedApp impl req app),
          Write.updateInstalledApp (deactivatedInstalledApp impl req model)] h8
      simp only [deactivatedApp, deactivatedInstalledApp, engineDeleteOutcome] at h4 h6 hl h9
      simp only [DeleteInstalledApp, h1, h2, h3, h4, h5, h6, h7, List.nil_append, List.cons_append, hl]
      split at h9 <;> simp_all
    | commit environment app model models h1 h2 h3 h4 h5 h6 h7 h8 h9 h10 =>
      have hl := forItems_ok impl req.UserId models
        [Write.updateApp (deactivatedApp impl req app),
          Write.updateInstalledApp (deactivatedInstalledApp impl req model)] h8
      simp only [deactivatedApp, deactivatedInstalledApp, engineDeleteOutcome] at h4 h6 hl h9
      simp only [DeleteInstalledApp, h1, h2, h3, h4, h5, h6, h7, List.nil_append, List.cons_append, hl]
      split at h9 <;> simp_all
  exact ⟨key, DeleteInstalledApp_error_db impl req s e key⟩
/-- Witness for C2: the GitOps engine-s delete call fails in `engineDownImpl`. -/
theorem C2_delete_failure_rolls_back_witness :
    (DeleteInstalledApp engineDownImpl demoDeleteRequest installedState).1 =
        Except.error (Error.other "engine down") ∧
      (DeleteInstalledApp engineDownImpl demoDeleteRequest installedState).2.db = installedState.db :=
  C2_delete_failure_rolls_back engineDownImpl demoDeleteRequest installedState (Error.other "engine down")
    (DeleteFailure.engineDelete
      { Id := 1, Name := "clusterA__ns1", ClusterId := 1, Namespace := "ns1", Active := true }
      { Id := 1, AppName := "demo", Active := true, TeamId := 3, AppStore := true,
        AppOfferingMode := "FULL", CreatedOn := 5, CreatedBy := 9, UpdatedOn := 5, UpdatedBy := 9 }
      { Id := 10, AppId := 1, EnvironmentId := 1, Active := true,
        Status := AppstoreDeploymentStatus.DEPLOY_SUCCESS,
        CreatedOn := 5, CreatedBy := 9, UpdatedOn := 5, UpdatedBy := 9 }
      [{ Id := 100, InstalledAppId := 10, AppStoreApplicationVersionId := 40,
         ValuesYaml := "key: v", Active := true,
         CreatedOn := 5, CreatedBy := 9, UpdatedOn := 5, UpdatedBy := 9 }]
      (by rfl) (by rfl) (by rfl) (by rfl) (by rfl) (by rfl) (by rfl) (fun _ _ => rfl) (by rfl))
theorem forApp_db (impl : AppStoreDeploymentServiceImpl) (a : InstalledAppsWithChartDetails) (s : State) :
    (GetAllInstalledAppsByAppStoreId.forApp impl a s).2.db = s.db := by
  unfold GetAllInstalledAppsByAppStoreId.forApp
  by_cases hc : impl.ServerMode = impl.SERVER_MODE_HYPERION ∨ a.AppOfferingMode = impl.SERVER_MODE_HYPERION
  all_goals simp only [hc, if_true, if_false]
  all_goals repeat' (first | split | simp only [])
  all_goals simp_all [State.record]

theorem forApp_engineCalls (impl : AppStoreDeploymentServiceImpl) (a : InstalledAppsWithChartDetails)
    (s : State) :
    engineCalls (GetAllInstalledAppsByAppStoreId.forApp impl a s).2.calls =
      engineCalls s.calls ++ [selectedEngine impl a.AppOfferingMode] := by
  unfold GetAllInstalledAppsByAppStoreId.forApp selectedEngine
  by_cases hc : impl.ServerMode = impl.SERVER_MODE_HYPERION ∨ a.AppOfferingMode = impl.SERVER_MODE_HYPERION
  all_goals simp only [hc, if_true, if_false]
  all_goals repeat' (first | split | simp only [])
  all_goals simp_all [State.record, engineCalls, List.filterMap_append, Call.engine?]

theorem forApp_result_eq (impl : AppStoreDeploymentServiceImpl) (a : InstalledAppsWithChartDetails)
    (s s0 : State) (h : s0.db = s.db) :
    (GetAllInstalledAppsByAppStoreId.forApp impl a s0).1 =
      (GetAllInstalledAppsByAppStoreId.forApp impl a s).1 := by
  unfold GetAllInstalledAppsByAppStoreId.forApp
  by_cases hc : impl.ServerMode = impl.SERVER_MODE_HYPERION ∨ a.AppOfferingMode = impl.SERVER_MODE_HYPERION
  all_goals simp only [hc, if_true, if_false]
  all_goals repeat' (first | split | simp only [])
  all_goals simp_all [State.record]

theorem loop_ok (impl : AppStoreDeploymentServiceImpl) (apps : List InstalledAppsWithChartDetails)
    (acc l : List InstalledAppsResponse) (s : State)
    (h : (GetAllInstalledAppsByAppStoreId.loop impl apps acc s).1 = Except.ok l) :
    ∃ l1, l = acc ++ l1 ∧
      List.Forall₂ (fun a res => (GetAllInstalledAppsByAppStoreId.forApp impl a s).1 = Except.ok res) apps l1 ∧
      engineCalls (GetAllInstalledAppsByAppStoreId.loop impl apps acc s).2.calls =
        engineCalls s.calls ++ apps.map (fun a => selectedEngine impl a.AppOfferingMode) := by
  induction apps generalizing acc s with
  | nil =>
    simp only [GetAllInstalledAppsByAppStoreId.loop] at h ⊢
    exact ⟨[], by simp_all, List.Forall₂.nil, by simp⟩
  | cons a rest ih =>
    simp only [GetAllInstalledAppsByAppStoreId.loop] at h ⊢
    have hdb := forApp_db impl a s
    have hcalls := forApp_engineCalls impl a s
    rcases hfa : GetAllInstalledAppsByAppStoreId.forApp impl a s with ⟨r, s1⟩
    rw [hfa] at h hdb hcalls
    cases r with
    | error e => simp at h
    | ok res =>
      simp only at h hdb hcalls ⊢
      obtain ⟨l1, hl, hall, hc⟩ := ih (acc ++ [res]) s1 h
      refine ⟨res :: l1, by simp [hl], List.Forall₂.cons (by rw [hfa]) ?_, ?_⟩
      · refine List.Forall₂.imp ?_ hall
        intro x y hxy
        rw [← forApp_result_eq impl x s s1 hdb]
        exact hxy
      · rw [hc, hcalls]; simp

theorem forApp_notFound (impl : AppStoreDeploymentServiceImpl) (a : InstalledAppsWithChartDetails)
    (s : State) (status internalMessage userMessage : String)
    (h : (impl.tool (selectedEngine impl a.AppOfferingMode)).GetAppStatus a =
      (status, some (Error.apiError impl.AppDetailResourceTreeNotFound internalMessage userMessage))) :
    (∃ res, (GetAllInstalledAppsByAppStoreId.forApp impl a s).1 = Except.ok res ∧ res.Status = "Not Found") ∨
      (a.AppOfferingMode = impl.SERVER_MODE_HYPERION ∧
        ∃ e, impl.environmentRepository.FindById s.db a.EnvironmentId = Except.error e ∧
          (GetAllInstalledAppsByAppStoreId.forApp impl a s).1 = Except.error e) := by
  unfold GetAllInstalledAppsByAppStoreId.forApp
  unfold selectedEngine at h
  by_cases hc : impl.ServerMode = impl.SERVER_MODE_HYPERION ∨ a.AppOfferingMode = impl.SERVER_MODE_HYPERION
  all_goals simp only [hc, if_true, if_false, AppStoreDeploymentServiceImpl.tool] at h ⊢
  all_goals simp only [h]
  all_goals repeat' (first | split | simp only [])
  all_goals simp_all [State.record]

theorem createAppForAppStore_ok (impl : AppStoreDeploymentServiceImpl) (cr out : CreateAppDTO)
    (tx tx1 : Tx) (db : DB) (h : createAppForAppStore impl cr tx db = (Except.ok out, tx1)) :
    ∃ id, impl.appRepository.SaveWithTxn (newAppRow impl cr 0) = Except.ok id ∧
      tx1 = tx ++ [Write.insertApp (newAppRow impl cr id)] ∧ out = { cr with Id := id } := by
  unfold createAppForAppStore at h
  repeat' split at h
  all_goals simp_all [newAppRow]
  all_goals aesop

theorem AppStoreDeployOperationDB_ok (impl : AppStoreDeploymentServiceImpl)
    (req out : InstallAppVersionDTO) (tx tx1 : Tx) (s s1 : State)
    (h : AppStoreDeployOperationDB impl req tx s = (Except.ok out, tx1, s1)) :
    ∃ (environment : Environment) (version : AppStoreApplicationVersion),
      impl.appStoreApplicationVersionRepository.FindById req.AppStoreVersion = Except.ok version ∧
      impl.environmentRepository.FindById s1.db out.EnvironmentId = Except.ok environment ∧
      (impl.ServerMode ≠ impl.SERVER_MODE_HYPERION → out.EnvironmentId = req.EnvironmentId ∧ s1 = s) ∧
      out = { req with
                EnvironmentId := out.EnvironmentId, AppId := out.AppId,
                InstalledAppId := out.InstalledAppId,
                InstalledAppVersionId := out.InstalledAppVersionId } ∧
      tx1 = tx ++
        [Write.insertApp (newAppRow impl (appCreateRequestOf req) out.AppId),
          Write.insertInstalledApp (newInstalledAppRow impl req out.AppId environment.Id out.InstalledAppId),
          Write.insertInstalledAppVersion
            (newVersionRow impl req out.InstalledAppId version.Id out.InstalledAppVersionId)] ++
        (if req.DefaultClusterComponent = true then
          [Write.insertClusterInstalledApps
            (newClusterRow impl req environment.ClusterId out.InstalledAppId)]
         else []) := by
  revert h
  unfold AppStoreDeployOperationDB
  repeat' (first | split | simp only [])
  all_goals intro h
  all_goals simp only [Prod.mk.injEq, reduceCtorEq, false_and, Except.ok.injEq] at h
  all_goals
    obtain ⟨h1, h2, h3⟩ := h
    subst h1 h2 h3
    obtain ⟨appId, _, htx, hcr⟩ := createAppForAppStore_ok _ _ _ _ _ _ (by assumption)
    subst htx hcr
    refine ⟨_, _, by assumption, by assumption, ?_, ?_, ?_⟩
  all_goals simp_all [appCreateRequestOf, newInstalledAppRow, newVersionRow, newClusterRow]
theorem forall₂_getElem? {α β : Type} {R : α → β → Prop} {l1 : List α} {l2 : List β}
    (h : List.Forall₂ R l1 l2) (i : Nat) (a : α) (ha : l1[i]? = some a) :
    ∃ b, l2[i]? = some b ∧ R a b := by
  induction h generalizing i with
  | nil => simp at ha
  | cons hab _ ih =>
    cases i with
    | zero =>
      simp only [List.getElem?_cons_zero, Option.some.injEq] at ha
      subst ha
      exact ⟨_, by simp, hab⟩
    | succ n =>
      simp only [List.getElem?_cons_succ] at ha ⊢
      exact ih n ha

theorem GetAllInstalledAppsByAppStoreId_ok (impl : AppStoreDeploymentServiceImpl) (appStoreId : Int)
    (s : State) (l : List InstalledAppsResponse)
    (h : (GetAllInstalledAppsByAppStoreId impl appStoreId s).1 = Except.ok l) :
    GetAllInstalledAppsByAppStoreId impl appStoreId s =
      GetAllInstalledAppsByAppStoreId.loop impl
        (impl.installedAppRepository.GetAllIntalledAppsByAppStoreId s.db appStoreId).1 [] s := by
  unfold GetAllInstalledAppsByAppStoreId at h ⊢
  rcases hr : impl.installedAppRepository.GetAllIntalledAppsByAppStoreId s.db appStoreId with ⟨apps, err⟩
  rw [hr] at h
  cases err with
  | none => rfl
  | some e =>
    simp only at h ⊢
    split at h
    · simp at h
    · rename_i hne
      simp [hne]

/-! ## C3: an ApiError with another code -/

/-- C3 fails on the code at this input: the engine answers `GetAppStatus` with an
`ApiError` whose code "500" is not the resource-tree-not-found code; the claim
wants that error returned and no list, but `GetAllInstalledAppsByAppStoreId`
returns a list whose entry carries the status string that came with the error
(the type test is true, the code test is false, and the `else if err != nil`
branch is not reached). -/
theorem C3_other_api_error_not_returned :
    (listingImpl "" (some (Error.apiError "500" "internal" "status unavailable"))).appStoreDeploymentArgoCdService.GetAppStatus
        demoListedApp = ("", some (Error.apiError "500" "internal" "status unavailable")) ∧
      "500" ≠ (listingImpl "" (some (Error.apiError "500" "internal" "status unavailable"))).AppDetailResourceTreeNotFound ∧
      (GetAllInstalledAppsByAppStoreId
          (listingImpl "" (some (Error.apiError "500" "internal" "status unavailable"))) 7 demoState).1 =
        Except.ok
          [{ EnvironmentName := "clusterA__ns1", AppName := "demo", DeployedAt := 5, DeployedBy := "admin",
             Status := "", AppStoreApplicationVersionId := 40, InstalledAppVersionId := 100,
             InstalledAppsId := 10, EnvironmentId := 1, AppOfferingMode := "FULL" }] := by
  refine ⟨by rfl, by decide, by rfl⟩

/-! ## C4: the resource-tree-not-found error -/

/-- C4: for every installed app `a` for which the selected engine-s `GetAppStatus`
returns an `ApiError` whose code is `AppDetailResourceTreeNotFound`, whatever
status string comes with it: the loop body for `a` produces an entry whose
`Status` is "Not Found", and can only fail through the environment lookup of a
hyperion-mode app; and whenever `GetAllInstalledAppsByAppStoreId` returns a list,
the entry at the position of `a` has `Status` equal to "Not Found". -/
theorem C4_resource_tree_not_found (impl : AppStoreDeploymentServiceImpl)
    (a : InstalledAppsWithChartDetails) (s : State) (status internalMessage userMessage : String)
    (h : (impl.tool (selectedEngine impl a.AppOfferingMode)).GetAppStatus a =
      (status, some (Error.apiError impl.AppDetailResourceTreeNotFound internalMessage userMessage))) :
    ((∃ res, (GetAllInstalledAppsByAppStoreId.forApp impl a s).1 = Except.ok res ∧
          res.Status = "Not Found") ∨
      (a.AppOfferingMode = impl.SERVER_MODE_HYPERION ∧
        ∃ e, impl.environmentRepository.FindById s.db a.EnvironmentId = Except.error e ∧
          (GetAllInstalledAppsByAppStoreId.forApp impl a s).1 = Except.error e)) ∧
      ∀ (appStoreId : Int) (l : List InstalledAppsResponse) (i : Nat),
        (GetAllInstalledAppsByAppStoreId impl appStoreId s).1 = Except.ok l →
        (impl.installedAppRepository.GetAllIntalledAppsByAppStoreId s.db appStoreId).1[i]? = some a →
        ∃ res, l[i]? = some res ∧ res.Status = "Not Found" := by
  refine ⟨forApp_notFound impl a s status internalMessage userMessage h, ?_⟩
  intro appStoreId l i hl hi
  rw [GetAllInstalledAppsByAppStoreId_ok impl appStoreId s l hl] at hl
  obtain ⟨l1, hl1, hall, _⟩ := loop_ok impl _ [] l s hl
  obtain ⟨res, hres, hok⟩ := forall₂_getElem? hall i a hi
  refine ⟨res, by simpa [hl1] using hres, ?_⟩
  rcases forApp_notFound impl a s status internalMessage userMessage h with ⟨res1, h1, h2⟩ | ⟨_, e, _, h1⟩
  · rw [h1] at hok
    cases hok
    exact h2
  · rw [h1] at hok
    cases hok

/-- Witness for C4: the engine reports the status "Healthy" together with the
resource-tree-not-found error; the listing is returned and shows "Not Found". -/
theorem C4_resource_tree_not_found_witness :
    (GetAllInstalledAppsByAppStoreId
        (listingImpl "Healthy" (some (Error.apiError "resource-tree-not-found" "not found" "no resource tree")))
        7 demoState).1 =
      Except.ok
        [{ EnvironmentName := "clusterA__ns1", AppName := "demo", DeployedAt := 5, DeployedBy := "admin",
           Status := "Not Found", AppStoreApplicationVersionId := 40, InstalledAppVersionId := 100,
           InstalledAppsId := 10, EnvironmentId := 1, AppOfferingMode := "FULL" }] ∧
    ∃ res,
      [({ EnvironmentName := "clusterA__ns1", AppName := "demo", DeployedAt := 5, DeployedBy := "admin",
          Status := "Not Found", AppStoreApplicationVersionId := 40, InstalledAppVersionId := 100,
          InstalledAppsId := 10, EnvironmentId := 1, AppOfferingMode := "FULL" } : InstalledAppsResponse)][0]? =
        some res ∧ res.Status = "Not Found" :=
  ⟨by rfl,
    (C4_resource_tree_not_found
      (listingImpl "Healthy" (some (Error.apiError "resource-tree-not-found" "not found" "no resource tree")))
      demoListedApp demoState "Healthy" "not found" "no resource tree" (by rfl)).2 7 _ 0 (by rfl) (by rfl)⟩
theorem find?_map_update (l : List InstalledApps) (id : Int) (row : InstalledApps) (hrow : row.Id = id) :
    (l.map (fun r => if r.Id = row.Id then row else r)).find? (fun r => decide (r.Id = id)) =
      (l.find? (fun r => decide (r.Id = id))).map (fun _ => row) := by
  induction l with
  | nil => simp
  | cons x rest ih =>
    by_cases hx : x.Id = id
    · simp [List.find?, hx, hrow]
    · have hx2 : ¬ (x.Id = row.Id) := by rw [hrow]; exact hx
      simp only [List.map_cons, hx2, if_false, List.find?, hx, decide_False]
      exact ih

theorem find?_id_eq (l : List InstalledApps) (id : Int) (r : InstalledApps)
    (h : l.find? (fun r => decide (r.Id = id)) = some r) : r.Id = id := by
  have := List.find?_some h
  simpa using this

theorem AppStoreDeployOperationStatusUpdate_calls (impl : AppStoreDeploymentServiceImpl) (id : Int)
    (status : AppstoreDeploymentStatus) (s : State) :
    (AppStoreDeployOperationStatusUpdate impl id status s).2.calls = s.calls := by
  unfold AppStoreDeployOperationStatusUpdate
  repeat' (first | split | simp only [])

theorem AppStoreDeployOperationStatusUpdate_result (impl : AppStoreDeploymentServiceImpl) (id : Int)
    (status : AppstoreDeploymentStatus) (s : State) :
    (∃ e, AppStoreDeployOperationStatusUpdate impl id status s = ((false, some e), s)) ∨
      ∃ r, impl.installedAppRepository.GetInstalledApp s.db id = Except.ok r ∧
        AppStoreDeployOperationStatusUpdate impl id status s =
          ((true, none),
            { s with db := s.db.applyWrite (Write.updateInstalledApp { r with Status := status }) }) := by
  unfold AppStoreDeployOperationStatusUpdate
  repeat' (first | split | simp only [])
  all_goals simp_all [DB.commit]

/-! ## C6: the status update -/

/-- C6: for every InstalledApp id and every status value, when the repository
load is the exact-match lookup and `AppStoreDeployOperationStatusUpdate` returns
`(true, nil)`: the id is that of a committed row `r`, a fetch of it from the
committed database afterwards returns `r` with the new status and every other
field as before, the rows of the other tables are unchanged, and every
InstalledApp row with another id is unchanged, at its place. -/
theorem C6_status_update_round_trip (impl : AppStoreDeploymentServiceImpl) (installAppId : Int)
    (status : AppstoreDeploymentStatus) (s : State)
    (hexact : ExactGetInstalledApp impl)
    (hret : (AppStoreDeployOperationStatusUpdate impl installAppId status s).1 = (true, none)) :
    ∃ r, s.db.findInstalledApp installAppId = some r ∧
      (AppStoreDeployOperationStatusUpdate impl installAppId status s).2.db.findInstalledApp installAppId =
        some { r with Status := status } ∧
      (AppStoreDeployOperationStatusUpdate impl installAppId status s).2.db.app = s.db.app ∧
      (AppStoreDeployOperationStatusUpdate impl installAppId status s).2.db.installedAppVersions =
        s.db.installedAppVersions ∧
      (AppStoreDeployOperationStatusUpdate impl installAppId status s).2.db.clusterInstalledApps =
        s.db.clusterInstalledApps ∧
      (AppStoreDeployOperationStatusUpdate impl installAppId status s).2.db.environment =
        s.db.environment ∧
      (AppStoreDeployOperationStatusUpdate impl installAppId status s).2.db.installedApps.length =
        s.db.installedApps.length ∧
      ∀ (i : Nat) (x : InstalledApps), s.db.installedApps[i]? = some x → x.Id ≠ installAppId →
        (AppStoreDeployOperationStatusUpdate impl installAppId status s).2.db.installedApps[i]? = some x := by
  rcases AppStoreDeployOperationStatusUpdate_result impl installAppId status s with ⟨e, h⟩ | ⟨r, hload, h⟩
  · rw [h] at hret
    simp at hret
  · have hfind := hexact s.db installAppId r hload
    have hid : r.Id = installAppId := find?_id_eq _ _ _ hfind
    refine ⟨r, hfind, ?_⟩
    rw [h]
    simp only [DB.findInstalledApp] at hfind ⊢
    refine ⟨?_, rfl, rfl, rfl, rfl, by simp [DB.applyWrite], ?_⟩ <;> simp only [DB.applyWrite]
    · rw [find?_map_update _ installAppId { r with Status := status } hid, hfind]
      rfl
    · intro i x hx hne
      have hne2 : ¬ (x.Id = r.Id) := by rw [hid]; exact hne
      simp [List.getElem?_map, hx, hne2]

theorem demoImpl_exact : ExactGetInstalledApp demoImpl := by
  intro db id r h
  simp only [demoImpl, demoInstalledAppRepository] at h
  split at h
  · rename_i r0 hr0
    cases h
    exact hr0
  · cases h

/-- Witness for C6: the status of installation 10 in `installedState` is set to member 3. -/
theorem C6_status_update_round_trip_witness :
    ∃ r, installedState.db.findInstalledApp 10 = some r ∧
      (AppStoreDeployOperationStatusUpdate demoImpl 10 (AppstoreDeploymentStatus.other 3)
          installedState).2.db.findInstalledApp 10 =
        some { r with Status := AppstoreDeploymentStatus.other 3 } :=
  let ⟨r, h1, h2, _⟩ :=
    C6_status_update_round_trip demoImpl 10 (AppstoreDeploymentStatus.other 3) installedState
      demoImpl_exact (by rfl)
  ⟨r, h1, h2⟩
theorem DeleteInstalledApp_engineCalls (impl : AppStoreDeploymentServiceImpl)
    (req : InstallAppVersionDTO) (s : State) :
    (engineCalls (DeleteInstalledApp impl req s).2.calls = engineCalls s.calls ∧
        ∃ e, (DeleteInstalledApp impl req s).1 = Except.error e) ∨
      ∃ app, impl.appRepository.FindById s.db req.AppId = Except.ok app ∧
        engineCalls (DeleteInstalledApp impl req s).2.calls =
          engineCalls s.calls ++ [selectedEngine impl app.AppOfferingMode] := by
  unfold DeleteInstalledApp
  repeat' (first | split | simp only [])
  all_goals simp_all [State.record]
  all_goals
    rename_i h
    try right
    unfold selectedEngine
    split at h <;> simp at h <;>
      simp_all [← h.2, engineCalls, List.filterMap_append, Call.engine?]

theorem InstallApp_eq (impl : AppStoreDeploymentServiceImpl) (req out : InstallAppVersionDTO)
    (s s1 : State) (tx : Tx)
    (hbegin : impl.installedAppRepository.GetConnection.Begin TxSite.install = none)
    (hdb : AppStoreDeployOperationDB impl req [] s = (Except.ok out, tx, s1)) :
    InstallApp impl req s =
      InstallApp.afterEngine impl out tx
        (if impl.ServerMode = impl.SERVER_MODE_HYPERION then impl.appStoreDeploymentHelmService.InstallApp out
          else impl.appStoreDeploymentArgoCdService.InstallApp out)
        (s1.record (Call.InstallApp
          (if impl.ServerMode = impl.SERVER_MODE_HYPERION then Engine.helm else Engine.argoCd) out)) := by
  unfold InstallApp InstallApp.afterEngine
  simp only [hbegin, hdb]
  by_cases hm : impl.ServerMode = impl.SERVER_MODE_HYPERION
  · simp only [hm, if_true]
    cases impl.appStoreDeploymentHelmService.InstallApp out <;> rfl
  · simp only [hm, if_false]
    cases impl.appStoreDeploymentArgoCdService.InstallApp out <;> rfl

theorem afterEngine_calls (impl : AppStoreDeploymentServiceImpl) (out : InstallAppVersionDTO)
    (tx : Tx) (err : Option Error) (s : State) :
    (InstallApp.afterEngine impl out tx err s).2.calls = s.calls := by
  have hc := AppStoreDeployOperationStatusUpdate_calls impl out.InstalledAppId
    AppstoreDeploymentStatus.DEPLOY_SUCCESS { s with db := s.db.commit tx }
  unfold InstallApp.afterEngine
  repeat' (first | split | simp only [])
  all_goals simp_all

theorem InstallApp_calls (impl : AppStoreDeploymentServiceImpl) (req out : InstallAppVersionDTO)
    (s s1 : State) (tx : Tx)
    (hbegin : impl.installedAppRepository.GetConnection.Begin TxSite.install = none)
    (hdb : AppStoreDeployOperationDB impl req [] s = (Except.ok out, tx, s1)) :
    (InstallApp impl req s).2.calls =
      s1.calls ++
        [Call.InstallApp (if impl.ServerMode = impl.SERVER_MODE_HYPERION then Engine.helm else Engine.argoCd)
          out] := by
  rw [InstallApp_eq impl req out s s1 tx hbegin hdb, afterEngine_calls]
  rfl

/-! ## C8: the engine of an install against the selector rule -/

/-- C8: for every install request whose bookkeeping succeeds, the bookkeeping
inserts exactly one App row, and the engine `InstallApp` invokes (exactly one,
chosen from the global mode alone) is the engine the selector rule of
section 4.6 picks from the global mode and the offering mode stored on that row. -/
theorem C8_install_engine_matches_selector (impl : AppStoreDeploymentServiceImpl)
    (req out : InstallAppVersionDTO) (s s1 : State) (tx : Tx)
    (hbegin : impl.installedAppRepository.GetConnection.Begin TxSite.install = none)
    (hdb : AppStoreDeployOperationDB impl req [] s = (Except.ok out, tx, s1)) :
    ∃ a : App, (∀ row, Write.insertApp row ∈ tx ↔ row = a) ∧
      engineCalls (InstallApp impl req s).2.calls =
        engineCalls s.calls ++
          [specSelectEngine impl.SERVER_MODE_HYPERION impl.ServerMode a.AppOfferingMode] := by
  obtain ⟨environment, version, _, _, _, _, htx⟩ := AppStoreDeployOperationDB_ok impl req out [] tx s s1 hdb
  have hf := (AppStoreDeployOperationDB_frame impl req [] s).2
  rw [hdb] at hf
  refine ⟨newAppRow impl (appCreateRequestOf req) out.AppId, ?_, ?_⟩
  · intro row
    rw [htx]
    split <;> simp [eq_comm]
  · rw [InstallApp_calls impl req out s s1 tx hbegin hdb]
    simp only [engineCalls, List.filterMap_append] at hf ⊢
    rw [hf]
    simp [Call.engine?, specSelectEngine, newAppRow]

/-- Witness for C8: the install of `demoRequest` in the full mode goes to the ArgoCd engine. -/
theorem C8_install_engine_matches_selector_witness :
    ∃ a : App,
      (∀ row, Write.insertApp row ∈
          [Write.insertApp (newAppRow demoImpl (appCreateRequestOf demoRequest) 1),
            Write.insertInstalledApp (newInstalledAppRow demoImpl demoRequest 1 1 10),
            Write.insertInstalledAppVersion (newVersionRow demoImpl demoRequest 10 40 100)] ↔ row = a) ∧
      engineCalls (InstallApp demoImpl demoRequest demoState).2.calls =
        engineCalls demoState.calls ++ [specSelectEngine "EA_ONLY" "FULL" a.AppOfferingMode] :=
  C8_install_engine_matches_selector demoImpl demoRequest
    { demoRequest with AppId := 1, InstalledAppId := 10, InstalledAppVersionId := 100 }
    demoState demoState _ (by rfl) (by rfl)

/-! ## C10: a failure of the bookkeeping -/

/-- C10: for every install request for which `AppStoreDeployOperationDB` fails
with an error `e` (chart-version lookup, environment resolution, duplicate-app
conflict or a repository insert failure), `InstallApp` returns `e`, invokes
neither deployment engine, and leaves the committed App, InstalledApp,
InstalledAppVersion and ClusterInstalledApps rows as they were before the call. -/
theorem C10_bookkeeping_failure (impl : AppStoreDeploymentServiceImpl) (req : InstallAppVersionDTO)
    (s : State) (e : Error)
    (hbegin : impl.installedAppRepository.GetConnection.Begin TxSite.install = none)
    (hdb : (AppStoreDeployOperationDB impl req [] s).1 = Except.error e) :
    (InstallApp impl req s).1 = Except.error e ∧
      engineCalls (InstallApp impl req s).2.calls = engineCalls s.calls ∧
      (InstallApp impl req s).2.db.sameBookkeeping s.db := by
  have hf := AppStoreDeployOperationDB_frame impl req [] s
  rcases hr : AppStoreDeployOperationDB impl req [] s with ⟨r, tx, s1⟩
  rw [hr] at hf hdb
  simp only at hdb hf
  subst hdb
  unfold InstallApp
  simp only [hbegin, hr]
  exact ⟨trivial, hf.2, hf.1⟩

/-- Witness for C10: the app "demo" is already installed, so the bookkeeping of
a second install fails with the conflict. -/
theorem C10_bookkeeping_failure_witness :
    (InstallApp demoImpl demoRequest installedState).1 =
        Except.error (Error.apiError "conflict" "app already exists" "app already exists with name demo") ∧
      engineCalls (InstallApp demoImpl demoRequest installedState).2.calls =
        engineCalls installedState.calls ∧
      (InstallApp demoImpl demoRequest installedState).2.db.sameBookkeeping installedState.db :=
  C10_bookkeeping_failure demoImpl demoRequest installedState
    (Error.apiError "conflict" "app already exists" "app already exists with name demo") (by rfl) (by rfl)
theorem afterEngine_ok (impl : AppStoreDeploymentServiceImpl) (out out1 : InstallAppVersionDTO)
    (tx : Tx) (err : Option Error) (s : State)
    (h : (InstallApp.afterEngine impl out tx err s).1 = Except.ok out1) :
    out1 = out ∧
      ∃ r, impl.installedAppRepository.GetInstalledApp (s.db.commit tx) out.InstalledAppId = Except.ok r ∧
        (InstallApp.afterEngine impl out tx err s).2.db =
          (s.db.commit tx).applyWrite
            (Write.updateInstalledApp { r with Status := AppstoreDeploymentStatus.DEPLOY_SUCCESS }) := by
  unfold InstallApp.afterEngine at h ⊢
  cases err with
  | some e => simp at h
  | none =>
    cases hC : impl.installedAppRepository.GetConnection.Commit TxSite.install with
    | some e => simp [hC] at h
    | none =>
      rcases AppStoreDeployOperationStatusUpdate_result impl out.InstalledAppId
        AppstoreDeploymentStatus.DEPLOY_SUCCESS { s with db := s.db.commit tx } with ⟨e, hs⟩ | ⟨r, hload, hs⟩
      · simp [hC, hs] at h
      · simp only [hC, hs] at h ⊢
        simp only [Except.ok.injEq] at h
        exact ⟨h.symm, r, hload, rfl⟩

theorem InstallApp_ok (impl : AppStoreDeploymentServiceImpl) (req out : InstallAppVersionDTO) (s : State)
    (h : (InstallApp impl req s).1 = Except.ok out) :
    impl.installedAppRepository.GetConnection.Begin TxSite.install = none ∧
      ∃ tx s1, AppStoreDeployOperationDB impl req [] s = (Except.ok out, tx, s1) ∧
        ∃ r, impl.installedAppRepository.GetInstalledApp (s1.db.commit tx) out.InstalledAppId = Except.ok r ∧
          (InstallApp impl req s).2.db =
            (s1.db.commit tx).applyWrite
              (Write.updateInstalledApp { r with Status := AppstoreDeploymentStatus.DEPLOY_SUCCESS }) := by
  cases hbegin : impl.installedAppRepository.GetConnection.Begin TxSite.install with
  | some e =>
    unfold InstallApp at h
    simp [hbegin] at h
  | none =>
    refine ⟨rfl, ?_⟩
    rcases hr : AppStoreDeployOperationDB impl req [] s with ⟨r, tx, s1⟩
    cases r with
    | error e =>
      unfold InstallApp at h
      simp [hbegin, hr] at h
    | ok out0 =>
      rw [InstallApp_eq impl req out0 s s1 tx hbegin hr] at h ⊢
      obtain ⟨hout, r, hload, hdb⟩ := afterEngine_ok impl out0 out tx _ _ h
      subst hout
      exact ⟨tx, s1, rfl, r, hload, hdb⟩

theorem commit_bookkeeping (db : DB) (a : App) (ia : InstalledApps) (v : InstalledAppVersions)
    (c : ClusterInstalledApps) (flag : Bool) :
    (db.commit
        ([] ++ [Write.insertApp a, Write.insertInstalledApp ia, Write.insertInstalledAppVersion v] ++
          (if flag = true then [Write.insertClusterInstalledApps c] else []))).app = db.app ++ [a] ∧
    (db.commit
        ([] ++ [Write.insertApp a, Write.insertInstalledApp ia, Write.insertInstalledAppVersion v] ++
          (if flag = true then [Write.insertClusterInstalledApps c] else []))).installedApps =
      db.installedApps ++ [ia] ∧
    (db.commit
        ([] ++ [Write.insertApp a, Write.insertInstalledApp ia, Write.insertInstalledAppVersion v] ++
          (if flag = true then [Write.insertClusterInstalledApps c] else []))).installedAppVersions =
      db.installedAppVersions ++ [v] := by
  cases flag <;> simp [DB.commit, DB.applyWrite]

theorem find?_append_fresh (l : List InstalledApps) (ia : InstalledApps)
    (hfresh : ∀ x ∈ l, x.Id ≠ ia.Id) :
    (l ++ [ia]).find? (fun r => decide (r.Id = ia.Id)) = some ia := by
  induction l with
  | nil => simp
  | cons x rest ih =>
    have hx : ¬ (x.Id = ia.Id) := hfresh x (by simp)
    simp only [List.cons_append, List.find?, hx, decide_False]
    exact ih (fun y hy => hfresh y (by simp [hy]))

/-! ## C9: a successful install -/

/-- C9: for every install request for which `InstallApp` succeeds (every step
succeeded), when the repository load is the exact-match lookup and the key
given to the new InstalledApp row is not the key of a committed row: the
returned request is the request with `AppId`, `InstalledAppId` and
`InstalledAppVersionId` set to the keys of the App, InstalledApp and
InstalledAppVersion rows the call inserted (and `EnvironmentId` the resolved
environment); the App and InstalledAppVersion rows are committed, and the
committed InstalledApp row with that `InstalledAppId` is the inserted row with
status `DEPLOY_SUCCESS`: active, status SUCCESS. -/
theorem C9_install_success (impl : AppStoreDeploymentServiceImpl) (req out : InstallAppVersionDTO)
    (s : State)
    (hexact : ExactGetInstalledApp impl)
    (hok : (InstallApp impl req s).1 = Except.ok out)
    (hfresh : ∀ x ∈ s.db.installedApps, x.Id ≠ out.InstalledAppId) :
    ∃ (a : App) (ia : InstalledApps) (v : InstalledAppVersions) (r : InstalledApps),
      Write.insertApp a ∈ (AppStoreDeployOperationDB impl req [] s).2.1 ∧
      Write.insertInstalledApp ia ∈ (AppStoreDeployOperationDB impl req [] s).2.1 ∧
      Write.insertInstalledAppVersion v ∈ (AppStoreDeployOperationDB impl req [] s).2.1 ∧
      out = { req with
                AppId := a.Id, InstalledAppId := ia.Id, InstalledAppVersionId := v.Id,
                EnvironmentId := out.EnvironmentId } ∧
      a ∈ (InstallApp impl req s).2.db.app ∧
      v ∈ (InstallApp impl req s).2.db.installedAppVersions ∧
      (InstallApp impl req s).2.db.findInstalledApp out.InstalledAppId = some r ∧
      r = { ia with Status := AppstoreDeploymentStatus.DEPLOY_SUCCESS } ∧
      r.Active = true ∧ r.Status = AppstoreDeploymentStatus.DEPLOY_SUCCESS := by
  obtain ⟨_, tx, s1, hdb, r, hload, hfinal⟩ := InstallApp_ok impl req out s hok
  obtain ⟨environment, version, _, _, _, hout, htx⟩ := AppStoreDeployOperationDB_ok impl req out [] tx s s1 hdb
  have hframe := (AppStoreDeployOperationDB_frame impl req [] s).1
  rw [hdb] at hframe
  simp only [DB.sameBookkeeping] at hframe
  obtain ⟨hfa, hfi, hfv, _⟩ := hframe
  have hc := commit_bookkeeping s1.db (newAppRow impl (appCreateRequestOf req) out.AppId)
    (newInstalledAppRow impl req out.AppId environment.Id out.InstalledAppId)
    (newVersionRow impl req out.InstalledAppId version.Id out.InstalledAppVersionId)
    (newClusterRow impl req environment.ClusterId out.InstalledAppId) req.DefaultClusterComponent
  rw [← htx] at hc
  obtain ⟨hca, hci, hcv⟩ := hc
  have hfind1 : (s1.db.commit tx).findInstalledApp out.InstalledAppId =
      some (newInstalledAppRow impl req out.AppId environment.Id out.InstalledAppId) := by
    simp only [DB.findInstalledApp, hci, hfi]
    exact find?_append_fresh s.db.installedApps
      (newInstalledAppRow impl req out.AppId environment.Id out.InstalledAppId) hfresh
  have hr := hexact _ _ _ hload
  rw [hfind1] at hr
  cases hr
  refine ⟨newAppRow impl (appCreateRequestOf req) out.AppId,
    newInstalledAppRow impl req out.AppId environment.Id out.InstalledAppId,
    newVersionRow impl req out.InstalledAppId version.Id out.InstalledAppVersionId,
    { newInstalledAppRow impl req out.AppId environment.Id out.InstalledAppId with
      Status := AppstoreDeploymentStatus.DEPLOY_SUCCESS }, ?_, ?_, ?_, ?_, ?_, ?_, ?_,
    rfl, rfl, rfl⟩
  · rw [hdb, htx]; simp
  · rw [hdb, htx]; simp
  · rw [hdb, htx]; simp
  · exact hout
  · rw [hfinal]
    simp [DB.applyWrite, hca]
  · rw [hfinal]
    simp [DB.applyWrite, hcv]
  · have hm := find?_map_update (s1.db.commit tx).installedApps out.InstalledAppId
      { newInstalledAppRow impl req out.AppId environment.Id out.InstalledAppId with
        Status := AppstoreDeploymentStatus.DEPLOY_SUCCESS } rfl
    rw [hfinal]
    simp only [DB.findInstalledApp] at hfind1
    rw [hfind1] at hm
    exact hm

/-- Witness for C9: the install of `demoRequest` by `demoImpl`. -/
theorem C9_install_success_witness :
    (InstallApp demoImpl demoRequest demoState).1 =
        Except.ok { demoRequest with AppId := 1, InstalledAppId := 10, InstalledAppVersionId := 100 } ∧
    ∃ (a : App) (ia : InstalledApps) (v : InstalledAppVersions) (r : InstalledApps),
      Write.insertApp a ∈ (AppStoreDeployOperationDB demoImpl demoRequest [] demoState).2.1 ∧
      Write.insertInstalledApp ia ∈ (AppStoreDeployOperationDB demoImpl demoRequest [] demoState).2.1 ∧
      Write.insertInstalledAppVersion v ∈ (AppStoreDeployOperationDB demoImpl demoRequest [] demoState).2.1 ∧
      ({ demoRequest with AppId := 1, InstalledAppId := 10, InstalledAppVersionId := 100 } :
          InstallAppVersionDTO) =
        { demoRequest with AppId := a.Id, InstalledAppId := ia.Id, InstalledAppVersionId := v.Id,
                           EnvironmentId := 1 } ∧
      a ∈ (InstallApp demoImpl demoRequest demoState).2.db.app ∧
      v ∈ (InstallApp demoImpl demoRequest demoState).2.db.installedAppVersions ∧
      (InstallApp demoImpl demoRequest demoState).2.db.findInstalledApp 10 = some r ∧
      r = { ia with Status := AppstoreDeploymentStatus.DEPLOY_SUCCESS } ∧
      r.Active = true ∧ r.Status = AppstoreDeploymentStatus.DEPLOY_SUCCESS :=
  ⟨by rfl,
    C9_install_success demoImpl demoRequest
      { demoRequest with AppId := 1, InstalledAppId := 10, InstalledAppVersionId := 100 } demoState
      demoImpl_exact (by rfl) (by decide)⟩

/-! ## C11: the InstalledApp and InstalledAppVersion rows of the bookkeeping -/

/-- C11: for every request on which `AppStoreDeployOperationDB` succeeds, the
writes it added to the transaction hold exactly one InstalledApp insert, of a
row that is active, has status INIT, the `AppId` of the App row created by the
call and the `EnvironmentId` of the resolved environment, and exactly one
InstalledAppVersion insert, of a row that is active, references that InstalledApp
and the looked-up chart version, and carries `ValuesYaml` equal to the request-s
`ValuesOverrideYaml` and the request-s `ReferenceValueId` and `ReferenceValueKind`. -/
theorem C11_bookkeeping_rows (impl : AppStoreDeploymentServiceImpl)
    (req out : InstallAppVersionDTO) (tx tx1 : Tx) (s s1 : State)
    (h : AppStoreDeployOperationDB impl req tx s = (Except.ok out, tx1, s1)) :
    ∃ (added : Tx) (a : App) (ia : InstalledApps) (v : InstalledAppVersions)
      (environment : Environment) (version : AppStoreApplicationVersion),
      tx1 = tx ++ added ∧
      impl.appStoreApplicationVersionRepository.FindById req.AppStoreVersion = Except.ok version ∧
      impl.environmentRepository.FindById s1.db out.EnvironmentId = Except.ok environment ∧
      added.filterMap Write.insertedApp? = [a] ∧
      added.filterMap Write.insertedInstalledApp? = [ia] ∧
      added.filterMap Write.insertedInstalledAppVersion? = [v] ∧
      ia.Active = true ∧ ia.Status = AppstoreDeploymentStatus.DEPLOY_INIT ∧
      ia.AppId = a.Id ∧ ia.EnvironmentId = environment.Id ∧ ia.Id = out.InstalledAppId ∧
      v.Active = true ∧ v.InstalledAppId = ia.Id ∧
      v.AppStoreApplicationVersionId = version.Id ∧
      v.ValuesYaml = req.ValuesOverrideYaml ∧
      v.ReferenceValueId = req.ReferenceValueId ∧ v.ReferenceValueKind = req.ReferenceValueKind := by
  obtain ⟨environment, version, hv, he, _, _, htx⟩ := AppStoreDeployOperationDB_ok impl req out tx tx1 s s1 h
  refine ⟨bookkeepingWrites impl req out.AppId out.InstalledAppId out.InstalledAppVersionId environment version,
    newAppRow impl (appCreateRequestOf req) out.AppId,
    newInstalledAppRow impl req out.AppId environment.Id out.InstalledAppId,
    newVersionRow impl req out.InstalledAppId version.Id out.InstalledAppVersionId,
    environment, version, ?_, hv, he, ?_, ?_, ?_, rfl, rfl, rfl, rfl, rfl, rfl, rfl, rfl, rfl, rfl, rfl⟩
  · rw [htx, bookkeepingWrites, List.append_assoc]
  all_goals
    unfold bookkeepingWrites
    split <;>
      simp [Write.insertedApp?, Write.insertedInstalledApp?, Write.insertedInstalledAppVersion?]

/-- Witness for C11: the bookkeeping of `demoClusterRequest` in `demoImpl`. -/
theorem C11_bookkeeping_rows_witness :
    ∃ (added : Tx) (a : App) (ia : InstalledApps) (v : InstalledAppVersions)
      (environment : Environment) (version : AppStoreApplicationVersion),
      (AppStoreDeployOperationDB demoImpl demoClusterRequest [] demoState).2.1 = [] ++ added ∧
      demoImpl.appStoreApplicationVersionRepository.FindById demoClusterRequest.AppStoreVersion =
        Except.ok version ∧
      demoImpl.environmentRepository.FindById demoState.db 1 = Except.ok environment ∧
      added.filterMap Write.insertedApp? = [a] ∧
      added.filterMap Write.insertedInstalledApp? = [ia] ∧
      added.filterMap Write.insertedInstalledAppVersion? = [v] ∧
      ia.Active = true ∧ ia.Status = AppstoreDeploymentStatus.DEPLOY_INIT ∧
      ia.AppId = a.Id ∧ ia.EnvironmentId = environment.Id ∧ ia.Id = 10 ∧
      v.Active = true ∧ v.InstalledAppId = ia.Id ∧
      v.AppStoreApplicationVersionId = version.Id ∧
      v.ValuesYaml = "key: v" ∧
      v.ReferenceValueId = 6 ∧ v.ReferenceValueKind = "DEFAULT" :=
  C11_bookkeeping_rows demoImpl demoClusterRequest
    { demoClusterRequest with AppId := 1, InstalledAppId := 10, InstalledAppVersionId := 100 }
    [] _ demoState demoState (by rfl)

/-! ## C12: the ClusterInstalledApps row of the bookkeeping -/

/-- C12: for every request on which `AppStoreDeployOperationDB` succeeds, the
writes it added to the transaction hold a ClusterInstalledApps insert if and
only if the request-s `DefaultClusterComponent` flag is true, and then exactly
one, of a row whose `ClusterId` is the cluster id of the resolved environment
and whose `InstalledAppId` is the id of the InstalledApp row created by the call. -/
theorem C12_cluster_installed_apps_row (impl : AppStoreDeploymentServiceImpl)
    (req out : InstallAppVersionDTO) (tx tx1 : Tx) (s s1 : State)
    (h : AppStoreDeployOperationDB impl req tx s = (Except.ok out, tx1, s1)) :
    ∃ (added : Tx) (ia : InstalledApps) (environment : Environment),
      tx1 = tx ++ added ∧
      impl.environmentRepository.FindById s1.db out.EnvironmentId = Except.ok environment ∧
      added.filterMap Write.insertedInstalledApp? = [ia] ∧
      ((∃ c, Write.insertClusterInstalledApps c ∈ added) ↔ req.DefaultClusterComponent = true) ∧
      (req.DefaultClusterComponent = true →
        ∃ c, added.filterMap Write.insertedClusterInstalledApps? = [c] ∧
          c.ClusterId = environment.ClusterId ∧ c.InstalledAppId = ia.Id) ∧
      (req.DefaultClusterComponent = false →
        added.filterMap Write.insertedClusterInstalledApps? = []) := by
  obtain ⟨environment, version, _, he, _, _, htx⟩ := AppStoreDeployOperationDB_ok impl req out tx tx1 s s1 h
  refine ⟨bookkeepingWrites impl req out.AppId out.InstalledAppId out.InstalledAppVersionId environment version,
    newInstalledAppRow impl req out.AppId environment.Id out.InstalledAppId,
    environment, ?_, he, ?_, ?_, ?_, ?_⟩
  · rw [htx, bookkeepingWrites, List.append_assoc]
  · unfold bookkeepingWrites
    split <;> simp [Write.insertedInstalledApp?]
  · unfold bookkeepingWrites
    cases hflag : req.DefaultClusterComponent <;> simp
  · intro hflag
    refine ⟨newClusterRow impl req environment.ClusterId out.InstalledAppId, ?_, rfl, rfl⟩
    simp [bookkeepingWrites, hflag, Write.insertedClusterInstalledApps?]
  · intro hflag
    simp [bookkeepingWrites, hflag, Write.insertedClusterInstalledApps?]

/-- Witness for C12: the bookkeeping of `demoClusterRequest` inserts the cluster row. -/
theorem C12_cluster_installed_apps_row_witness :
    ∃ (added : Tx) (ia : InstalledApps) (environment : Environment),
      (AppStoreDeployOperationDB demoImpl demoClusterRequest [] demoState).2.1 = [] ++ added ∧
      demoImpl.environmentRepository.FindById demoState.db 1 = Except.ok environment ∧
      added.filterMap Write.insertedInstalledApp? = [ia] ∧
      ((∃ c, Write.insertClusterInstalledApps c ∈ added) ↔ demoClusterRequest.DefaultClusterComponent = true) ∧
      (demoClusterRequest.DefaultClusterComponent = true →
        ∃ c, added.filterMap Write.insertedClusterInstalledApps? = [c] ∧
          c.ClusterId = environment.ClusterId ∧ c.InstalledAppId = ia.Id) ∧
      (demoClusterRequest.DefaultClusterComponent = false →
        added.filterMap Write.insertedClusterInstalledApps? = []) :=
  C12_cluster_installed_apps_row demoImpl demoClusterRequest
    { demoClusterRequest with AppId := 1, InstalledAppId := 10, InstalledAppVersionId := 100 }
    [] _ demoState demoState (by rfl)

/-! ## C14: the App row of a fresh name -/

/-- C14: for every create request for which the lookup by name finds no active
App row of a positive id, the insert succeeds (with key `id`) and the re-query
by name returns only the new row: `createAppForAppStore` adds exactly one write
to the transaction, the insert of an App row that is active, marked as an
app-store app, has the requested name and team, `AppOfferingMode` equal to the
global operating mode and `CreatedBy` and `UpdatedBy` equal to the requesting
user, and returns the request with `Id` set to the key of that row. -/
theorem C14_new_app_row (impl : AppStoreDeploymentServiceImpl) (createRequest : CreateAppDTO)
    (tx : Tx) (db : DB) (app1 : Option App) (err : Option Error) (id : Int)
    (hfind : impl.appRepository.FindActiveByName db createRequest.AppName = (app1, err))
    (herr : err = none ∨ err = some Error.pgErrNoRows)
    (happ : ∀ a, app1 = some a → a.Id ≤ 0)
    (hsave : impl.appRepository.SaveWithTxn (newAppRow impl createRequest 0) = Except.ok id)
    (hlist : impl.appRepository.FindActiveListByName db createRequest.AppName =
      Except.ok [newAppRow impl createRequest id]) :
    ∃ row : App,
      createAppForAppStore impl createRequest tx db =
        (Except.ok { createRequest with Id := row.Id }, tx ++ [Write.insertApp row]) ∧
      row.Id = id ∧ row.Active = true ∧ row.AppStore = true ∧
      row.AppName = createRequest.AppName ∧ row.TeamId = createRequest.TeamId ∧
      row.AppOfferingMode = impl.ServerMode ∧
      row.CreatedBy = createRequest.UserId ∧ row.UpdatedBy = createRequest.UserId := by
  refine ⟨newAppRow impl createRequest id, ?_, rfl, rfl, rfl, rfl, rfl, rfl, rfl, rfl⟩
  have hcheck : ¬ (err.isSome = true ∧ err ≠ some Error.pgErrNoRows) := by
    rcases herr with h | h <;> simp [h]
  simp only [newAppRow] at hsave hlist ⊢
  unfold createAppForAppStore
  simp only [hfind, hcheck, dite_false]
  cases app1 with
  | none => simp [hsave, hlist]
  | some a =>
    have h0 : ¬ (0 < a.Id) := not_lt.mpr (happ a rfl)
    simp [h0, hsave, hlist]

/-- Witness for C14: the name "demo" has no App row in `demoState`; the re-query
of `racingImpl` returns the new row alone. -/
theorem C14_new_app_row_witness :
    ∃ row : App,
      createAppForAppStore
          (racingImpl [newAppRow demoImpl { AppName := "demo", TeamId := 3, UserId := 9 } 1])
          { AppName := "demo", TeamId := 3, UserId := 9 } [] demoState.db =
        (Except.ok { Id := row.Id, AppName := "demo", TeamId := 3, UserId := 9 },
          [] ++ [Write.insertApp row]) ∧
      row.Id = 1 ∧ row.Active = true ∧ row.AppStore = true ∧
      row.AppName = "demo" ∧ row.TeamId = 3 ∧ row.AppOfferingMode = "FULL" ∧
      row.CreatedBy = 9 ∧ row.UpdatedBy = 9 :=
  C14_new_app_row (racingImpl [newAppRow demoImpl { AppName := "demo", TeamId := 3, UserId := 9 } 1])
    { AppName := "demo", TeamId := 3, UserId := 9 } [] demoState.db none (some Error.pgErrNoRows) 1
    (by rfl) (Or.inr rfl) (by simp) (by rfl) (by rfl)

/-! ## C15 and C16: the environment resolver -/

/-- C15: for every request, when the lookup by (namespace, clusterId) succeeds,
`createEnvironmentIfNotExists` returns the id of the environment found, leaves
the committed database as it is and calls neither the cluster service nor the
environment service; and when that lookup reports no rows and the cluster
lookup and the creation succeed, it calls the environment service exactly once,
with the bean whose identifier is `BuildEnvironmentIdentifer(cluster name,
namespace)` and that carries the request-s cluster id and namespace,
`Default = false` and `Active = true`, the committed database holds that one
new environment, and the id of the created environment is returned. -/
theorem C15_environment_resolver (impl : AppStoreDeploymentServiceImpl) (req : InstallAppVersionDTO)
    (s : State) :
    (∀ env : Environment,
      impl.environmentRepository.FindOneByNamespaceAndClusterId s.db req.Namespace req.ClusterId =
          Except.ok env →
        createEnvironmentIfNotExists impl req s =
          ((env.Id, none),
            { db := s.db
              calls := s.calls ++ [Call.FindOneByNamespaceAndClusterId req.Namespace req.ClusterId] })) ∧
    (∀ (cluster : ClusterBean) (envCreateRes : EnvironmentBean),
      impl.environmentRepository.FindOneByNamespaceAndClusterId s.db req.Namespace req.ClusterId =
          Except.error Error.pgErrNoRows →
      impl.clusterService.FindById req.ClusterId = Except.ok cluster →
      impl.environmentService.Create (environmentBeanOf impl req cluster) req.UserId =
          Except.ok envCreateRes →
        createEnvironmentIfNotExists impl req s =
          ((envCreateRes.Id, none),
            { db :=
                { s.db with
                  environment := s.db.environment ++
                    [{ Id := envCreateRes.Id
                       Name := impl.BuildEnvironmentIdentifer cluster.ClusterName req.Namespace
                       ClusterId := req.ClusterId
                       Namespace := req.Namespace
                       Default := false
                       Active := true }] }
              calls := s.calls ++
                [Call.FindOneByNamespaceAndClusterId req.Namespace req.ClusterId,
                  Call.ClusterFindById req.ClusterId,
                  Call.EnvironmentCreate (environmentBeanOf impl req cluster) req.UserId] })) := by
  constructor
  · intro env h
    unfold createEnvironmentIfNotExists
    simp [State.record, h]
  · intro cluster envCreateRes h1 h2 h3
    simp only [environmentBeanOf] at h3
    unfold createEnvironmentIfNotExists
    simp [State.record, h1, h2, h3, DB.createEnvironment, environmentBeanOf]

/-- Witness for C15: `demoState` holds no environment for ("ns2", cluster 1), so
one is created, with key 2 and the identifier built from "clusterA" and "ns2". -/
theorem C15_environment_resolver_witness :
    createEnvironmentIfNotExists hyperionImpl newNamespaceRequest demoState =
      ((2, none),
        { db :=
            { demoState.db with
              environment := demoState.db.environment ++
                [{ Id := 2, Name := "clusterA__ns2", ClusterId := 1, Namespace := "ns2",
                   Default := false, Active := true }] }
          calls :=
            [Call.FindOneByNamespaceAndClusterId "ns2" 1, Call.ClusterFindById 1,
              Call.EnvironmentCreate
                { Environment := "clusterA__ns2", ClusterId := 1, Namespace := "ns2",
                  Default := false, Active := true } 9] }) :=
  (C15_environment_resolver hyperionImpl newNamespaceRequest demoState).2
    { Id := 1, ClusterName := "clusterA" }
    { Id := 2, Environment := "clusterA__ns2", ClusterId := 1, Namespace := "ns2",
      Default := false, Active := true }
    (by rfl) (by rfl) (by rfl)

/-- C16: for every error returned by the environment lookup by (namespace,
clusterId) other than the no-rows error, `createEnvironmentIfNotExists` returns
`(0, that error)`, and the only collaborator call it makes is that lookup:
neither the cluster lookup nor the environment creation is invoked, and the
committed database is unchanged. -/
theorem C16_lookup_error_propagated (impl : AppStoreDeploymentServiceImpl) (req : InstallAppVersionDTO)
    (s : State) (err : Error)
    (hlookup : impl.environmentRepository.FindOneByNamespaceAndClusterId s.db req.Namespace req.ClusterId =
      Except.error err)
    (hne : err ≠ Error.pgErrNoRows) :
    createEnvironmentIfNotExists impl req s =
      ((0, some err),
        { db := s.db
          calls := s.calls ++ [Call.FindOneByNamespaceAndClusterId req.Namespace req.ClusterId] }) := by
  unfold createEnvironmentIfNotExists
  simp [State.record, hlookup, hne]

/-- Witness for C16: the lookup of `lookupDownImpl` fails with "connection refused". -/
theorem C16_lookup_error_propagated_witness :
    createEnvironmentIfNotExists lookupDownImpl newNamespaceRequest demoState =
      ((0, some (Error.other "connection refused")),
        { db := demoState.db, calls := [Call.FindOneByNamespaceAndClusterId "ns2" 1] }) :=
  C16_lookup_error_propagated lookupDownImpl newNamespaceRequest demoState
    (Error.other "connection refused") (by rfl) (by decide)

theorem createAppForAppStore_conflict (impl : AppStoreDeploymentServiceImpl) (cr : CreateAppDTO)
    (tx : Tx) (db : DB) (a : App) (err : Option Error)
    (hfind : impl.appRepository.FindActiveByName db cr.AppName = (some a, err))
    (herr : err = none ∨ err = some Error.pgErrNoRows) (hid : 0 < a.Id) :
    createAppForAppStore impl cr tx db = (Except.error (appAlreadyExistsError impl cr.AppName), tx) := by
  have hcheck : ¬ (err.isSome = true ∧ err ≠ some Error.pgErrNoRows) := by
    rcases herr with h | h <;> simp [h]
  unfold createAppForAppStore
  simp [hfind, hcheck, hid]

theorem createAppForAppStore_ok_lookup (impl : AppStoreDeploymentServiceImpl) (cr out : CreateAppDTO)
    (tx tx1 : Tx) (db : DB) (h : createAppForAppStore impl cr tx db = (Except.ok out, tx1)) :
    ∀ a, (impl.appRepository.FindActiveByName db cr.AppName).1 = some a → a.Id ≤ 0 := by
  intro a ha
  by_contra hpos
  rcases hr : impl.appRepository.FindActiveByName db cr.AppName with ⟨app1, err⟩
  rw [hr] at ha
  simp only at ha
  subst ha
  unfold createAppForAppStore at h
  rw [hr] at h
  simp only at h
  split at h
  · simp at h
  · have : 0 < a.Id := not_le.mp hpos
    simp [this] at h

theorem AppStoreDeployOperationDB_ok_createApp (impl : AppStoreDeploymentServiceImpl)
    (req out : InstallAppVersionDTO) (tx tx1 : Tx) (s s1 : State)
    (h : AppStoreDeployOperationDB impl req tx s = (Except.ok out, tx1, s1)) :
    ∃ out1 tx2, createAppForAppStore impl (appCreateRequestOf req) tx s1.db = (Except.ok out1, tx2) := by
  revert h
  unfold AppStoreDeployOperationDB
  repeat' (first | split | simp only [])
  all_goals intro h
  all_goals simp only [Prod.mk.injEq, reduceCtorEq, false_and, Except.ok.injEq] at h
  all_goals
    obtain ⟨h1, h2, h3⟩ := h
    subst h1 h2 h3
    exact ⟨_, _, by assumption⟩

theorem AppStoreDeployOperationDB_of_conflict (impl : AppStoreDeploymentServiceImpl)
    (req : InstallAppVersionDTO) (tx : Tx) (s : State) (c : Error)
    (hc : ∀ db : DB, db.app = s.db.app →
      createAppForAppStore impl (appCreateRequestOf req) tx db = (Except.error c, tx)) :
    ∃ e, (AppStoreDeployOperationDB impl req tx s).1 = Except.error e ∧
      (e = c ∨
        impl.appStoreApplicationVersionRepository.FindById req.AppStoreVersion = Except.error e ∨
        (createEnvironmentIfNotExists impl req s).1.2 = some e ∨
        ∃ db id, impl.environmentRepository.FindById db id = Except.error e) := by
  unfold AppStoreDeployOperationDB
  cases hv : impl.appStoreApplicationVersionRepository.FindById req.AppStoreVersion with
  | error e => exact ⟨e, rfl, Or.inr (Or.inl rfl)⟩
  | ok version =>
    simp only []
    by_cases hm : impl.ServerMode = impl.SERVER_MODE_HYPERION
    · simp only [hm, if_true]
      have hfr := (createEnvironmentIfNotExists_frame impl req s).1
      rcases hce : createEnvironmentIfNotExists impl req s with ⟨⟨envId, err⟩, s1⟩
      rw [hce] at hfr
      cases err with
      | some e => exact ⟨e, rfl, Or.inr (Or.inr (Or.inl rfl))⟩
      | none =>
        simp only []
        cases he : impl.environmentRepository.FindById s1.db envId with
        | error e => exact ⟨e, rfl, Or.inr (Or.inr (Or.inr ⟨_, _, he⟩))⟩
        | ok environment =>
          have h1 := hc s1.db hfr.1
          simp only [appCreateRequestOf] at h1
          simp only [h1]
          exact ⟨c, rfl, Or.inl rfl⟩
    · simp only [hm, if_false]
      cases he : impl.environmentRepository.FindById s.db req.EnvironmentId with
      | error e => exact ⟨e, rfl, Or.inr (Or.inr (Or.inr ⟨_, _, he⟩))⟩
      | ok environment =>
        have h1 := hc s.db rfl
        simp only [appCreateRequestOf] at h1
        simp only [h1]
        exact ⟨c, rfl, Or.inl rfl⟩
theorem InstallApp_of_bookkeeping_error (impl : AppStoreDeploymentServiceImpl)
    (req : InstallAppVersionDTO) (s : State) (e : Error)
    (hbegin : impl.installedAppRepository.GetConnection.Begin TxSite.install = none)
    (hdb : (AppStoreDeployOperationDB impl req [] s).1 = Except.error e) :
    (InstallApp impl req s).1 = Except.error e ∧
      (InstallApp impl req s).2 = (AppStoreDeployOperationDB impl req [] s).2.2 := by
  rcases hr : AppStoreDeployOperationDB impl req [] s with ⟨r, tx, s1⟩
  rw [hr] at hdb
  simp only at hdb
  subst hdb
  unfold InstallApp
  simp only [hbegin, hr]
  exact ⟨trivial, trivial⟩

theorem InstallApp_ok_app (impl : AppStoreDeploymentServiceImpl) (req out : InstallAppVersionDTO)
    (s : State) (h : (InstallApp impl req s).1 = Except.ok out) :
    (InstallApp impl req s).2.db.app =
      s.db.app ++ [newAppRow impl (appCreateRequestOf req) out.AppId] := by
  obtain ⟨_, tx, s1, hdb, r, _, hfinal⟩ := InstallApp_ok impl req out s h
  obtain ⟨environment, version, _, _, _, _, htx⟩ := AppStoreDeployOperationDB_ok impl req out [] tx s s1 hdb
  have hframe := (AppStoreDeployOperationDB_frame impl req [] s).1
  rw [hdb] at hframe
  have hc := commit_bookkeeping s1.db (newAppRow impl (appCreateRequestOf req) out.AppId)
    (newInstalledAppRow impl req out.AppId environment.Id out.InstalledAppId)
    (newVersionRow impl req out.InstalledAppId version.Id out.InstalledAppVersionId)
    (newClusterRow impl req environment.ClusterId out.InstalledAppId) req.DefaultClusterComponent
  rw [← htx] at hc
  rw [hfinal]
  simp only [DB.applyWrite]
  rw [hc.1, hframe.1]

theorem InstallApp_ok_no_active (impl : AppStoreDeploymentServiceImpl) (req out : InstallAppVersionDTO)
    (s : State) (hexact : ExactFindActiveByName impl) (hpos : ∀ a ∈ s.db.app, 0 < a.Id)
    (h : (InstallApp impl req s).1 = Except.ok out) :
    ∀ a ∈ s.db.app, ¬ (a.Active = true ∧ a.AppName = req.AppName) := by
  intro a ha ⟨hact, hname⟩
  obtain ⟨_, tx, s1, hdb, _, _, _⟩ := InstallApp_ok impl req out s h
  obtain ⟨out1, tx2, hca⟩ := AppStoreDeployOperationDB_ok_createApp impl req out [] tx s s1 hdb
  have hframe := (AppStoreDeployOperationDB_frame impl req [] s).1
  rw [hdb] at hframe
  have hs1 : s1.db.app = s.db.app := hframe.1
  obtain ⟨a1, hfind, hmem, _, _⟩ := hexact s1.db req.AppName a (by rw [hs1]; exact ha) hact hname
  have hle := createAppForAppStore_ok_lookup impl (appCreateRequestOf req) out1 [] tx2 s1.db hca a1
    (by simp [appCreateRequestOf, hfind])
  have := hpos a1 (by rw [← hs1]; exact hmem)
  omega

theorem InstallApp_of_conflict (impl : AppStoreDeploymentServiceImpl)
    (req : InstallAppVersionDTO) (s : State) (c : Error)
    (hc : ∀ db : DB, db.app = s.db.app →
      createAppForAppStore impl (appCreateRequestOf req) [] db = (Except.error c, [])) :
    (∃ e, (InstallApp impl req s).1 = Except.error e ∧
      (e = c ∨
        impl.installedAppRepository.GetConnection.Begin TxSite.install = some e ∨
        impl.appStoreApplicationVersionRepository.FindById req.AppStoreVersion = Except.error e ∨
        (createEnvironmentIfNotExists impl req s).1.2 = some e ∨
        ∃ db id, impl.environmentRepository.FindById db id = Except.error e)) ∧
      (InstallApp impl req s).2.db.sameBookkeeping s.db := by
  cases hbegin : impl.installedAppRepository.GetConnection.Begin TxSite.install with
  | some e =>
    unfold InstallApp
    simp only [hbegin]
    exact ⟨⟨e, rfl, Or.inr (Or.inl rfl)⟩, rfl, rfl, rfl, rfl⟩
  | none =>
    obtain ⟨e, he, hor⟩ := AppStoreDeployOperationDB_of_conflict impl req [] s c hc
    obtain ⟨h1, h2⟩ := InstallApp_of_bookkeeping_error impl req s e hbegin he
    refine ⟨⟨e, h1, ?_⟩, ?_⟩
    · rcases hor with h | h | h | h
      · exact Or.inl h
      · exact Or.inr (Or.inr (Or.inl h))
      · exact Or.inr (Or.inr (Or.inr (Or.inl h)))
      · exact Or.inr (Or.inr (Or.inr (Or.inr h)))
    · rw [h2]
      exact (AppStoreDeployOperationDB_frame impl req [] s).1

theorem demoImpl_exactFindActiveByName : ExactFindActiveByName demoImpl := by
  intro db name a ha hact hname
  simp only [demoImpl, demoAppRepository]
  cases hf : db.app.find? (fun a => decide (a.AppName = name) && a.Active) with
  | none =>
    have := List.find?_eq_none.mp hf a ha
    simp [hact, hname] at this
  | some a1 =>
    have hp := List.find?_some hf
    simp only [Bool.and_eq_true, decide_eq_true_eq] at hp
    exact ⟨a1, rfl, List.mem_of_find?_eq_some hf, hp.2, hp.1⟩

theorem createEnvironmentIfNotExists_calls (impl : AppStoreDeploymentServiceImpl)
    (req : InstallAppVersionDTO) (s : State) :
    resolverInvoked s.calls (createEnvironmentIfNotExists impl req s).2.calls := by
  unfold createEnvironmentIfNotExists resolverInvoked
  repeat' (first | split | simp only [])
  all_goals simp [State.record]

theorem not_resolverInvoked_self (calls : List Call) : ¬ resolverInvoked calls calls := by
  rintro ⟨ns, clusterId, rest, h⟩
  have := congrArg List.length h
  simp at this

theorem AppStoreDeployOperationDB_state_full (impl : AppStoreDeploymentServiceImpl)
    (req : InstallAppVersionDTO) (tx : Tx) (s : State)
    (hm : impl.ServerMode ≠ impl.SERVER_MODE_HYPERION) :
    (AppStoreDeployOperationDB impl req tx s).2.2 = s := by
  unfold AppStoreDeployOperationDB
  simp only [hm, if_false]
  repeat' (first | split | simp only [])

theorem AppStoreDeployOperationDB_state_hyperion (impl : AppStoreDeploymentServiceImpl)
    (req : InstallAppVersionDTO) (tx : Tx) (s : State) (version : AppStoreApplicationVersion)
    (hm : impl.ServerMode = impl.SERVER_MODE_HYPERION)
    (hv : impl.appStoreApplicationVersionRepository.FindById req.AppStoreVersion = Except.ok version) :
    (AppStoreDeployOperationDB impl req tx s).2.2 = (createEnvironmentIfNotExists impl req s).2 := by
  unfold AppStoreDeployOperationDB
  simp only [hv, hm, if_true]
  rcases createEnvironmentIfNotExists impl req s with ⟨⟨envId, err⟩, s1⟩
  cases err with
  | some e => rfl
  | none =>
    simp only []
    repeat' (first | split | simp only [])

theorem createAppForAppStore_tx (impl : AppStoreDeploymentServiceImpl) (cr : CreateAppDTO)
    (tx : Tx) (db : DB) :
    (createAppForAppStore impl cr tx db).2 = tx ∨
      ∃ id, impl.appRepository.SaveWithTxn (newAppRow impl cr 0) = Except.ok id ∧
        ((createAppForAppStore impl cr tx db).2 = tx ++ [Write.insertApp (newAppRow impl cr id)] ∨
          (createAppForAppStore impl cr tx db).2 =
            tx ++ [Write.insertApp (newAppRow impl cr id),
              Write.updateApp { newAppRow impl cr id with Active := false }]) := by
  unfold createAppForAppStore
  repeat' (first | split | simp only [])
  all_goals simp_all [newAppRow]

theorem map_update_of_fresh (l : List App) (row : App) (h : ∀ r ∈ l, r.Id ≠ row.Id) :
    l.map (fun r => if r.Id = row.Id then row else r) = l := by
  induction l with
  | nil => rfl
  | cons x rest ih =>
    have hx : ¬ (x.Id = row.Id) := h x (by simp)
    simp only [List.map_cons, hx, if_false]
    rw [ih (fun r hr => h r (by simp [hr]))]

/-! ## C20: the writes of `createAppForAppStore` -/

/-- C20: for every call of `createAppForAppStore`, whatever the re-query returns,
the writes it adds to the transaction are none, or the insert of its new App
row, or that insert followed by one update that sets that same row inactive: at
most one insert and at most one update, both of the row it inserted itself.
When the key given to the new row is not the key of a committed App row, the
App rows that existed before are unchanged by these writes: the committed App
table afterwards is the old table followed by at most one row, and the other
tables are as before. -/
theorem C20_writes_only_own_row (impl : AppStoreDeploymentServiceImpl) (createRequest : CreateAppDTO)
    (tx : Tx) (db : DB) :
    ∃ added : Tx, (createAppForAppStore impl createRequest tx db).2 = tx ++ added ∧
      (added = [] ∨
        ∃ id, impl.appRepository.SaveWithTxn (newAppRow impl createRequest 0) = Except.ok id ∧
          (added = [Write.insertApp (newAppRow impl createRequest id)] ∨
            added = [Write.insertApp (newAppRow impl createRequest id),
              Write.updateApp { newAppRow impl createRequest id with Active := false }])) ∧
      (added.filterMap Write.insertedApp?).length ≤ 1 ∧
      (added.filterMap Write.updatedApp?).length ≤ 1 ∧
      ∀ db0 : DB,
        (∀ id, impl.appRepository.SaveWithTxn (newAppRow impl createRequest 0) = Except.ok id →
          ∀ r ∈ db0.app, r.Id ≠ id) →
        (∃ l : List App, (db0.commit added).app = db0.app ++ l ∧ l.length ≤ 1) ∧
        (db0.commit added).installedApps = db0.installedApps ∧
        (db0.commit added).installedAppVersions = db0.installedAppVersions ∧
        (db0.commit added).clusterInstalledApps = db0.clusterInstalledApps ∧
        (db0.commit added).environment = db0.environment := by
  rcases createAppForAppStore_tx impl createRequest tx db with h | ⟨id, hsave, h | h⟩
  · refine ⟨[], by simp [h], Or.inl rfl, by simp, by simp, ?_⟩
    intro db0 _
    exact ⟨⟨[], by simp [DB.commit], by simp⟩, rfl, rfl, rfl, rfl⟩
  · refine ⟨_, h, Or.inr ⟨id, hsave, Or.inl rfl⟩, by simp [Write.insertedApp?],
      by simp [Write.updatedApp?], ?_⟩
    intro db0 _
    exact ⟨⟨[newAppRow impl createRequest id], by simp [DB.commit, DB.applyWrite], by simp⟩,
      rfl, rfl, rfl, rfl⟩
  · refine ⟨_, h, Or.inr ⟨id, hsave, Or.inr rfl⟩, by simp [Write.insertedApp?],
      by simp [Write.updatedApp?], ?_⟩
    intro db0 hfresh
    refine ⟨⟨[{ newAppRow impl createRequest id with Active := false }], ?_, by simp⟩,
      rfl, rfl, rfl, rfl⟩
    have hf : ∀ r ∈ db0.app,
        r.Id ≠ ({ newAppRow impl createRequest id with Active := false } : App).Id :=
      fun r hr => hfresh id hsave r hr
    simp only [DB.commit, DB.applyWrite, List.foldl_cons, List.foldl_nil, List.map_append]
    rw [map_update_of_fresh db0.app _ hf]
    simp [newAppRow]

/-- Witness for C20: the re-query returns an older row (key 2) and the new row
(key 1); committed on top of a table holding the older row, the writes leave
that row as it is and add the new row, inactive. -/
theorem C20_writes_only_own_row_witness :
    ∃ l : List App,
      (({ app := [{ Id := 2, AppName := "demo", Active := true }] } : DB).commit
          [Write.insertApp (newAppRow demoImpl { AppName := "demo", TeamId := 3, UserId := 9 } 1),
            Write.updateApp
              { newAppRow demoImpl { AppName := "demo", TeamId := 3, UserId := 9 } 1 with
                Active := false }]).app =
        [{ Id := 2, AppName := "demo", Active := true }] ++ l ∧ l.length ≤ 1 :=
  let ⟨added, h1, h2, _, _, h5⟩ :=
    C20_writes_only_own_row
      (racingImpl
        [{ Id := 2, AppName := "demo", Active := true },
          newAppRow demoImpl { AppName := "demo", TeamId := 3, UserId := 9 } 1])
      { AppName := "demo", TeamId := 3, UserId := 9 } [] demoState.db
  have hadded : added =
      [Write.insertApp (newAppRow demoImpl { AppName := "demo", TeamId := 3, UserId := 9 } 1),
        Write.updateApp
          { newAppRow demoImpl { AppName := "demo", TeamId := 3, UserId := 9 } 1 with
            Active := false }] := by
    have h0 : (createAppForAppStore
        (racingImpl
          [{ Id := 2, AppName := "demo", Active := true },
            newAppRow demoImpl { AppName := "demo", TeamId := 3, UserId := 9 } 1])
        { AppName := "demo", TeamId := 3, UserId := 9 } [] demoState.db).2 =
        [Write.insertApp (newAppRow demoImpl { AppName := "demo", TeamId := 3, UserId := 9 } 1),
          Write.updateApp
            { newAppRow demoImpl { AppName := "demo", TeamId := 3, UserId := 9 } 1 with
              Active := false }] := by rfl
    rw [h0] at h1
    simpa using h1.symm
  hadded ▸ (h5 { app := [{ Id := 2, AppName := "demo", Active := true }] }
    (by
      intro id hid r hr
      have h1 : id = 1 := by
        have : (Except.ok 1 : Except Error Int) = Except.ok id := hid
        cases this
        rfl
      simp only [List.mem_singleton] at hr
      subst hr h1
      decide)).1
theorem DeleteInstalledApp_ok (impl : AppStoreDeploymentServiceImpl)
    (req out : InstallAppVersionDTO) (s : State)
    (h : (DeleteInstalledApp impl req s).1 = Except.ok out) :
    out = req ∧
      ∃ (app : App) (model : InstalledApps) (models : List InstalledAppVersions),
        impl.appRepository.FindById s.db req.AppId = Except.ok app ∧
        impl.installedAppRepository.GetInstalledApp s.db req.InstalledAppId = Except.ok model ∧
        impl.installedAppRepository.GetInstalledAppVersionByInstalledAppId s.db req.InstalledAppId =
          Except.ok models ∧
        (DeleteInstalledApp impl req s).2.db = s.db.commit (deleteWrites impl req app model models) := by
  unfold DeleteInstalledApp at h ⊢
  cases h1 : impl.environmentRepository.FindById s.db req.EnvironmentId with
  | error e1 => simp [h1] at h
  | ok environment =>
  cases h2 : impl.installedAppRepository.GetConnection.Begin TxSite.delete with
  | some e1 => simp [h1, h2] at h
  | none =>
  cases h3 : impl.appRepository.FindById s.db req.AppId with
  | error e1 => simp [h1, h2, h3] at h
  | ok app =>
  cases h4 : impl.appRepository.UpdateWithTxn (deactivatedApp impl req app) with
  | some e1 =>
    simp only [deactivatedApp] at h4
    simp [h1, h2, h3, h4] at h
  | none =>
  simp only [deactivatedApp] at h4
  cases h5 : impl.installedAppRepository.GetInstalledApp s.db req.InstalledAppId with
  | error e1 => simp [h1, h2, h3, h4, h5] at h
  | ok model =>
  cases h6 : impl.installedAppRepository.UpdateInstalledApp (deactivatedInstalledApp impl req model) with
  | some e1 =>
    simp only [deactivatedInstalledApp] at h6
    simp [h1, h2, h3, h4, h5, h6] at h
  | none =>
  simp only [deactivatedInstalledApp] at h6
  cases h7 : impl.installedAppRepository.GetInstalledAppVersionByInstalledAppId s.db req.InstalledAppId with
  | error e1 => simp [h1, h2, h3, h4, h5, h6, h7] at h
  | ok models =>
  simp only [h1, h2, h3, h4, h5, h6, h7, List.nil_append, List.cons_append] at h ⊢
  rcases forItems_cases impl req.UserId models
    [Write.updateApp (deactivatedApp impl req app),
      Write.updateInstalledApp (deactivatedInstalledApp impl req model)] with
    ⟨hf, h8⟩ | ⟨e1, before, item, after, hf, hm, h8, h9⟩
  · have hfi := forItems_ok impl req.UserId models
      [Write.updateApp (deactivatedApp impl req app),
        Write.updateInstalledApp (deactivatedInstalledApp impl req model)] h8
    simp only [deactivatedApp, deactivatedInstalledApp] at hfi
    simp only [hfi] at h ⊢
    by_cases hc : impl.ServerMode = impl.SERVER_MODE_HYPERION ∨
        app.AppOfferingMode = impl.SERVER_MODE_HYPERION
    · simp only [hc, if_true] at h ⊢
      cases h9 : impl.appStoreDeploymentHelmService.DeleteInstalledApp app.AppName environment.Name req
          { model with Active := false, UpdatedBy := req.UserId, UpdatedOn := impl.Now } with
      | some e1 => simp [h9] at h
      | none =>
        simp only [h9] at h ⊢
        cases h10 : impl.installedAppRepository.GetConnection.Commit TxSite.delete with
        | some e2 => simp [h10] at h
        | none =>
          simp only [h10] at h ⊢
          simp only [Except.ok.injEq] at h
          exact ⟨h.symm, app, model, models, rfl, rfl, rfl, rfl⟩
    · simp only [hc, if_false] at h ⊢
      cases h9 : impl.appStoreDeploymentArgoCdService.DeleteInstalledApp app.AppName environment.Name req
          { model with Active := false, UpdatedBy := req.UserId, UpdatedOn := impl.Now } with
      | some e1 => simp [h9] at h
      | none =>
        simp only [h9] at h ⊢
        cases h10 : impl.installedAppRepository.GetConnection.Commit TxSite.delete with
        | some e2 => simp [h10] at h
        | none =>
          simp only [h10] at h ⊢
          simp only [Except.ok.injEq] at h
          exact ⟨h.symm, app, model, models, rfl, rfl, rfl, rfl⟩
  · rcases hfi : DeleteInstalledApp.forItems impl req.UserId models
      [Write.updateApp (deactivatedApp impl req app),
        Write.updateInstalledApp (deactivatedInstalledApp impl req model)] with ⟨r, tx1⟩
    rw [hfi] at hf
    simp only at hf
    subst hf
    simp only [deactivatedApp, deactivatedInstalledApp] at hfi
    simp only [hfi] at h
    simp at h

theorem forall₂_map_update {α : Type} (key : α → Int) (act : α → Bool) (l : List α) (row : α)
    (hrow : act row = false) :
    List.Forall₂ (fun x y => key y = key x ∧ (act x = false → act y = false)) l
      (l.map (fun r => if key r = key row then row else r)) := by
  induction l with
  | nil => exact List.Forall₂.nil
  | cons x rest ih =>
    refine List.Forall₂.cons ?_ ih
    by_cases hx : key x = key row
    · simp [hx, hrow]
    · simp [hx]

theorem forall₂_noReactivation_refl {α : Type} (key : α → Int) (act : α → Bool) (l : List α) :
    List.Forall₂ (fun x y => key y = key x ∧ (act x = false → act y = false)) l l := by
  induction l with
  | nil => exact List.Forall₂.nil
  | cons x rest ih => exact List.Forall₂.cons ⟨rfl, id⟩ ih

theorem forall₂_noReactivation_trans {α : Type} (key : α → Int) (act : α → Bool) {l1 l2 l3 : List α}
    (h12 : List.Forall₂ (fun x y => key y = key x ∧ (act x = false → act y = false)) l1 l2)
    (h23 : List.Forall₂ (fun x y => key y = key x ∧ (act x = false → act y = false)) l2 l3) :
    List.Forall₂ (fun x y => key y = key x ∧ (act x = false → act y = false)) l1 l3 := by
  induction h12 generalizing l3 with
  | nil => cases h23; exact List.Forall₂.nil
  | cons hab _ ih =>
    cases h23 with
    | cons hbc hrest =>
      exact List.Forall₂.cons ⟨hbc.1.trans hab.1, fun h => hbc.2 (hab.2 h)⟩ (ih hrest)

theorem noReactivation_refl (db : DB) : db.noReactivation db :=
  ⟨forall₂_noReactivation_refl _ _ _, forall₂_noReactivation_refl _ _ _,
    forall₂_noReactivation_refl _ _ _⟩

theorem noReactivation_trans {db1 db2 db3 : DB} (h12 : db1.noReactivation db2)
    (h23 : db2.noReactivation db3) : db1.noReactivation db3 :=
  ⟨forall₂_noReactivation_trans _ _ h12.1 h23.1, forall₂_noReactivation_trans _ _ h12.2.1 h23.2.1,
    forall₂_noReactivation_trans _ _ h12.2.2 h23.2.2⟩

theorem applyWrite_noReactivation (db : DB) (w : Write) (hw : w.deactivates) :
    db.noReactivation (db.applyWrite w) := by
  cases w with
  | updateApp row =>
    exact ⟨forall₂_map_update (fun r : App => r.Id) (fun r => r.Active) db.app row hw,
      forall₂_noReactivation_refl _ _ _, forall₂_noReactivation_refl _ _ _⟩
  | updateInstalledApp row =>
    exact ⟨forall₂_noReactivation_refl _ _ _,
      forall₂_map_update (fun r : InstalledApps => r.Id) (fun r => r.Active) db.installedApps row hw,
      forall₂_noReactivation_refl _ _ _⟩
  | updateInstalledAppVersion row =>
    exact ⟨forall₂_noReactivation_refl _ _ _, forall₂_noReactivation_refl _ _ _,
      forall₂_map_update (fun r : InstalledAppVersions => r.Id) (fun r => r.Active)
        db.installedAppVersions row hw⟩
  | insertApp row => exact hw.elim
  | insertInstalledApp row => exact hw.elim
  | insertInstalledAppVersion row => exact hw.elim
  | insertClusterInstalledApps row => exact hw.elim

theorem commit_noReactivation (db : DB) (tx : Tx) (h : ∀ w ∈ tx, w.deactivates) :
    db.noReactivation (db.commit tx) := by
  induction tx generalizing db with
  | nil => exact noReactivation_refl db
  | cons w rest ih =>
    simp only [DB.commit, List.foldl_cons]
    exact noReactivation_trans (applyWrite_noReactivation db w (h w (by simp)))
      (ih (db.applyWrite w) (fun w1 hw1 => h w1 (by simp [hw1])))

theorem deleteWrites_deactivate (impl : AppStoreDeploymentServiceImpl) (req : InstallAppVersionDTO)
    (app : App) (model : InstalledApps) (models : List InstalledAppVersions) :
    ∀ w ∈ deleteWrites impl req app model models, w.deactivates := by
  intro w hw
  simp only [deleteWrites, List.mem_append, List.mem_cons, List.mem_singleton, List.mem_map,
    List.not_mem_nil, or_false] at hw
  rcases hw with (rfl | rfl) | ⟨x, _, rfl⟩ <;> rfl

theorem DeleteInstalledApp_noReactivation (impl : AppStoreDeploymentServiceImpl)
    (req : InstallAppVersionDTO) (s : State) :
    s.db.noReactivation (DeleteInstalledApp impl req s).2.db := by
  cases hr : (DeleteInstalledApp impl req s).1 with
  | error e =>
    rw [DeleteInstalledApp_error_db impl req s e hr]
    exact noReactivation_refl s.db
  | ok out =>
    obtain ⟨_, app, model, models, _, _, _, hdb⟩ := DeleteInstalledApp_ok impl req out s hr
    rw [hdb]
    exact commit_noReactivation _ _ (deleteWrites_deactivate impl req app model models)

/-! ## C19: a delete reactivates nothing -/

/-- C19: for every database state and every delete request, whether
`DeleteInstalledApp` succeeds or fails, the committed App, InstalledApp and
InstalledAppVersion rows afterwards are the rows from before, place by place and
key by key, and no row that was inactive before the call is active after it; in
particular this holds across a second delete that follows the first. -/
theorem C19_delete_reactivates_nothing (impl : AppStoreDeploymentServiceImpl)
    (req req2 : InstallAppVersionDTO) (s : State) :
    s.db.noReactivation (DeleteInstalledApp impl req s).2.db ∧
      (DeleteInstalledApp impl req s).2.db.noReactivation
        (DeleteInstalledApp impl req2 (DeleteInstalledApp impl req s).2).2.db ∧
      s.db.noReactivation (DeleteInstalledApp impl req2 (DeleteInstalledApp impl req s).2).2.db :=
  ⟨DeleteInstalledApp_noReactivation impl req s,
    DeleteInstalledApp_noReactivation impl req2 _,
    noReactivation_trans (DeleteInstalledApp_noReactivation impl req s)
      (DeleteInstalledApp_noReactivation impl req2 _)⟩

theorem commit_versionUpdates (db : DB) (rows : List InstalledAppVersions) :
    db.commit (rows.map Write.updateInstalledAppVersion) =
      { db with
        installedAppVersions :=
          rows.foldl (fun t row => t.map (fun r => if r.Id = row.Id then row else r))
            db.installedAppVersions } := by
  induction rows generalizing db with
  | nil => rfl
  | cons row rest ih =>
    simp only [List.map_cons, DB.commit, List.foldl_cons] at ih ⊢
    rw [ih]
    rfl

theorem foldl_map_pointwise {α β : Type} (f : β → α → α) (ms : List β) (t : List α) :
    ms.foldl (fun t m => t.map (f m)) t = t.map (fun r => ms.foldl (fun r m => f m r) r) := by
  induction ms generalizing t with
  | nil => simp
  | cons m rest ih =>
    simp only [List.foldl_cons]
    rw [ih]
    simp [List.map_map, Function.comp]

theorem foldl_update_row (d : InstalledAppVersions → InstalledAppVersions)
    (hd : ∀ x, (d x).Id = x.Id) (ms : List InstalledAppVersions) (r cur : InstalledAppVersions)
    (hcur : cur = r ∨ cur = d r) (huniq : ∀ m ∈ ms, m.Id = r.Id → m = r) :
    ms.foldl (fun c m => if c.Id = m.Id then d m else c) cur = if r ∈ ms then d r else cur := by
  induction ms generalizing cur with
  | nil => simp
  | cons m rest ih =>
    have hcid : cur.Id = r.Id := by
      rcases hcur with h | h
      · rw [h]
      · rw [h, hd]
    simp only [List.foldl_cons, hcid]
    by_cases hm : r.Id = m.Id
    · have hmr : m = r := huniq m (by simp) hm.symm
      subst hmr
      simp only [if_true, List.mem_cons, true_or]
      rw [ih (d m) (Or.inr rfl) (fun m1 h1 => huniq m1 (by simp [h1]))]
      split <;> rfl
    · have hne : r ≠ m := fun h => hm (by rw [h])
      simp only [hm, if_false, List.mem_cons, hne, false_or]
      exact ih cur hcur (fun m1 h1 => huniq m1 (by simp [h1]))

theorem eq_of_key_eq {α : Type} (key : α → Int) (l : List α) (hn : (l.map key).Nodup) (x y : α)
    (hx : x ∈ l) (hy : y ∈ l) (h : key x = key y) : x = y :=
  List.inj_on_of_nodup_map hn hx hy h

theorem findApp_mem (db : DB) (id : Int) (a : App) (h : db.findApp id = some a) :
    a ∈ db.app ∧ a.Id = id := by
  simp only [DB.findApp] at h
  exact ⟨List.mem_of_find?_eq_some h, by simpa using List.find?_some h⟩

theorem findInstalledApp_mem (db : DB) (id : Int) (a : InstalledApps)
    (h : db.findInstalledApp id = some a) : a ∈ db.installedApps ∧ a.Id = id := by
  simp only [DB.findInstalledApp] at h
  exact ⟨List.mem_of_find?_eq_some h, by simpa using List.find?_some h⟩

theorem commit_deleteWrites (impl : AppStoreDeploymentServiceImpl) (req : InstallAppVersionDTO)
    (db : DB) (app : App) (model : InstalledApps) (models : List InstalledAppVersions) :
    db.commit (deleteWrites impl req app model models) =
      { db with
        app := db.app.map (fun r => if r.Id = app.Id then deactivatedApp impl req app else r)
        installedApps :=
          db.installedApps.map
            (fun r => if r.Id = model.Id then deactivatedInstalledApp impl req model else r)
        installedAppVersions :=
          db.installedAppVersions.map
            (fun r =>
              models.foldl
                (fun c m => if c.Id = m.Id then deactivatedVersion impl req.UserId m else c) r) } := by
  have h1 : deleteWrites impl req app model models =
      [Write.updateApp (deactivatedApp impl req app),
        Write.updateInstalledApp (deactivatedInstalledApp impl req model)] ++
      (models.map (deactivatedVersion impl req.UserId)).map Write.updateInstalledAppVersion := by
    simp [deleteWrites, List.map_map, Function.comp]
  rw [h1]
  simp only [DB.commit, List.foldl_append, List.foldl_cons, List.foldl_nil]
  have h2 := commit_versionUpdates
    ((db.applyWrite (Write.updateApp (deactivatedApp impl req app))).applyWrite
      (Write.updateInstalledApp (deactivatedInstalledApp impl req model)))
    (models.map (deactivatedVersion impl req.UserId))
  simp only [DB.commit] at h2
  rw [h2]
  simp only [DB.applyWrite, List.foldl_map]
  rw [foldl_map_pointwise
    (fun m (r : InstalledAppVersions) =>
      if r.Id = (deactivatedVersion impl req.UserId m).Id then deactivatedVersion impl req.UserId m
      else r) models db.installedAppVersions]
  rfl
theorem createEnvironmentIfNotExists_created (impl : AppStoreDeploymentServiceImpl)
    (req : InstallAppVersionDTO) (s : State) (cluster : ClusterBean) (envCreateRes : EnvironmentBean)
    (hnone : impl.environmentRepository.FindOneByNamespaceAndClusterId s.db req.Namespace req.ClusterId =
      Except.error Error.pgErrNoRows)
    (hcluster : impl.clusterService.FindById req.ClusterId = Except.ok cluster)
    (hcreate : impl.environmentService.Create (environmentBeanOf impl req cluster) req.UserId =
      Except.ok envCreateRes) :
    (createEnvironmentIfNotExists impl req s).2.db =
      s.db.createEnvironment (environmentBeanOf impl req cluster) envCreateRes.Id := by
  simp only [environmentBeanOf] at hcreate
  unfold createEnvironmentIfNotExists
  simp [State.record, hnone, hcluster, hcreate, environmentBeanOf]

/-! ## C21: an environment created before a failing bookkeeping step -/

/-- C21: in the hyperion mode, for every install request whose (cluster,
namespace) has no environment, when the environment is created and a later step
of the bookkeeping fails with an error `e`: `InstallApp` returns `e`, the
committed App, InstalledApp, InstalledAppVersion and ClusterInstalledApps rows
are those from before the call (the writes of the transaction are rolled back),
and the committed database is the one from before with the newly created
Environment row added: that row is stored outside the install transaction and
remains. -/
theorem C21_environment_survives_rollback (impl : AppStoreDeploymentServiceImpl)
    (req : InstallAppVersionDTO) (s : State) (version : AppStoreApplicationVersion)
    (cluster : ClusterBean) (envCreateRes : EnvironmentBean) (e : Error)
    (hmode : impl.ServerMode = impl.SERVER_MODE_HYPERION)
    (hbegin : impl.installedAppRepository.GetConnection.Begin TxSite.install = none)
    (hversion : impl.appStoreApplicationVersionRepository.FindById req.AppStoreVersion = Except.ok version)
    (hnone : impl.environmentRepository.FindOneByNamespaceAndClusterId s.db req.Namespace req.ClusterId =
      Except.error Error.pgErrNoRows)
    (hcluster : impl.clusterService.FindById req.ClusterId = Except.ok cluster)
    (hcreate : impl.environmentService.Create (environmentBeanOf impl req cluster) req.UserId =
      Except.ok envCreateRes)
    (hfail : (AppStoreDeployOperationDB impl req [] s).1 = Except.error e) :
    (InstallApp impl req s).1 = Except.error e ∧
      (InstallApp impl req s).2.db =
        s.db.createEnvironment (environmentBeanOf impl req cluster) envCreateRes.Id ∧
      (InstallApp impl req s).2.db.sameBookkeeping s.db ∧
      (InstallApp impl req s).2.db.environment =
        s.db.environment ++
          [{ Id := envCreateRes.Id
             Name := impl.BuildEnvironmentIdentifer cluster.ClusterName req.Namespace
             ClusterId := req.ClusterId
             Namespace := req.Namespace
             Default := false
             Active := true }] := by
  obtain ⟨h1, h2⟩ := InstallApp_of_bookkeeping_error impl req s e hbegin hfail
  have h3 := AppStoreDeployOperationDB_state_hyperion impl req [] s version hmode hversion
  have h4 := createEnvironmentIfNotExists_created impl req s cluster envCreateRes hnone hcluster hcreate
  have hdb : (InstallApp impl req s).2.db =
      s.db.createEnvironment (environmentBeanOf impl req cluster) envCreateRes.Id := by
    rw [h2, h3, h4]
  refine ⟨h1, hdb, ?_, ?_⟩
  · rw [hdb]
    exact ⟨rfl, rfl, rfl, rfl⟩
  · rw [hdb]
    rfl

/-- Witness for C21: in the hyperion mode "demo" is installed again, into the
namespace "ns2" that has no environment; the environment with key 2 is created,
the conflict is returned, and the environment remains. -/
theorem C21_environment_survives_rollback_witness :
    (InstallApp hyperionImpl newNamespaceRequest installedState).1 =
        Except.error (Error.apiError "conflict" "app already exists" "app already exists with name demo") ∧
      (InstallApp hyperionImpl newNamespaceRequest installedState).2.db =
        installedState.db.createEnvironment
          { Environment := "clusterA__ns2", ClusterId := 1, Namespace := "ns2",
            Default := false, Active := true } 2 ∧
      (InstallApp hyperionImpl newNamespaceRequest installedState).2.db.sameBookkeeping installedState.db ∧
      (InstallApp hyperionImpl newNamespaceRequest installedState).2.db.environment =
        installedState.db.environment ++
          [{ Id := 2, Name := "clusterA__ns2", ClusterId := 1, Namespace := "ns2",
             Default := false, Active := true }] :=
  C21_environment_survives_rollback hyperionImpl newNamespaceRequest installedState { Id := 40 }
    { Id := 1, ClusterName := "clusterA" }
    { Id := 2, Environment := "clusterA__ns2", ClusterId := 1, Namespace := "ns2",
      Default := false, Active := true }
    (Error.apiError "conflict" "app already exists" "app already exists with name demo")
    (by rfl) (by rfl) (by rfl) (by rfl) (by rfl) (by rfl) (by rfl)
theorem afterEngine_status_error (impl : AppStoreDeploymentServiceImpl) (out : InstallAppVersionDTO)
    (tx : Tx) (s : State) (e : Error)
    (hcommit : impl.installedAppRepository.GetConnection.Commit TxSite.install = none)
    (hstatus : (AppStoreDeployOperationStatusUpdate impl out.InstalledAppId
      AppstoreDeploymentStatus.DEPLOY_SUCCESS { s with db := s.db.commit tx }).1.2 = some e) :
    InstallApp.afterEngine impl out tx none s =
      (Except.error e, { s with db := s.db.commit tx }) := by
  unfold InstallApp.afterEngine
  simp only [hcommit]
  rcases AppStoreDeployOperationStatusUpdate_result impl out.InstalledAppId
    AppstoreDeploymentStatus.DEPLOY_SUCCESS { s with db := s.db.commit tx } with ⟨e1, hs⟩ | ⟨r, _, hs⟩
  · rw [hs] at hstatus ⊢
    simp only [Option.some.injEq] at hstatus
    subst hstatus
    rfl
  · rw [hs] at hstatus
    simp at hstatus

/-! ## C22: a failing status update after a committed install -/

/-- C22: for every install request whose bookkeeping, engine install call and
bookkeeping commit succeed but whose status update
(`AppStoreDeployOperationStatusUpdate`) then fails with an error `e`:
`InstallApp` returns `e` and no request, although the selected engine has been
invoked and has reported success; the committed database is the one the commit
of the bookkeeping produced, untouched by the status update, and the
InstalledApp row the call inserted is committed in it, active and with status INIT. -/
theorem C22_status_update_failure (impl : AppStoreDeploymentServiceImpl)
    (req out : InstallAppVersionDTO) (s s1 : State) (tx : Tx) (e : Error)
    (hbegin : impl.installedAppRepository.GetConnection.Begin TxSite.install = none)
    (hdb : AppStoreDeployOperationDB impl req [] s = (Except.ok out, tx, s1))
    (hengine : (if impl.ServerMode = impl.SERVER_MODE_HYPERION
        then impl.appStoreDeploymentHelmService.InstallApp out
        else impl.appStoreDeploymentArgoCdService.InstallApp out) = none)
    (hcommit : impl.installedAppRepository.GetConnection.Commit TxSite.install = none)
    (hstatus : (AppStoreDeployOperationStatusUpdate impl out.InstalledAppId
      AppstoreDeploymentStatus.DEPLOY_SUCCESS
      { db := s1.db.commit tx
        calls := s1.calls ++
          [Call.InstallApp
            (if impl.ServerMode = impl.SERVER_MODE_HYPERION then Engine.helm else Engine.argoCd)
            out] }).1.2 = some e) :
    (InstallApp impl req s).1 = Except.error e ∧
      engineCalls (InstallApp impl req s).2.calls =
        engineCalls s.calls ++
          [if impl.ServerMode = impl.SERVER_MODE_HYPERION then Engine.helm else Engine.argoCd] ∧
      (InstallApp impl req s).2.db = s1.db.commit tx ∧
      ∃ ia : InstalledApps,
        (InstallApp impl req s).2.db.installedApps = s.db.installedApps ++ [ia] ∧
        Write.insertInstalledApp ia ∈ tx ∧
        ia.Id = out.InstalledAppId ∧ ia.Active = true ∧
        ia.Status = AppstoreDeploymentStatus.DEPLOY_INIT := by
  have heq := InstallApp_eq impl req out s s1 tx hbegin hdb
  rw [hengine] at heq
  have hafter := afterEngine_status_error impl out tx
    (s1.record (Call.InstallApp
      (if impl.ServerMode = impl.SERVER_MODE_HYPERION then Engine.helm else Engine.argoCd) out)) e
    hcommit hstatus
  rw [hafter] at heq
  obtain ⟨environment, version, _, _, _, _, htx⟩ := AppStoreDeployOperationDB_ok impl req out [] tx s s1 hdb
  have hframe := AppStoreDeployOperationDB_frame impl req [] s
  rw [hdb] at hframe
  have hc := commit_bookkeeping s1.db (newAppRow impl (appCreateRequestOf req) out.AppId)
    (newInstalledAppRow impl req out.AppId environment.Id out.InstalledAppId)
    (newVersionRow impl req out.InstalledAppId version.Id out.InstalledAppVersionId)
    (newClusterRow impl req environment.ClusterId out.InstalledAppId) req.DefaultClusterComponent
  rw [← htx] at hc
  rw [heq]
  refine ⟨rfl, ?_, rfl, newInstalledAppRow impl req out.AppId environment.Id out.InstalledAppId,
    ?_, ?_, rfl, rfl, rfl⟩
  · have h2 := hframe.2
    simp only [engineCalls, State.record, List.filterMap_append] at h2 ⊢
    rw [h2]
    simp [Call.engine?]
  · show (s1.db.commit tx).installedApps = _
    rw [hc.2.1, hframe.1.2.1]
  · rw [htx]
    simp

/-- Witness for C22: the commit of the status-update transaction fails in
`statusCommitDownImpl`; the install of `demoRequest` returns that error and the
row of installation 10 is committed with status INIT. -/
theorem C22_status_update_failure_witness :
    (InstallApp statusCommitDownImpl demoRequest demoState).1 =
        Except.error (Error.other "commit failed") ∧
      engineCalls (InstallApp statusCommitDownImpl demoRequest demoState).2.calls = [Engine.argoCd] ∧
      (InstallApp statusCommitDownImpl demoRequest demoState).2.db.installedApps =
        [newInstalledAppRow statusCommitDownImpl demoRequest 1 1 10] :=
  have h := C22_status_update_failure statusCommitDownImpl demoRequest
    { demoRequest with AppId := 1, InstalledAppId := 10, InstalledAppVersionId := 100 }
    demoState demoState
    (bookkeepingWrites statusCommitDownImpl demoRequest 1 10 100
      { Id := 1, Name := "clusterA__ns1", ClusterId := 1, Namespace := "ns1", Active := true }
      { Id := 40 })
    (Error.other "commit failed") (by rfl) (by rfl) (by rfl) (by rfl) (by rfl)
  ⟨h.1, h.2.1, by rfl⟩

/-! ## C5: duplicate reconciliation in `createAppForAppStore` -/

/-- What `createAppForAppStore` does when the new App row is inserted (with key
`id`) and the re-query by name returns more than one row: if the first returned
row is not the new row and the deactivating update succeeds, the new row is
deactivated on the transaction and the call returns the `AppAlreadyExists`
error; if the first returned row is the new row, nothing is deactivated and the
call returns the request with `Id` set to `id`. -/
theorem createAppForAppStore_duplicates (impl : AppStoreDeploymentServiceImpl) (createRequest : CreateAppDTO)
    (tx : Tx) (db : DB) (app1 : Option App) (err : Option Error) (id : Int)
    (firstElement second : App) (rest : List App)
    (hfind : impl.appRepository.FindActiveByName db createRequest.AppName = (app1, err))
    (herr : err = none ∨ err = some Error.pgErrNoRows)
    (happ : ∀ a, app1 = some a → a.Id ≤ 0)
    (hsave : impl.appRepository.SaveWithTxn (newAppRow impl createRequest 0) = Except.ok id)
    (hlist : impl.appRepository.FindActiveListByName db createRequest.AppName =
      Except.ok (firstElement :: second :: rest)) :
    (firstElement.Id ≠ id →
      impl.appRepository.UpdateWithTxn { newAppRow impl createRequest id with Active := false } = none →
        createAppForAppStore impl createRequest tx db =
          (Except.error (appAlreadyExistsError impl createRequest.AppName),
            tx ++ [Write.insertApp (newAppRow impl createRequest id),
              Write.updateApp { newAppRow impl createRequest id with Active := false }])) ∧
    (firstElement.Id = id →
      createAppForAppStore impl createRequest tx db =
        (Except.ok { createRequest with Id := id },
          tx ++ [Write.insertApp (newAppRow impl createRequest id)])) := by
  have hcheck : ¬ (err.isSome = true ∧ err ≠ some Error.pgErrNoRows) := by
    rcases herr with h | h <;> simp [h]
  simp only [newAppRow] at hsave ⊢
  unfold createAppForAppStore
  simp only [hfind, hcheck, dite_false]
  cases app1 with
  | none => constructor <;> intro h1 <;> simp_all
  | some a =>
    have h0 : ¬ (0 < a.Id) := not_lt.mpr (happ a rfl)
    constructor
    · intro hne hupd
      simp [h0, hsave, hlist, hne, hupd]
    · intro heq
      simp [h0, hsave, hlist, heq]

/-- C5 fails on the code at this input: the first lookup of "demo" finds no row,
the new App row is inserted with key 1, and the re-query returns three rows of
the name, two older active rows (keys 2 and 3) and the new row.  The claim, like
the comment above the re-query ("soft delete all except first item"), has rows 3
and 1 deactivated, so that row 2 alone remains active.  `createAppForAppStore`
returns the `AppAlreadyExists` error, but the writes of its transaction are the
insert of the new row and the one update that sets that same row inactive: no
write touches row 3, and committed on top of the two older rows they leave both
of them active, two active rows of one name. -/
theorem C5_duplicates_left_active :
    (racingImpl (racingRows ++ [newAppRow demoImpl { AppName := "demo", TeamId := 3, UserId := 9 } 1])).appRepository.FindActiveByName
        demoState.db "demo" = (none, some Error.pgErrNoRows) ∧
    (racingImpl (racingRows ++ [newAppRow demoImpl { AppName := "demo", TeamId := 3, UserId := 9 } 1])).appRepository.FindActiveListByName
        demoState.db "demo" =
      Except.ok
        [{ Id := 2, AppName := "demo", Active := true }, { Id := 3, AppName := "demo", Active := true },
          newAppRow demoImpl { AppName := "demo", TeamId := 3, UserId := 9 } 1] ∧
    createAppForAppStore
        (racingImpl (racingRows ++ [newAppRow demoImpl { AppName := "demo", TeamId := 3, UserId := 9 } 1]))
        { AppName := "demo", TeamId := 3, UserId := 9 } [] demoState.db =
      (Except.error (Error.apiError "conflict" "app already exists" "app already exists with name demo"),
        [Write.insertApp (newAppRow demoImpl { AppName := "demo", TeamId := 3, UserId := 9 } 1),
          Write.updateApp
            { newAppRow demoImpl { AppName := "demo", TeamId := 3, UserId := 9 } 1 with Active := false }]) ∧
    (({ app := racingRows } : DB).commit
        [Write.insertApp (newAppRow demoImpl { AppName := "demo", TeamId := 3, UserId := 9 } 1),
          Write.updateApp
            { newAppRow demoImpl { AppName := "demo", TeamId := 3, UserId := 9 } 1 with
              Active := false }]).activeAppsNamed "demo" =
      [{ Id := 2, AppName := "demo", Active := true }, { Id := 3, AppName := "demo", Active := true }] := by
  refine ⟨by rfl, by rfl, by rfl, by rfl⟩

theorem DeleteInstalledApp_reached (impl : AppStoreDeploymentServiceImpl)
    (req : InstallAppVersionDTO) (s : State) (environment : Environment) (app : App)
    (model : InstalledApps) (models : List InstalledAppVersions)
    (h : DeleteReachesEngine impl req s environment app model models) :
    (DeleteInstalledApp impl req s).2.calls =
      s.calls ++
        [Call.DeleteInstalledApp (selectedEngine impl app.AppOfferingMode) app.AppName environment.Name
          req (deactivatedInstalledApp impl req model)] := by
  obtain ⟨h1, h2, h3, h4, h5, h6, h7, h8⟩ := h
  have hfi := forItems_ok impl req.UserId models
    [Write.updateApp (deactivatedApp impl req app),
      Write.updateInstalledApp (deactivatedInstalledApp impl req model)] h8
  simp only [deactivatedApp, deactivatedInstalledApp] at h4 h6 hfi
  unfold DeleteInstalledApp selectedEngine
  simp only [h1, h2, h3, h4, h5, h6, h7, List.nil_append, List.cons_append, hfi, deactivatedInstalledApp]
  by_cases hc : impl.ServerMode = impl.SERVER_MODE_HYPERION ∨
      app.AppOfferingMode = impl.SERVER_MODE_HYPERION
  · simp only [hc, if_true]
    cases impl.appStoreDeploymentHelmService.DeleteInstalledApp app.AppName environment.Name req
        { model with Active := false, UpdatedBy := req.UserId, UpdatedOn := impl.Now } with
    | some e1 => rfl
    | none =>
      simp only []
      cases impl.installedAppRepository.GetConnection.Commit TxSite.delete <;> rfl
  · simp only [hc, if_false]
    cases impl.appStoreDeploymentArgoCdService.DeleteInstalledApp app.AppName environment.Name req
        { model with Active := false, UpdatedBy := req.UserId, UpdatedOn := impl.Now } with
    | some e1 => rfl
    | none =>
      simp only []
      cases impl.installedAppRepository.GetConnection.Commit TxSite.delete <;> rfl

theorem DeleteInstalledApp_not_reached (impl : AppStoreDeploymentServiceImpl)
    (req : InstallAppVersionDTO) (s : State)
    (h : ¬ ∃ environment app model models, DeleteReachesEngine impl req s environment app model models) :
    (DeleteInstalledApp impl req s).2 = s ∧ ∃ e, (DeleteInstalledApp impl req s).1 = Except.error e := by
  unfold DeleteInstalledApp
  cases h1 : impl.environmentRepository.FindById s.db req.EnvironmentId with
  | error e1 => exact ⟨rfl, e1, rfl⟩
  | ok environment =>
  cases h2 : impl.installedAppRepository.GetConnection.Begin TxSite.delete with
  | some e1 => exact ⟨rfl, e1, rfl⟩
  | none =>
  cases h3 : impl.appRepository.FindById s.db req.AppId with
  | error e1 => exact ⟨rfl, e1, rfl⟩
  | ok app =>
  cases h4 : impl.appRepository.UpdateWithTxn (deactivatedApp impl req app) with
  | some e1 =>
    simp only [deactivatedApp] at h4
    simp only [h4]
    simp
  | none =>
  cases h5 : impl.installedAppRepository.GetInstalledApp s.db req.InstalledAppId with
  | error e1 =>
    simp only [deactivatedApp] at h4
    simp only [h4]
    simp
  | ok model =>
  cases h6 : impl.installedAppRepository.UpdateInstalledApp (deactivatedInstalledApp impl req model) with
  | some e1 =>
    simp only [deactivatedApp, deactivatedInstalledApp] at h4 h6
    simp only [h4, h6]
    simp
  | none =>
  cases h7 : impl.installedAppRepository.GetInstalledAppVersionByInstalledAppId s.db req.InstalledAppId with
  | error e1 =>
    simp only [deactivatedApp, deactivatedInstalledApp] at h4 h6
    simp only [h4, h6]
    simp
  | ok models =>
  rcases forItems_cases impl req.UserId models
    [Write.updateApp (deactivatedApp impl req app),
      Write.updateInstalledApp (deactivatedInstalledApp impl req model)] with
    ⟨_, h8⟩ | ⟨e1, before, item, after, hf, _, _, _⟩
  · exact (h ⟨environment, app, model, models, h1, h2, h3, h4, h5, h6, h7, h8⟩).elim
  · rcases hfi : DeleteInstalledApp.forItems impl req.UserId models
      [Write.updateApp (deactivatedApp impl req app),
        Write.updateInstalledApp (deactivatedInstalledApp impl req model)] with ⟨r, tx1⟩
    rw [hfi] at hf
    simp only at hf
    subst hf
    simp only [deactivatedApp, deactivatedInstalledApp] at h4 h6 hfi
    simp only [h4, h6, List.nil_append, List.cons_append, hfi]
    simp

/-! ## C7: the engine selected by delete and by the listing -/

/-- C7: with `g` the global operating mode and `m` the stored offering mode of
the record, `GetAllInstalledAppsByAppStoreId` invokes for every record exactly
one engine, the helm engine if `g` or `m` is the hyperion mode and the ArgoCd
engine otherwise (for one record, and for all records of a listing that is
returned).  `DeleteInstalledApp`, whenever every step before its engine call
succeeds, makes exactly one call, the delete call of exactly one engine, chosen
in the same way from `g` and the mode `m` of the App row it loaded; and when not
every step before the engine call succeeds, the delete fails and has made no
call at all. -/
theorem C7_engine_selection (impl : AppStoreDeploymentServiceImpl) :
    (∀ (a : InstalledAppsWithChartDetails) (s : State),
      engineCalls (GetAllInstalledAppsByAppStoreId.forApp impl a s).2.calls =
        engineCalls s.calls ++
          [if impl.ServerMode = impl.SERVER_MODE_HYPERION ∨ a.AppOfferingMode = impl.SERVER_MODE_HYPERION
            then Engine.helm else Engine.argoCd]) ∧
    (∀ (appStoreId : Int) (s : State) (l : List InstalledAppsResponse),
      (GetAllInstalledAppsByAppStoreId impl appStoreId s).1 = Except.ok l →
        engineCalls (GetAllInstalledAppsByAppStoreId impl appStoreId s).2.calls =
          engineCalls s.calls ++
            (impl.installedAppRepository.GetAllIntalledAppsByAppStoreId s.db appStoreId).1.map
              (fun a =>
                if impl.ServerMode = impl.SERVER_MODE_HYPERION ∨
                    a.AppOfferingMode = impl.SERVER_MODE_HYPERION
                then Engine.helm else Engine.argoCd)) ∧
    (∀ (req : InstallAppVersionDTO) (s : State) (environment : Environment) (app : App)
        (model : InstalledApps) (models : List InstalledAppVersions),
      DeleteReachesEngine impl req s environment app model models →
        (DeleteInstalledApp impl req s).2.calls =
          s.calls ++
            [Call.DeleteInstalledApp
              (if impl.ServerMode = impl.SERVER_MODE_HYPERION ∨
                  app.AppOfferingMode = impl.SERVER_MODE_HYPERION
                then Engine.helm else Engine.argoCd)
              app.AppName environment.Name req (deactivatedInstalledApp impl req model)] ∧
        engineCalls (DeleteInstalledApp impl req s).2.calls =
          engineCalls s.calls ++
            [if impl.ServerMode = impl.SERVER_MODE_HYPERION ∨
                app.AppOfferingMode = impl.SERVER_MODE_HYPERION
              then Engine.helm else Engine.argoCd]) ∧
    (∀ (req : InstallAppVersionDTO) (s : State),
      (¬ ∃ environment app model models, DeleteReachesEngine impl req s environment app model models) →
        (DeleteInstalledApp impl req s).2.calls = s.calls ∧
          ∃ e, (DeleteInstalledApp impl req s).1 = Except.error e) := by
  refine ⟨fun a s => forApp_engineCalls impl a s, ?_, ?_, ?_⟩
  · intro appStoreId s l hl
    have h := GetAllInstalledAppsByAppStoreId_ok impl appStoreId s l hl
    rw [h] at hl ⊢
    obtain ⟨_, _, _, hc⟩ := loop_ok impl _ [] l s hl
    exact hc
  · intro req s environment app model models hreach
    have h := DeleteInstalledApp_reached impl req s environment app model models hreach
    refine ⟨h, ?_⟩
    rw [h]
    simp [engineCalls, List.filterMap_append, Call.engine?, selectedEngine]
  · intro req s hnot
    obtain ⟨h1, h2⟩ := DeleteInstalledApp_not_reached impl req s hnot
    exact ⟨by rw [h1], h2⟩

/-- Witness for C7: in the full mode the listing of `listingImpl` goes to the
ArgoCd engine, once, and so does the delete of the installation held by
`installedState`, whose App row was stored in the full mode; the same delete by
the service in the hyperion mode goes to the helm engine; and the same delete
on `demoState`, which holds no App row, fails at the load of the App row and
makes no call. -/
theorem C7_engine_selection_witness :
    engineCalls
        (GetAllInstalledAppsByAppStoreId (listingImpl "Healthy" none) 7 demoState).2.calls =
      [Engine.argoCd] ∧
    engineCalls (DeleteInstalledApp demoImpl demoDeleteRequest installedState).2.calls =
      [Engine.argoCd] ∧
    engineCalls (DeleteInstalledApp hyperionImpl demoDeleteRequest installedState).2.calls =
      [Engine.helm] ∧
    (DeleteInstalledApp demoImpl demoDeleteRequest demoState).2.calls = [] :=
  ⟨(C7_engine_selection (listingImpl "Healthy" none)).2.1 7 demoState
    [{ EnvironmentName := "clusterA__ns1", AppName := "demo", DeployedAt := 5, DeployedBy := "admin",
       Status := "Healthy", AppStoreApplicationVersionId := 40, InstalledAppVersionId := 100,
       InstalledAppsId := 10, EnvironmentId := 1, AppOfferingMode := "FULL" }] (by rfl),
    ((C7_engine_selection demoImpl).2.2.1 demoDeleteRequest installedState
      { Id := 1, Name := "clusterA__ns1", ClusterId := 1, Namespace := "ns1", Active := true }
      { Id := 1, AppName := "demo", Active := true, TeamId := 3, AppStore := true,
        AppOfferingMode := "FULL", CreatedOn := 5, CreatedBy := 9, UpdatedOn := 5, UpdatedBy := 9 }
      { Id := 10, AppId := 1, EnvironmentId := 1, Active := true,
        Status := AppstoreDeploymentStatus.DEPLOY_SUCCESS,
        CreatedOn := 5, CreatedBy := 9, UpdatedOn := 5, UpdatedBy := 9 }
      [{ Id := 100, InstalledAppId := 10, AppStoreApplicationVersionId := 40,
         ValuesYaml := "key: v", Active := true,
         CreatedOn := 5, CreatedBy := 9, UpdatedOn := 5, UpdatedBy := 9 }]
      ⟨by rfl, by rfl, by rfl, by rfl, by rfl, by rfl, by rfl, fun _ _ => rfl⟩).2,
    ((C7_engine_selection hyperionImpl).2.2.1 demoDeleteRequest installedState
      { Id := 1, Name := "clusterA__ns1", ClusterId := 1, Namespace := "ns1", Active := true }
      { Id := 1, AppName := "demo", Active := true, TeamId := 3, AppStore := true,
        AppOfferingMode := "FULL", CreatedOn := 5, CreatedBy := 9, UpdatedOn := 5, UpdatedBy := 9 }
      { Id := 10, AppId := 1, EnvironmentId := 1, Active := true,
        Status := AppstoreDeploymentStatus.DEPLOY_SUCCESS,
        CreatedOn := 5, CreatedBy := 9, UpdatedOn := 5, UpdatedBy := 9 }
      [{ Id := 100, InstalledAppId := 10, AppStoreApplicationVersionId := 40,
         ValuesYaml := "key: v", Active := true,
         CreatedOn := 5, CreatedBy := 9, UpdatedOn := 5, UpdatedBy := 9 }]
      ⟨by rfl, by rfl, by rfl, by rfl, by rfl, by rfl, by rfl, fun _ _ => rfl⟩).2,
    ((C7_engine_selection demoImpl).2.2.2 demoDeleteRequest demoState
      (fun ⟨_, app, _, _, h⟩ =>
        have h3 : (Except.error Error.pgErrNoRows : Except Error App) = Except.ok app := h.2.2.1
        by cases h3)).1⟩

theorem AppStoreDeployOperationDB_state_version_error (impl : AppStoreDeploymentServiceImpl)
    (req : InstallAppVersionDTO) (tx : Tx) (s : State) (e : Error)
    (hv : impl.appStoreApplicationVersionRepository.FindById req.AppStoreVersion = Except.error e) :
    AppStoreDeployOperationDB impl req tx s = (Except.error e, tx, s) := by
  unfold AppStoreDeployOperationDB
  simp only [hv]

/-! ## C17: the gate of the environment resolver -/

/-- C17, as stated, fails: the service `hyperionChartMissingImpl` is in the
hyperion mode, and for a request that names a chart version whose lookup fails
`AppStoreDeployOperationDB` returns that error before the test of the mode: the
state is left as it is and the environment resolver is not invoked. -/
theorem C17_counterexample :
    hyperionChartMissingImpl.ServerMode = hyperionChartMissingImpl.SERVER_MODE_HYPERION ∧
      AppStoreDeployOperationDB hyperionChartMissingImpl
          { newNamespaceRequest with AppStoreVersion := 41 } [] demoState =
        (Except.error (Error.other "no chart version"), [], demoState) ∧
      ¬ resolverInvoked demoState.calls
          (AppStoreDeployOperationDB hyperionChartMissingImpl
            { newNamespaceRequest with AppStoreVersion := 41 } [] demoState).2.2.calls := by
  refine ⟨by rfl, by rfl, ?_⟩
  have h : (AppStoreDeployOperationDB hyperionChartMissingImpl
      { newNamespaceRequest with AppStoreVersion := 41 } [] demoState).2.2.calls = demoState.calls := by
    rfl
  rw [h]
  exact not_resolverInvoked_self _

/-- C17 (amended): `AppStoreDeployOperationDB` invokes the environment resolver
(`createEnvironmentIfNotExists`) if and only if the global operating mode is the
hyperion mode and the chart-version lookup that precedes the test of the mode
succeeded; in every other mode no collaborator of the resolver is called and the
committed database is left as it is (no environment is created), and on success
the request-s `EnvironmentId` is left as supplied and the one InstalledApp row
inserted carries the id of the environment row looked up under exactly that id. -/
theorem C17_environment_resolver_gate (impl : AppStoreDeploymentServiceImpl)
    (req : InstallAppVersionDTO) (tx : Tx) (s : State) :
    (resolverInvoked s.calls (AppStoreDeployOperationDB impl req tx s).2.2.calls ↔
      impl.ServerMode = impl.SERVER_MODE_HYPERION ∧
        ∃ version, impl.appStoreApplicationVersionRepository.FindById req.AppStoreVersion =
          Except.ok version) ∧
    (impl.ServerMode ≠ impl.SERVER_MODE_HYPERION →
      (AppStoreDeployOperationDB impl req tx s).2.2 = s ∧
      ∀ out tx1 s1, AppStoreDeployOperationDB impl req tx s = (Except.ok out, tx1, s1) →
        out.EnvironmentId = req.EnvironmentId ∧
        ∃ (environment : Environment) (added : Tx) (ia : InstalledApps),
          impl.environmentRepository.FindById s.db req.EnvironmentId = Except.ok environment ∧
          tx1 = tx ++ added ∧
          added.filterMap Write.insertedInstalledApp? = [ia] ∧
          ia.EnvironmentId = environment.Id) := by
  refine ⟨⟨?_, ?_⟩, ?_⟩
  · intro hinv
    refine ⟨?_, ?_⟩
    · by_contra hm
      rw [AppStoreDeployOperationDB_state_full impl req tx s hm] at hinv
      exact not_resolverInvoked_self _ hinv
    · cases hv : impl.appStoreApplicationVersionRepository.FindById req.AppStoreVersion with
      | ok version => exact ⟨version, rfl⟩
      | error e =>
        rw [AppStoreDeployOperationDB_state_version_error impl req tx s e hv] at hinv
        exact (not_resolverInvoked_self _ hinv).elim
  · rintro ⟨hm, version, hv⟩
    rw [AppStoreDeployOperationDB_state_hyperion impl req tx s version hm hv]
    exact createEnvironmentIfNotExists_calls impl req s
  · intro hm
    refine ⟨AppStoreDeployOperationDB_state_full impl req tx s hm, ?_⟩
    intro out tx1 s1 h
    obtain ⟨environment, version, _, he, hmode, _, htx⟩ :=
      AppStoreDeployOperationDB_ok impl req out tx tx1 s s1 h
    obtain ⟨henv, hs⟩ := hmode hm
    subst hs
    rw [henv] at he
    refine ⟨henv, environment,
      bookkeepingWrites impl req out.AppId out.InstalledAppId out.InstalledAppVersionId environment version,
      newInstalledAppRow impl req out.AppId environment.Id out.InstalledAppId, he, ?_, ?_, rfl⟩
    · rw [htx, bookkeepingWrites, List.append_assoc]
    · unfold bookkeepingWrites
      split <;> simp [Write.insertedInstalledApp?]

/-- Witness for C17 (amended): in the full mode the bookkeeping of `demoRequest`
leaves the state as it is and inserts the InstalledApp row for environment 1;
in the hyperion mode, with the chart version found, the resolver is invoked. -/
theorem C17_environment_resolver_gate_witness :
    (AppStoreDeployOperationDB demoImpl demoRequest [] demoState).2.2 = demoState ∧
      resolverInvoked demoState.calls
        (AppStoreDeployOperationDB hyperionImpl newNamespaceRequest [] demoState).2.2.calls :=
  ⟨((C17_environment_resolver_gate demoImpl demoRequest [] demoState).2 (by decide)).1,
    (C17_environment_resolver_gate hyperionImpl newNamespaceRequest [] demoState).1.mpr
      ⟨by rfl, { Id := 40 }, by rfl⟩⟩

theorem AppStoreDeployOperationDB_eq_step (impl : AppStoreDeploymentServiceImpl)
    (req : InstallAppVersionDTO) (tx : Tx) (s : State) (version : AppStoreApplicationVersion)
    (hv : impl.appStoreApplicationVersionRepository.FindById req.AppStoreVersion = Except.ok version) :
    (∀ e r s1, AppStoreDeployOperationDB.environmentStep impl req s = (some e, r, s1) →
      AppStoreDeployOperationDB impl req tx s = (Except.error e, tx, s1)) ∧
    (∀ req1 s1, AppStoreDeployOperationDB.environmentStep impl req s = (none, req1, s1) →
      req1 = { req with EnvironmentId := req1.EnvironmentId } ∧
      s1.db.sameBookkeeping s.db ∧
      (∀ e, impl.environmentRepository.FindById s1.db req1.EnvironmentId = Except.error e →
        AppStoreDeployOperationDB impl req tx s = (Except.error e, tx, s1)) ∧
      (∀ environment c tx1,
        impl.environmentRepository.FindById s1.db req1.EnvironmentId = Except.ok environment →
        createAppForAppStore impl (appCreateRequestOf req) tx s1.db = (Except.error c, tx1) →
        AppStoreDeployOperationDB impl req tx s = (Except.error c, tx1, s1))) := by
  have hfr := (createEnvironmentIfNotExists_frame impl req s).1
  unfold AppStoreDeployOperationDB AppStoreDeployOperationDB.environmentStep
  simp only [hv]
  by_cases hm : impl.ServerMode = impl.SERVER_MODE_HYPERION
  · simp only [hm, if_true]
    rcases hce : createEnvironmentIfNotExists impl req s with ⟨⟨envId, err⟩, s2⟩
    rw [hce] at hfr
    cases err with
    | some e0 =>
      simp only []
      refine ⟨?_, ?_⟩
      · intro e r s1 h
        simp only [Prod.mk.injEq, Option.some.injEq] at h
        obtain ⟨h1, _, h3⟩ := h
        subst h1 h3
        rfl
      · intro req1 s1 h
        simp at h
    | none =>
      simp only []
      refine ⟨?_, ?_⟩
      · intro e r s1 h
        simp at h
      · intro req1 s1 h
        simp only [Prod.mk.injEq, true_and] at h
        obtain ⟨h2, h3⟩ := h
        subst h2 h3
        refine ⟨rfl, hfr, ?_, ?_⟩
        · intro e he
          simp only [he]
        · intro environment c tx1 he hc
          simp only [appCreateRequestOf] at hc
          simp only [he, hc]
  · simp only [hm, if_false]
    refine ⟨?_, ?_⟩
    · intro e r s1 h
      simp at h
    · intro req1 s1 h
      simp only [Prod.mk.injEq, true_and] at h
      obtain ⟨h2, h3⟩ := h
      subst h2 h3
      refine ⟨rfl, ⟨rfl, rfl, rfl, rfl⟩, ?_, ?_⟩
      · intro e he
        simp only [he]
      · intro environment c tx1 he hc
        simp only [appCreateRequestOf] at hc
        simp only [he, hc]

theorem InstallApp_steps_before_createApp (impl : AppStoreDeploymentServiceImpl)
    (req : InstallAppVersionDTO) (s : State) :
    (∃ req1 s1 environment, InstallReachesCreateApp impl req s req1 s1 environment) ∨
      ∃ e, (InstallApp impl req s).1 = Except.error e ∧
        (impl.installedAppRepository.GetConnection.Begin TxSite.install = some e ∨
          (impl.installedAppRepository.GetConnection.Begin TxSite.install = none ∧
            impl.appStoreApplicationVersionRepository.FindById req.AppStoreVersion = Except.error e) ∨
          (impl.installedAppRepository.GetConnection.Begin TxSite.install = none ∧
            (∃ version, impl.appStoreApplicationVersionRepository.FindById req.AppStoreVersion =
              Except.ok version) ∧
            (AppStoreDeployOperationDB.environmentStep impl req s).1 = some e) ∨
          (impl.installedAppRepository.GetConnection.Begin TxSite.install = none ∧
            (∃ version, impl.appStoreApplicationVersionRepository.FindById req.AppStoreVersion =
              Except.ok version) ∧
            ∃ req1 s1, AppStoreDeployOperationDB.environmentStep impl req s = (none, req1, s1) ∧
              impl.environmentRepository.FindById s1.db req1.EnvironmentId = Except.error e)) := by
  cases hbegin : impl.installedAppRepository.GetConnection.Begin TxSite.install with
  | some e =>
    right
    refine ⟨e, ?_, Or.inl rfl⟩
    unfold InstallApp
    simp only [hbegin]
  | none =>
    cases hv : impl.appStoreApplicationVersionRepository.FindById req.AppStoreVersion with
    | error e =>
      right
      refine ⟨e, ?_, Or.inr (Or.inl ⟨rfl, rfl⟩)⟩
      exact (InstallApp_of_bookkeeping_error impl req s e hbegin
        (by rw [AppStoreDeployOperationDB_state_version_error impl req [] s e hv])).1
    | ok version =>
      obtain ⟨hstepErr, hstepOk⟩ := AppStoreDeployOperationDB_eq_step impl req [] s version hv
      rcases hstep : AppStoreDeployOperationDB.environmentStep impl req s with ⟨err, req1, s1⟩
      cases err with
      | some e =>
        right
        refine ⟨e, ?_, Or.inr (Or.inr (Or.inl ⟨rfl, ⟨version, rfl⟩, rfl⟩))⟩
        exact (InstallApp_of_bookkeeping_error impl req s e hbegin
          (by rw [hstepErr e req1 s1 hstep])).1
      | none =>
        obtain ⟨_, _, henvErr, _⟩ := hstepOk req1 s1 hstep
        cases he : impl.environmentRepository.FindById s1.db req1.EnvironmentId with
        | error e =>
          right
          refine ⟨e, ?_, Or.inr (Or.inr (Or.inr ⟨rfl, ⟨version, rfl⟩, req1, s1, rfl, he⟩))⟩
          exact (InstallApp_of_bookkeeping_error impl req s e hbegin
            (by rw [henvErr e he])).1
        | ok environment =>
          left
          exact ⟨req1, s1, environment, hbegin, ⟨version, hv⟩, hstep, he⟩

theorem InstallApp_reaches_conflict (impl : AppStoreDeploymentServiceImpl)
    (req req1 : InstallAppVersionDTO) (s s1 : State) (environment : Environment) (c : Error)
    (hreach : InstallReachesCreateApp impl req s req1 s1 environment)
    (hc : ∀ db : DB, db.app = s.db.app →
      createAppForAppStore impl (appCreateRequestOf req) [] db = (Except.error c, [])) :
    InstallApp impl req s = (Except.error c, s1) := by
  obtain ⟨hbegin, ⟨version, hv⟩, hstep, he⟩ := hreach
  obtain ⟨_, hstepOk⟩ := AppStoreDeployOperationDB_eq_step impl req [] s version hv
  obtain ⟨_, hfr, _, hconf⟩ := hstepOk req1 s1 hstep
  have hdb := hconf environment c [] he (hc s1.db hfr.1)
  unfold InstallApp
  simp only [hbegin, hdb]

/-! ## C13: the conflict on an existing name -/

/-- C13, as stated, fails in its consequence: the service `chartMissingImpl`
installs "demo" with the chart version 40 into `demoState`, which commits the
active App row 1 of that name; a second install of the same name that names the
chart version 41 fails, but with the error of the chart-version lookup, the
step that precedes `createAppForAppStore`, and not with the conflict. -/
theorem C13_counterexample :
    (InstallApp chartMissingImpl demoRequest demoState).1 =
        Except.ok { demoRequest with AppId := 1, InstalledAppId := 10, InstalledAppVersionId := 100 } ∧
      (InstallApp chartMissingImpl demoRequest demoState).2.db.activeAppsNamed "demo" =
        [newAppRow chartMissingImpl (appCreateRequestOf demoRequest) 1] ∧
      otherVersionRequest.AppName = demoRequest.AppName ∧
      (InstallApp chartMissingImpl otherVersionRequest
          (InstallApp chartMissingImpl demoRequest demoState).2).1 =
        Except.error (Error.other "no chart version") ∧
      Error.other "no chart version" ≠
        Error.apiError chartMissingImpl.AppAlreadyExistsCode "app already exists"
          ("app already exists with name " ++ otherVersionRequest.AppName) := by
  refine ⟨by rfl, by rfl, by rfl, by rfl, by decide⟩

/-- C13 (amended): for every create request for which the lookup by name returns
an active App row of a positive id, `createAppForAppStore` returns the
`ApiError` with the `AppAlreadyExists` code and the user message "app already
exists with name <name>" and leaves the transaction as it was (no insert, no
update).  Consequently, when the lookup by name is exact and the keys are
positive: after a successful install of a name the committed App table holds
exactly one active row of that name; a second install of the name never
succeeds and leaves the committed App rows, so that one active row, as they
were; it returns the conflict whenever every step of the install that precedes
`createAppForAppStore` succeeds (`Begin`, the chart-version lookup, the
environment step, the lookup of the environment row), and otherwise the error
of the first of these steps that fails. -/
theorem C13_existing_app_conflict (impl : AppStoreDeploymentServiceImpl) :
    (∀ (createRequest : CreateAppDTO) (tx : Tx) (db : DB) (a : App) (err : Option Error),
      impl.appRepository.FindActiveByName db createRequest.AppName = (some a, err) →
      (err = none ∨ err = some Error.pgErrNoRows) → 0 < a.Id →
        createAppForAppStore impl createRequest tx db =
          (Except.error
              (Error.apiError impl.AppAlreadyExistsCode "app already exists"
                ("app already exists with name " ++ createRequest.AppName)),
            tx)) ∧
    (∀ (req1 req2 out1 : InstallAppVersionDTO) (s : State),
      ExactFindActiveByName impl → (∀ a ∈ s.db.app, 0 < a.Id) →
      (InstallApp impl req1 s).1 = Except.ok out1 → 0 < out1.AppId →
      req2.AppName = req1.AppName →
        (∃ a, (InstallApp impl req1 s).2.db.activeAppsNamed req1.AppName = [a] ∧
          a.Id = out1.AppId ∧
          (InstallApp impl req2 (InstallApp impl req1 s).2).2.db.activeAppsNamed req1.AppName = [a]) ∧
        (InstallApp impl req2 (InstallApp impl req1 s).2).2.db.app =
          (InstallApp impl req1 s).2.db.app ∧
        (∀ req3 s3 environment,
          InstallReachesCreateApp impl req2 (InstallApp impl req1 s).2 req3 s3 environment →
            (InstallApp impl req2 (InstallApp impl req1 s).2).1 =
              Except.error
                (Error.apiError impl.AppAlreadyExistsCode "app already exists"
                  ("app already exists with name " ++ req2.AppName))) ∧
        ∃ e, (InstallApp impl req2 (InstallApp impl req1 s).2).1 = Except.error e ∧
          ((e = Error.apiError impl.AppAlreadyExistsCode "app already exists"
                  ("app already exists with name " ++ req2.AppName) ∧
              ∃ req3 s3 environment,
                InstallReachesCreateApp impl req2 (InstallApp impl req1 s).2 req3 s3 environment) ∨
            impl.installedAppRepository.GetConnection.Begin TxSite.install = some e ∨
            (impl.installedAppRepository.GetConnection.Begin TxSite.install = none ∧
              impl.appStoreApplicationVersionRepository.FindById req2.AppStoreVersion = Except.error e) ∨
            (impl.installedAppRepository.GetConnection.Begin TxSite.install = none ∧
              (∃ version, impl.appStoreApplicationVersionRepository.FindById req2.AppStoreVersion =
                Except.ok version) ∧
              (AppStoreDeployOperationDB.environmentStep impl req2 (InstallApp impl req1 s).2).1 = some e) ∨
            (impl.installedAppRepository.GetConnection.Begin TxSite.install = none ∧
              (∃ version, impl.appStoreApplicationVersionRepository.FindById req2.AppStoreVersion =
                Except.ok version) ∧
              ∃ req3 s3,
                AppStoreDeployOperationDB.environmentStep impl req2 (InstallApp impl req1 s).2 =
                  (none, req3, s3) ∧
                impl.environmentRepository.FindById s3.db req3.EnvironmentId = Except.error e))) := by
  constructor
  · intro cr tx db a err hfind herr hid
    exact createAppForAppStore_conflict impl cr tx db a err hfind herr hid
  · intro req1 req2 out1 s hexact hpos hok hkey hname
    have happ := InstallApp_ok_app impl req1 out1 s hok
    have hnone := InstallApp_ok_no_active impl req1 out1 s hexact hpos hok
    have hfilter : (InstallApp impl req1 s).2.db.activeAppsNamed req1.AppName =
        [newAppRow impl (appCreateRequestOf req1) out1.AppId] := by
      simp only [DB.activeAppsNamed, happ, List.filter_append]
      have h0 : s.db.app.filter (fun a => a.Active && decide (a.AppName = req1.AppName)) = [] := by
        rw [List.filter_eq_nil_iff]
        intro a ha
        have := hnone a ha
        simpa using this
      rw [h0]
      simp [newAppRow, appCreateRequestOf]
    have hconf : ∀ db : DB, db.app = (InstallApp impl req1 s).2.db.app →
        createAppForAppStore impl (appCreateRequestOf req2) [] db =
          (Except.error (appAlreadyExistsError impl req2.AppName), []) := by
      intro db hdb
      obtain ⟨a1, hfind, hmem, _, _⟩ := hexact db req2.AppName
        (newAppRow impl (appCreateRequestOf req1) out1.AppId)
        (by rw [hdb, happ]; simp) rfl (by simp [newAppRow, appCreateRequestOf, hname])
      have hid : 0 < a1.Id := by
        rw [hdb, happ] at hmem
        rcases List.mem_append.mp hmem with h | h
        · exact hpos a1 h
        · simp only [List.mem_singleton] at h
          rw [h]
          exact hkey
      exact createAppForAppStore_conflict impl (appCreateRequestOf req2) [] db a1 none
        (by simpa [appCreateRequestOf] using hfind) (Or.inl rfl) hid
    obtain ⟨_, hsame⟩ := InstallApp_of_conflict impl req2 (InstallApp impl req1 s).2
      (appAlreadyExistsError impl req2.AppName) hconf
    have hreach : ∀ req3 s3 environment,
        InstallReachesCreateApp impl req2 (InstallApp impl req1 s).2 req3 s3 environment →
          (InstallApp impl req2 (InstallApp impl req1 s).2).1 =
            Except.error (appAlreadyExistsError impl req2.AppName) := by
      intro req3 s3 environment hr
      rw [InstallApp_reaches_conflict impl req2 req3 _ s3 environment _ hr hconf]
    refine ⟨⟨_, hfilter, rfl, ?_⟩, hsame.1, hreach, ?_⟩
    · simp only [DB.activeAppsNamed] at hfilter ⊢
      rw [hsame.1]
      exact hfilter
    · rcases InstallApp_steps_before_createApp impl req2 (InstallApp impl req1 s).2 with
        ⟨req3, s3, environment, hr⟩ | ⟨e, he, hor⟩
      · exact ⟨_, hreach req3 s3 environment hr, Or.inl ⟨rfl, req3, s3, environment, hr⟩⟩
      · exact ⟨e, he, Or.inr hor⟩

/-- Witness for C13 (amended): "demo" is installed into `demoState` by
`demoImpl`, then installed again; every step before `createAppForAppStore`
succeeds, the second install returns the conflict and one active row named
"demo" remains. -/
theorem C13_existing_app_conflict_witness :
    (∃ a, (InstallApp demoImpl demoRequest demoState).2.db.activeAppsNamed "demo" = [a] ∧
        a.Id = 1 ∧
        (InstallApp demoImpl demoRequest (InstallApp demoImpl demoRequest demoState).2).2.db.activeAppsNamed
          "demo" = [a]) ∧
      (InstallApp demoImpl demoRequest (InstallApp demoImpl demoRequest demoState).2).1 =
        Except.error (Error.apiError "conflict" "app already exists" "app already exists with name demo") :=
  have h := (C13_existing_app_conflict demoImpl).2 demoRequest demoRequest
      { demoRequest with AppId := 1, InstalledAppId := 10, InstalledAppVersionId := 100 } demoState
      demoImpl_exactFindActiveByName (by simp [demoState]) (by rfl) (by decide) rfl
  ⟨h.1,
    h.2.2.1 demoRequest (InstallApp demoImpl demoRequest demoState).2
      { Id := 1, Name := "clusterA__ns1", ClusterId := 1, Namespace := "ns1", Active := true }
      ⟨by rfl, ⟨{ Id := 40 }, by rfl⟩, by rfl, by rfl⟩⟩

/-! ## C18: a successful delete -/

/-- C18, as stated, fails: the version lookup of `activeVersionsImpl` is
soft-deleted-filtered, and `historyState` holds, besides the active version 100
of the installation 10, the older version 99, inactive and last updated by
user 9.  The delete requested by user 8 succeeds in every step and returns the
request; afterwards the version row 100 is inactive with `UpdatedBy = 8`, but the
version row 99, which belongs to the same InstalledApp, is as it was, with
`UpdatedBy = 9`: the code deactivates the rows the lookup returned. -/
theorem C18_counterexample :
    (DeleteInstalledApp activeVersionsImpl demoDeleteRequest historyState).1 =
        Except.ok demoDeleteRequest ∧
      (DeleteInstalledApp activeVersionsImpl demoDeleteRequest historyState).2.db.installedAppVersions =
        [{ Id := 99, InstalledAppId := 10, AppStoreApplicationVersionId := 39,
           ValuesYaml := "key: old", Active := false,
           CreatedOn := 4, CreatedBy := 9, UpdatedOn := 5, UpdatedBy := 9 },
         { Id := 100, InstalledAppId := 10, AppStoreApplicationVersionId := 40,
           ValuesYaml := "key: v", Active := false,
           CreatedOn := 5, CreatedBy := 9, UpdatedOn := 5, UpdatedBy := 8 }] ∧
      ∃ r ∈ (DeleteInstalledApp activeVersionsImpl demoDeleteRequest historyState).2.db.installedAppVersions,
        r.InstalledAppId = demoDeleteRequest.InstalledAppId ∧ r.UpdatedBy ≠ demoDeleteRequest.UserId := by
  have h : (DeleteInstalledApp activeVersionsImpl demoDeleteRequest historyState).2.db.installedAppVersions =
      [{ Id := 99, InstalledAppId := 10, AppStoreApplicationVersionId := 39,
         ValuesYaml := "key: old", Active := false,
         CreatedOn := 4, CreatedBy := 9, UpdatedOn := 5, UpdatedBy := 9 },
       { Id := 100, InstalledAppId := 10, AppStoreApplicationVersionId := 40,
         ValuesYaml := "key: v", Active := false,
         CreatedOn := 5, CreatedBy := 9, UpdatedOn := 5, UpdatedBy := 8 }] := by rfl
  refine ⟨by rfl, h, ?_⟩
  rw [h]
  exact ⟨_, List.mem_cons_self _ _, by decide, by decide⟩

/-- C18 (amended): for every delete request on which `DeleteInstalledApp`
succeeds (every step succeeded), when its loads return committed rows and the
primary keys are unique: the call returns the request it was given, and the
committed state afterwards is the state from before in which the App row with
the request-s `AppId`, the InstalledApp row with the request-s `InstalledAppId`
and every InstalledAppVersion row that the version lookup returned for that
InstalledApp are replaced by their deactivated copies (inactive, `UpdatedBy` the
requesting user); every other App, InstalledApp and InstalledAppVersion row,
among them the version rows of the InstalledApp that the lookup did not return,
and the other tables, are unchanged.  When the lookup returns at least the
active version rows of the InstalledApp, every version row of the InstalledApp
is inactive afterwards. -/
theorem C18_delete_success (impl : AppStoreDeploymentServiceImpl) (req out : InstallAppVersionDTO)
    (s : State) (hsound : SoundDeleteReads impl) (hkeys : s.db.uniqueKeys)
    (hok : (DeleteInstalledApp impl req s).1 = Except.ok out) :
    out = req ∧
    (DeleteInstalledApp impl req s).2.db.app =
      s.db.app.map (fun r => if r.Id = req.AppId then deactivatedApp impl req r else r) ∧
    (DeleteInstalledApp impl req s).2.db.installedApps =
      s.db.installedApps.map
        (fun r => if r.Id = req.InstalledAppId then deactivatedInstalledApp impl req r else r) ∧
    (∃ models,
      impl.installedAppRepository.GetInstalledAppVersionByInstalledAppId s.db req.InstalledAppId =
        Except.ok models ∧
      (∀ v ∈ models, v ∈ s.db.installedAppVersions ∧ v.InstalledAppId = req.InstalledAppId) ∧
      (DeleteInstalledApp impl req s).2.db.installedAppVersions =
        s.db.installedAppVersions.map
          (fun r => if r ∈ models then deactivatedVersion impl req.UserId r else r) ∧
      ((∀ v ∈ s.db.installedAppVersions,
          v.InstalledAppId = req.InstalledAppId → v.Active = true → v ∈ models) →
        ∀ r ∈ (DeleteInstalledApp impl req s).2.db.installedAppVersions,
          r.InstalledAppId = req.InstalledAppId → r.Active = false)) ∧
    (DeleteInstalledApp impl req s).2.db.clusterInstalledApps = s.db.clusterInstalledApps ∧
    (DeleteInstalledApp impl req s).2.db.environment = s.db.environment ∧
    (∀ r ∈ (DeleteInstalledApp impl req s).2.db.app, r.Id = req.AppId →
      r.Active = false ∧ r.UpdatedBy = req.UserId) ∧
    (∀ r ∈ (DeleteInstalledApp impl req s).2.db.installedApps, r.Id = req.InstalledAppId →
      r.Active = false ∧ r.UpdatedBy = req.UserId) := by
  obtain ⟨hout, app, model, models, happ, hmodel, hmodels, hdb⟩ := DeleteInstalledApp_ok impl req out s hok
  obtain ⟨hexA, hexI, hexV⟩ := hsound
  obtain ⟨hkA, hkI, hkV⟩ := hkeys
  obtain ⟨hamem, haid⟩ := findApp_mem _ _ _ (hexA _ _ _ happ)
  obtain ⟨himem, hiid⟩ := findInstalledApp_mem _ _ _ (hexI _ _ _ hmodel)
  have hv := hexV _ _ _ hmodels
  have hA : (DeleteInstalledApp impl req s).2.db.app =
      s.db.app.map (fun r => if r.Id = req.AppId then deactivatedApp impl req r else r) := by
    rw [hdb, commit_deleteWrites]
    apply List.map_congr_left
    intro r hr
    by_cases h : r.Id = app.Id
    · have : r = app := eq_of_key_eq (fun r : App => r.Id) _ hkA r app hr hamem h
      subst this
      simp [haid]
    · have h2 : ¬ (r.Id = req.AppId) := by rw [← haid]; exact h
      simp [h, h2]
  have hI : (DeleteInstalledApp impl req s).2.db.installedApps =
      s.db.installedApps.map
        (fun r => if r.Id = req.InstalledAppId then deactivatedInstalledApp impl req r else r) := by
    rw [hdb, commit_deleteWrites]
    apply List.map_congr_left
    intro r hr
    by_cases h : r.Id = model.Id
    · have : r = model := eq_of_key_eq (fun r : InstalledApps => r.Id) _ hkI r model hr himem h
      subst this
      simp [hiid]
    · have h2 : ¬ (r.Id = req.InstalledAppId) := by rw [← hiid]; exact h
      simp [h, h2]
  have hV : (DeleteInstalledApp impl req s).2.db.installedAppVersions =
      s.db.installedAppVersions.map
        (fun r => if r ∈ models then deactivatedVersion impl req.UserId r else r) := by
    rw [hdb, commit_deleteWrites]
    apply List.map_congr_left
    intro r hr
    exact foldl_update_row (deactivatedVersion impl req.UserId) (fun _ => rfl) models r r (Or.inl rfl)
      (fun m hm hid =>
        eq_of_key_eq (fun r : InstalledAppVersions => r.Id) _ hkV m r (hv m hm).1 hr hid)
  refine ⟨hout, hA, hI, ⟨models, hmodels, hv, hV, ?_⟩, ?_, ?_, ?_, ?_⟩
  · intro hcover r hr hid
    rw [hV] at hr
    obtain ⟨x, hxmem, hx⟩ := List.mem_map.mp hr
    by_cases h : x ∈ models
    · simp only [h, if_true] at hx
      subst hx
      rfl
    · simp only [h, if_false] at hx
      subst hx
      cases hact : x.Active with
      | false => rfl
      | true => exact (h (hcover x hxmem hid hact)).elim
  · rw [hdb, commit_deleteWrites]
  · rw [hdb, commit_deleteWrites]
  · intro r hr hid
    rw [hA] at hr
    obtain ⟨x, _, hx⟩ := List.mem_map.mp hr
    by_cases h : x.Id = req.AppId
    · simp only [h, if_true] at hx
      subst hx
      exact ⟨rfl, rfl⟩
    · simp only [h, if_false] at hx
      subst hx
      exact (h hid).elim
  · intro r hr hid
    rw [hI] at hr
    obtain ⟨x, _, hx⟩ := List.mem_map.mp hr
    by_cases h : x.Id = req.InstalledAppId
    · simp only [h, if_true] at hx
      subst hx
      exact ⟨rfl, rfl⟩
    · simp only [h, if_false] at hx
      subst hx
      exact (h hid).elim

theorem activeVersionsImpl_soundDeleteReads : SoundDeleteReads activeVersionsImpl := by
  refine ⟨?_, ?_, ?_⟩
  · intro db id a h
    simp only [activeVersionsImpl, demoImpl, demoAppRepository] at h
    split at h
    · rename_i a0 ha0
      cases h
      exact ha0
    · cases h
  · intro db id r h
    simp only [activeVersionsImpl, demoImpl, demoInstalledAppRepository] at h
    split at h
    · rename_i r0 hr0
      cases h
      exact hr0
    · cases h
  · intro db id l h v hvl
    simp only [activeVersionsImpl, demoImpl, demoInstalledAppRepository] at h
    cases h
    simp only [List.mem_filter, Bool.and_eq_true, decide_eq_true_eq] at hvl
    exact ⟨hvl.1, hvl.2.1⟩

/-- Witness for C18 (amended): the installation of "demo" held by `historyState`
is deleted by user 8 through the service with the filtered version lookup; the
App row 1 is deactivated, the version rows the lookup returned are replaced by
their deactivated copies, and, the lookup returning the active rows, every
version row of the installation is inactive afterwards. -/
theorem C18_delete_success_witness :
    (DeleteInstalledApp activeVersionsImpl demoDeleteRequest historyState).1 =
        Except.ok demoDeleteRequest ∧
    (DeleteInstalledApp activeVersionsImpl demoDeleteRequest historyState).2.db.app =
      historyState.db.app.map
        (fun r => if r.Id = 1 then deactivatedApp activeVersionsImpl demoDeleteRequest r else r) ∧
    (∃ models,
      activeVersionsImpl.installedAppRepository.GetInstalledAppVersionByInstalledAppId historyState.db 10 =
        Except.ok models ∧
      (DeleteInstalledApp activeVersionsImpl demoDeleteRequest historyState).2.db.installedAppVersions =
        historyState.db.installedAppVersions.map
          (fun r => if r ∈ models then deactivatedVersion activeVersionsImpl 8 r else r)) ∧
    ∀ r ∈ (DeleteInstalledApp activeVersionsImpl demoDeleteRequest historyState).2.db.installedAppVersions,
      r.InstalledAppId = 10 → r.Active = false := by
  have h := C18_delete_success activeVersionsImpl demoDeleteRequest demoDeleteRequest historyState
    activeVersionsImpl_soundDeleteReads (by simp [DB.uniqueKeys, historyState, installedState]) (by rfl)
  obtain ⟨models, h1, _, h3, h4⟩ := h.2.2.2.1
  refine ⟨by rfl, h.2.1, ⟨models, h1, h3⟩, h4 ?_⟩
  have hm : (Except.ok
      (historyState.db.installedAppVersions.filter
        (fun v => decide (v.InstalledAppId = 10) && v.Active)) : Except Error (List InstalledAppVersions)) =
      Except.ok models := h1
  cases hm
  intro v hv hid hact
  simp only [List.mem_filter, Bool.and_eq_true, decide_eq_true_eq]
  exact ⟨hv, hid, hact⟩

end AppStoreDeployment
